import Mathlib

/-!
Seat reservation ledger of the concert booking service.

A shallow embedding of `src/server/src/daos/contentDao.js` (`addUserSeat`,
`deleteUserSeat`).  Every SQL table the two functions touch is a list of rows,
every SQL statement is a list operation on the table it names, and the
callback chain of each function is written as the sequence of statements it
issues when no storage call fails.
-/

namespace ConcertSystem

/-! ## Tables -/

/-- Row of `Concerts` (the columns the DAO reads). -/
structure Concert where
  concert_id : Int
  theater_id : Int
deriving DecidableEq, Repr

/-- Row of `Seats`: a physical seat of a theater. -/
structure Seat where
  seat_id : Int
  row_number : Int
  seat_position : Int
deriving DecidableEq, Repr

/-- Row of `ConcertSeats`: a seat of one concert together with its status,
which is the text `'available'` or `'occupied'` in the statements of the DAO. -/
structure ConcertSeat where
  concert_seat_id : Int
  concert_id : Int
  seat_id : Int
  status : String
deriving DecidableEq, Repr

/-- Row of `Reservations`. -/
structure Reservation where
  reservation_id : Int
  user_id : Int
  concert_id : Int
deriving DecidableEq, Repr

/-- Row of `ReservationSeat`: the link between a reservation and a seat. -/
structure ReservationSeat where
  reservation_id : Int
  concert_seat_id : Int
deriving DecidableEq, Repr

/-- The database the DAO works on. -/
structure Ledger where
  concerts : List Concert
  seats : List Seat
  concertSeats : List ConcertSeat
  reservations : List Reservation
  reservationSeat : List ReservationSeat
deriving DecidableEq, Repr

/-! ## Transactions -/

/-- An open transaction: the tables as they were at `BEGIN TRANSACTION` and the
tables as the statements issued since then have left them. -/
structure Txn where
  saved : Ledger
  cur : Ledger
deriving DecidableEq, Repr

/-- `BEGIN TRANSACTION`. -/
def beginTransaction (db : Ledger) : Txn := ⟨db, db⟩

/-- `ROLLBACK`: the tables return to what they were at `BEGIN TRANSACTION`. -/
def Txn.rollback (t : Txn) : Ledger := t.saved

/-- `COMMIT`: the tables keep what the transaction wrote. -/
def Txn.commit (t : Txn) : Ledger := t.cur

/-! ## Results -/

/-- The rejections of the two DAO functions, one constructor per `new Error(...)`
that does not wrap a storage error. -/
inductive DaoError where
  /-- `'Invalid input: IDs must be integers'` -/
  | invalidIds
  /-- `'Invalid input: addSeatBody must be a non-empty array of integers'` -/
  | invalidInput
  /-- `'User already has a reservation for this concert.'` -/
  | duplicateReservation
  /-- `'Concert does not exist.'` -/
  | concertDoesNotExist
  /-- `'Theater ID does not match the concert's theater.'` -/
  | theaterMismatch
  /-- `'One or more seats are not available. Occupied seat IDs: ...'` -/
  | seatsUnavailable (occupiedSeatIDs : List Int)
deriving DecidableEq, Repr

deriving instance DecidableEq for Except

/-- What a DAO call hands back: the value the promise resolves to or the error
it rejects with, and the database after the call. -/
structure DaoResult where
  outcome : Except DaoError String
  db : Ledger
deriving DecidableEq

/-! ## SQL statements -/

/-- `SELECT reservation_id FROM Reservations WHERE user_id = ? AND concert_id = ?`
through `db.get`: the first matching row, if any. -/
def checkExistingReservation (db : Ledger) (userID concertID : Int) : Option Reservation :=
  db.reservations.find? (fun r => r.user_id == userID && r.concert_id == concertID)

/-- `SELECT concert_id, theater_id FROM Concerts WHERE concert_id = ?` through `db.get`. -/
def checkConcert (db : Ledger) (concertID : Int) : Option Concert :=
  db.concerts.find? (fun c => c.concert_id == concertID)

/-- `SELECT concert_seat_id, status FROM ConcertSeats WHERE concert_id = ? AND
concert_seat_id IN (...)`: the rows of the concert whose id is among the requested ones. -/
def checkConcertSeats (db : Ledger) (concertID : Int) (addSeatBody : List Int) : List ConcertSeat :=
  db.concertSeats.filter (fun s => s.concert_id == concertID && addSeatBody.contains s.concert_seat_id)

/-- Modelled from the spec: the declaration of the `Reservations` table is not among
the sources, and the spec has the reservation id generated on creation.  The id
`this.lastID` reports after `INSERT INTO Reservations (user_id, concert_id)` is taken
by SQLite's rule for an integer key: one more than the largest id in the table, `1`
for an empty table. -/
def lastID (rs : List Reservation) : Int :=
  rs.foldl (fun m r => max m r.reservation_id) 0 + 1

/-- `INSERT INTO Reservations (user_id, concert_id) VALUES (?, ?)`, with the new id. -/
def insertReservation (db : Ledger) (userID concertID : Int) : Int × Ledger :=
  let reservationID := lastID db.reservations
  (reservationID, { db with reservations := db.reservations ++ [⟨reservationID, userID, concertID⟩] })

/-- `UPDATE ConcertSeats SET status = 'occupied' WHERE concert_seat_id = ?`. -/
def updateSeatOccupied (db : Ledger) (concertSeatID : Int) : Ledger :=
  let occupy : ConcertSeat → ConcertSeat :=
    fun s => if s.concert_seat_id = concertSeatID then { s with status := "occupied" } else s
  { db with concertSeats := db.concertSeats.map occupy }

/-- `INSERT INTO ReservationSeat (reservation_id, concert_seat_id) VALUES (?, ?)`. -/
def insertLink (db : Ledger) (reservationID concertSeatID : Int) : Ledger :=
  { db with reservationSeat := db.reservationSeat ++ [⟨reservationID, concertSeatID⟩] }

/-- `SELECT reservation_id FROM Reservations WHERE user_id = ? AND reservation_id = ?`
through `db.get`. -/
def getReservation (db : Ledger) (user_id reservationId : Int) : Option Reservation :=
  db.reservations.find? (fun r => r.user_id == user_id && r.reservation_id == reservationId)

/-- `SELECT concert_seat_id FROM ReservationSeat WHERE reservation_id = ?`. -/
def getSeats (db : Ledger) (reservationId : Int) : List ReservationSeat :=
  db.reservationSeat.filter (fun l => l.reservation_id == reservationId)

/-- `UPDATE ConcertSeats SET status = 'available' WHERE concert_seat_id IN (...)`. -/
def updateSeatsAvailable (db : Ledger) (concertSeatIDs : List Int) : Ledger :=
  let free : ConcertSeat → ConcertSeat :=
    fun s => if s.concert_seat_id ∈ concertSeatIDs then { s with status := "available" } else s
  { db with concertSeats := db.concertSeats.map free }

/-- `DELETE FROM ReservationSeat WHERE reservation_id = ?`. -/
def deleteReservationSeat (db : Ledger) (reservationId : Int) : Ledger :=
  { db with reservationSeat := db.reservationSeat.filter (fun l => !(l.reservation_id == reservationId)) }

/-- `DELETE FROM Reservations WHERE reservation_id = ?`. -/
def deleteReservation (db : Ledger) (reservationId : Int) : Ledger :=
  { db with reservations := db.reservations.filter (fun r => !(r.reservation_id == reservationId)) }

/-! ## The two operations -/

/-- `addUserSeat(concertID, addSeatBody, theaterID, userID)` on integer ids and a
list of integer seat ids. -/
def addUserSeat (db : Ledger) (concertID : Int) (addSeatBody : List Int)
    (theaterID userID : Int) : DaoResult :=
  -- Input validation (the integer checks hold by typing)
  if addSeatBody.length = 0 then ⟨.error .invalidInput, db⟩ else
  let txn := beginTransaction db
  -- Check if the user already has a reservation for the same concert
  match checkExistingReservation txn.cur userID concertID with
  | some _ => ⟨.error .duplicateReservation, txn.rollback⟩
  | none =>
    -- Check if the concert exists
    match checkConcert txn.cur concertID with
    | none => ⟨.error .concertDoesNotExist, txn.rollback⟩
    | some concert =>
      -- Check if the theater ID matches the concert's theater
      if concert.theater_id ≠ theaterID then ⟨.error .theaterMismatch, txn.rollback⟩ else
      -- Check seat availability using concert_seat_id
      let seats := checkConcertSeats txn.cur concertID addSeatBody
      let unavailableSeats := seats.filter (fun seat => seat.status != "available")
      if unavailableSeats.length > 0 then
        let occupiedSeatIDs := unavailableSeats.map (fun seat => seat.concert_seat_id)
        ⟨.error (.seatsUnavailable occupiedSeatIDs), txn.rollback⟩
      else
        let ins := insertReservation txn.cur userID concertID
        let reservationID := ins.1
        -- Update seats to 'occupied' and link to reservation: one UPDATE and one INSERT
        -- per selected row (they write different tables, so the order in which the
        -- promises issue them does not show in the result)
        let cur := seats.foldl
          (fun d seat => insertLink (updateSeatOccupied d seat.concert_seat_id)
            reservationID seat.concert_seat_id) ins.2
        ⟨.ok "Seats added to reservation successfully.", Txn.commit { txn with cur := cur }⟩

/-- `deleteUserSeat(user_id, reservationId)` on an integer reservation id. -/
def deleteUserSeat (db : Ledger) (user_id reservationId : Int) : DaoResult :=
  let txn := beginTransaction db
  match getReservation txn.cur user_id reservationId with
  | none =>
    ⟨.ok "No reservation found for this user with the provided reservation ID.", txn.commit⟩
  | some _ =>
    let seats := getSeats txn.cur reservationId
    let concertSeatIDs := seats.map (fun seat => seat.concert_seat_id)
    if concertSeatIDs.length > 0 then
      let d1 := updateSeatsAvailable txn.cur concertSeatIDs
      let d2 := deleteReservationSeat d1 reservationId
      let d3 := deleteReservation d2 reservationId
      ⟨.ok "Reservation and associated seats deleted successfully, and seats have been freed.",
        Txn.commit { txn with cur := d3 }⟩
    else
      ⟨.ok "No reserved seats to free.", txn.commit⟩

/-! ## Sequences of calls -/

/-- One call of the reservation API. -/
inductive Call where
  | add (concertID : Int) (addSeatBody : List Int) (theaterID userID : Int)
  | delete (user_id reservationId : Int)
deriving DecidableEq, Repr

/-- The database after one call, whatever its outcome. -/
def Call.run (db : Ledger) : Call → Ledger
  | .add concertID addSeatBody theaterID userID =>
    (addUserSeat db concertID addSeatBody theaterID userID).db
  | .delete user_id reservationId => (deleteUserSeat db user_id reservationId).db

/-- The database after a finite sequence of calls, issued one after the other. -/
def runCalls (db : Ledger) (calls : List Call) : Ledger :=
  calls.foldl Call.run db

/-! ## A sample database -/

/-- Concert 1 in theater 7 with seats 1 to 10, all available, and no reservation. -/
def sampleLedger : Ledger where
  concerts := [⟨1, 7⟩]
  seats := (List.range 10).map (fun i => ⟨(i : Int) + 1, (i : Int) / 5 + 1, (i : Int) % 5 + 1⟩)
  concertSeats := (List.range 10).map (fun i => ⟨(i : Int) + 1, 1, (i : Int) + 1, "available"⟩)
  reservations := []
  reservationSeat := []

/-! ## Closed forms of the two write paths -/

/-- The tables after the write path of `addUserSeat`: the reservation appended,
every row of `ConcertSeats` carrying the id of a selected row set to `'occupied'`,
one link appended per selected row. -/
def claimed (db : Ledger) (concertID : Int) (addSeatBody : List Int) (userID : Int) : Ledger :=
  let seats := checkConcertSeats db concertID addSeatBody
  let ids := seats.map (fun seat => seat.concert_seat_id)
  let occupy : ConcertSeat → ConcertSeat :=
    fun s => if s.concert_seat_id ∈ ids then { s with status := "occupied" } else s
  { db with
    reservations := db.reservations ++ [⟨lastID db.reservations, userID, concertID⟩]
    concertSeats := db.concertSeats.map occupy
    reservationSeat := db.reservationSeat ++
      seats.map (fun seat => ⟨lastID db.reservations, seat.concert_seat_id⟩) }

/-- The tables after the write path of `deleteUserSeat`. -/
def released (db : Ledger) (reservationId : Int) : Ledger :=
  deleteReservation (deleteReservationSeat
    (updateSeatsAvailable db ((getSeats db reservationId).map (fun seat => seat.concert_seat_id)))
    reservationId) reservationId

/-! ## Invariants of the ledger -/

/-- Number of rows of `ReservationSeat` that reference the seat id. -/
def linkCount (db : Ledger) (concertSeatID : Int) : Nat :=
  db.reservationSeat.countP (fun l => l.concert_seat_id == concertSeatID)

/-- Modelled from the spec: the declaration of the `ConcertSeats` table is not among
the sources; the spec keys the seats table by concert and seat id, so within one
concert no two rows carry the same seat id. -/
def SeatKeys (db : Ledger) : Prop :=
  (db.concertSeats.map (fun s => (s.concert_id, s.concert_seat_id))).Nodup

instance (db : Ledger) : Decidable (SeatKeys db) := by
  unfold SeatKeys; infer_instance

/-- Every seat is `'occupied'` exactly when one link references it, and no seat is
referenced by two links. -/
def SeatLinkInv (db : Ledger) : Prop :=
  ∀ s ∈ db.concertSeats,
    (s.status = "occupied" ↔ linkCount db s.concert_seat_id = 1) ∧
      linkCount db s.concert_seat_id ≤ 1

instance (db : Ledger) : Decidable (SeatLinkInv db) := by
  unfold SeatLinkInv; infer_instance

/-- At most one reservation per `(user_id, concert_id)` pair. -/
def OneReservationPerPair (db : Ledger) : Prop :=
  (db.reservations.map (fun r => (r.user_id, r.concert_id))).Nodup

instance (db : Ledger) : Decidable (OneReservationPerPair db) := by
  unfold OneReservationPerPair; infer_instance

/-- Modelled from the spec: the declaration of the `ReservationSeat` table is not among
the sources; in the spec a link exists only for a seat occupied by its reservation, so
every link belongs to a reservation of the ledger. -/
def LinksOwned (db : Ledger) : Prop :=
  ∀ l ∈ db.reservationSeat, ∃ r ∈ db.reservations, r.reservation_id = l.reservation_id

instance (db : Ledger) : Decidable (LinksOwned db) := by
  unfold LinksOwned; infer_instance

/-- Modelled from the spec: the status of a seat is one of `available` and `occupied`. -/
def StatusesKnown (db : Ledger) : Prop :=
  ∀ s ∈ db.concertSeats, s.status = "available" ∨ s.status = "occupied"

instance (db : Ledger) : Decidable (StatusesKnown db) := by
  unfold StatusesKnown; infer_instance

/-- A consistent ledger: the keys and references of the tables hold, together with the
invariants of the data model. -/
def Consistent (db : Ledger) : Prop :=
  SeatKeys db ∧ StatusesKnown db ∧ SeatLinkInv db ∧ LinksOwned db ∧ OneReservationPerPair db

instance (db : Ledger) : Decidable (Consistent db) := by
  unfold Consistent; infer_instance

/-- Every reservation has at least one link to a seat. -/
def EveryReservationLinked (db : Ledger) : Prop :=
  ∀ r ∈ db.reservations, ∃ l ∈ db.reservationSeat, l.reservation_id = r.reservation_id

instance (db : Ledger) : Decidable (EveryReservationLinked db) := by
  unfold EveryReservationLinked; infer_instance

/-! ## Further sample databases -/

/-- The sample concert after user 42 claimed seats 5 and 6 (reservation 1). -/
def bookedLedger : Ledger := (addUserSeat sampleLedger 1 [5, 6] 7 42).db

/-- The sample concert after user 42 claimed the seat id 11, which the concert does
not have. -/
def strayLedger : Ledger := (addUserSeat sampleLedger 1 [11] 7 42).db

/-- Two concerts in theater 7 with two seats each, all available, and no reservation:
the ids 1 and 2 are the seats of concert 1, the ids 3 and 4 the seats of concert 2. -/
def twoConcertLedger : Ledger where
  concerts := [⟨1, 7⟩, ⟨2, 7⟩]
  seats := [⟨1, 1, 1⟩, ⟨2, 1, 2⟩]
  concertSeats := [⟨1, 1, 1, "available"⟩, ⟨2, 1, 2, "available"⟩, ⟨3, 2, 1, "available"⟩,
    ⟨4, 2, 2, "available"⟩]
  reservations := []
  reservationSeat := []

/-! ## JavaScript values and the input validation of `addUserSeat` -/

/-- A JavaScript value, as far as the checks of the two servers tell values apart.
A finite number is the rational it stands for; `infinity` is `Infinity` or `-Infinity`,
which a JSON text carries as a literal out of range such as `1e999`. -/
inductive JsValue where
  | undefined
  | null
  | boolean (b : Bool)
  | number (x : ℚ)
  | infinity (negative : Bool)
  | string (s : String)
  | array (items : List JsValue)
  | object

/-- `Number.isInteger(v)`: a number without fractional part. -/
def JsValue.isInteger : JsValue → Bool
  | .number x => x.den == 1
  | _ => false

/-- `Array.isArray(v)`. -/
def JsValue.isArray : JsValue → Bool
  | .array _ => true
  | _ => false

/-- The elements of an array (no element for any other value). -/
def JsValue.items : JsValue → List JsValue
  | .array items => items
  | _ => []

/-- The integer an integer-valued number stands for. -/
def JsValue.toInt : JsValue → Int
  | .number x => x.num
  | _ => 0

/-- The integer `n` as a JavaScript number. -/
def JsValue.ofInt (n : Int) : JsValue := .number n

/-- `addUserSeat` on arbitrary JavaScript arguments: the input validation at the head
of the function, then the transaction on the integers that passed it. -/
def addUserSeatJs (db : Ledger) (concertID addSeatBody theaterID userID : JsValue) : DaoResult :=
  -- Input validation
  if !concertID.isInteger || !theaterID.isInteger || !userID.isInteger then
    ⟨.error .invalidIds, db⟩
  else if !addSeatBody.isArray || !addSeatBody.items.all JsValue.isInteger ||
      addSeatBody.items.length == 0 then
    ⟨.error .invalidInput, db⟩
  else
    addUserSeat db concertID.toInt (addSeatBody.items.map JsValue.toInt) theaterID.toInt
      userID.toInt

/-! ## Storage faults in `deleteUserSeat` -/

/-- The storage calls of `deleteUserSeat`, in the order in which its callback chain
issues them. -/
inductive ReleaseStep where
  | beginTransaction
  | getReservation
  | getSeats
  | updateSeats
  | deleteReservationSeat
  | deleteReservation
  | commit
deriving DecidableEq, Repr

/-- What a call of `deleteUserSeat` with a failing storage call leaves behind: the
promise, the tables as the statements of the connection read them after the call,
and, when the transaction was neither committed nor rolled back, the tables a
`ROLLBACK` would still restore. -/
structure FaultyResult where
  outcome : Except String String
  db : Ledger
  openTransaction : Option Ledger
deriving DecidableEq

/-- `deleteUserSeat(user_id, reservationId)` when the storage call `failing` reports
an error if the call reaches it (a failing statement writes nothing).  Every branch
is the `if (err)` of the callback of that storage call. -/
def deleteUserSeatFaulty (failing : ReleaseStep) (db : Ledger) (user_id reservationId : Int) :
    FaultyResult :=
  if failing = .beginTransaction then
    ⟨.error "Error starting transaction: ", db, none⟩
  else
  let txn := beginTransaction db
  if failing = .getReservation then
    ⟨.error "Error checking reservation: ", txn.rollback, none⟩
  else
  match getReservation txn.cur user_id reservationId with
  | none =>
    -- `db.run('COMMIT')` without callback, and the promise resolves at once
    ⟨.ok "No reservation found for this user with the provided reservation ID.", txn.commit,
      if failing = .commit then some txn.saved else none⟩
  | some _ =>
    if failing = .getSeats then
      ⟨.error "Error retrieving reserved seats: ", txn.rollback, none⟩
    else
    let seats := getSeats txn.cur reservationId
    let concertSeatIDs := seats.map (fun seat => seat.concert_seat_id)
    if concertSeatIDs.length > 0 then
      if failing = .updateSeats then
        ⟨.error "Error updating seat status: ", txn.rollback, none⟩
      else
      let d1 := updateSeatsAvailable txn.cur concertSeatIDs
      if failing = .deleteReservationSeat then
        ⟨.error "Error deleting reserved seats: ", Txn.rollback { txn with cur := d1 }, none⟩
      else
      let d2 := deleteReservationSeat d1 reservationId
      if failing = .deleteReservation then
        ⟨.error "Error deleting reservation: ", Txn.rollback { txn with cur := d2 }, none⟩
      else
      let d3 := deleteReservation d2 reservationId
      if failing = .commit then
        -- Reject if commit fails: no `ROLLBACK` is issued
        ⟨.error "Error committing transaction: ", d3, some txn.saved⟩
      else
        ⟨.ok "Reservation and associated seats deleted successfully, and seats have been freed.",
          Txn.commit { txn with cur := d3 }, none⟩
    else
      if failing = .commit then
        ⟨.error "Error committing transaction: ", txn.cur, some txn.saved⟩
      else
        ⟨.ok "No reserved seats to free.", txn.commit, none⟩

/-! ## The discount estimator (`server2/index.js`) -/

/-- Payload of a verified token, as `express-jwt` stores it in `req.auth`. -/
structure TokenPayload where
  reservations : JsValue
  role : JsValue

/-- What the `express-jwt` middleware does with a request: it passes an error to
`next` (an `UnauthorizedError` whenever the token is missing or fails verification),
or it stores the payload of the verified token in `req.auth`. -/
inductive JwtOutcome where
  | error (name code : String)
  | verified (auth : TokenPayload)

/-- A request to the estimator. -/
structure EstimatorRequest where
  method : String
  path : String
  jwt : JwtOutcome

/-- The responses of the estimator. -/
inductive EstimatorResponse where
  /-- Status 401 with the message `'Authorization error'` and the code of the error. -/
  | authorizationError (code : String)
  /-- Status 400 with `error` set to the message. -/
  | badRequest (error : String)
  /-- Status 200 with the text of the discount. -/
  | discount (text : String)
  /-- Status 200 with a text JavaScript builds from an element of `reservations` that
  is not a number, where the coercion is not followed here. -/
  | coerced
  /-- Status 404: no route of the application matches the request. -/
  | notFound
deriving DecidableEq, Repr

/-- The HTTP status of a response. -/
def EstimatorResponse.status : EstimatorResponse → Nat
  | .authorizationError _ => 401
  | .badRequest _ => 400
  | .discount _ => 200
  | .coerced => 200
  | .notFound => 404

/-! ### Numbers

A JavaScript number is a binary64 value.  A finite value is the rational it stands for;
the sign of zero is not kept, since no operation of the estimator tells `-0` from `0`. -/

/-- A value of the Number type. -/
inductive JsNumber where
  | finite (x : ℚ)
  | infinity (negative : Bool)
  | nan
deriving DecidableEq

/-- The integer nearest to `t`, the even one of the two when `t` is halfway. -/
def roundHalfEven (t : ℚ) : Int :=
  if t - ⌊t⌋ < 1 / 2 then ⌊t⌋
  else if 1 / 2 < t - ⌊t⌋ then ⌊t⌋ + 1
  else if ⌊t⌋ % 2 = 0 then ⌊t⌋ else ⌊t⌋ + 1

/-- The exponent of the binade of `x` in binary64: `e` with `2 ^ e ≤ |x| < 2 ^ (e + 1)`,
and `-1022` for the subnormal values and zero. -/
def binade (x : ℚ) : Int := max (Int.log 2 |x|) (-1022)

/-- Rounding to the 53 significant bits of binary64, to nearest and ties to even, before
the check for overflow: the multiple of `2 ^ (binade x - 52)` nearest to `x`. -/
def roundFinite (x : ℚ) : ℚ :=
  let quantum : ℚ := 2 ^ (binade x - 52)
  roundHalfEven (x / quantum) * quantum

/-- The binary64 value of the real number `x`: the result of an arithmetic operation
whose exact result is `x`.  A rounded value of size `2 ^ 1024` or more is an infinity. -/
def roundDouble (x : ℚ) : JsNumber :=
  if 2 ^ 1024 ≤ |roundFinite x| then .infinity (decide (x < 0)) else .finite (roundFinite x)

/-- The sum `a + b` of two numbers. -/
def JsNumber.add : JsNumber → JsNumber → JsNumber
  | .finite x, .finite y => roundDouble (x + y)
  | .finite _, .infinity t => .infinity t
  | .infinity s, .finite _ => .infinity s
  | .infinity s, .infinity t => if s = t then .infinity s else .nan
  | .nan, _ => .nan
  | _, .nan => .nan

/-- The quotient `a / d` for a finite divisor `d` other than zero. -/
def JsNumber.div (a : JsNumber) (d : ℚ) : JsNumber :=
  match a with
  | .finite x => roundDouble (x / d)
  | .infinity s => .infinity (s != decide (d < 0))
  | .nan => .nan

/-- `Math.round(x)` for a finite `x`: the nearest integer, a half going up. -/
def mathRound (x : ℚ) : Int := ⌊x + 1 / 2⌋

/-- `Math.round(a)`. -/
def JsNumber.round : JsNumber → JsNumber
  | .finite x => .finite (mathRound x)
  | .infinity s => .infinity s
  | .nan => .nan

/-- `Math.min(a, b)`. -/
def mathMin : JsNumber → JsNumber → JsNumber
  | .nan, _ => .nan
  | _, .nan => .nan
  | .infinity true, _ => .infinity true
  | _, .infinity true => .infinity true
  | .infinity false, b => b
  | a, .infinity false => a
  | .finite x, .finite y => .finite (min x y)

/-- `Math.max(a, b)`. -/
def mathMax : JsNumber → JsNumber → JsNumber
  | .nan, _ => .nan
  | _, .nan => .nan
  | .infinity false, _ => .infinity false
  | _, .infinity false => .infinity false
  | .infinity true, b => b
  | a, .infinity true => a
  | .finite x, .finite y => .finite (max x y)

/-- `getRandomNumber(min, max)`, with `u` the value `Math.random()` returns. -/
def getRandomNumber (min max : Int) (u : ℚ) : Int :=
  ⌊u * ((max : ℚ) - min + 1)⌋ + min

/-- The number a JavaScript value is, if `typeof` says it is one. -/
def JsValue.toNumber? : JsValue → Option JsNumber
  | .number x => some (.finite x)
  | .infinity negative => some (.infinity negative)
  | _ => none

/-- `role === n` for a number `n`. -/
def JsValue.isNumber (v : JsValue) (n : ℚ) : Bool :=
  match v with
  | .number x => x == n
  | _ => false

/-- What the arithmetic of the handler holds: a number or, once an element of
`reservations` was a string, a string. -/
inductive JsArith where
  | num (x : JsNumber)
  | str (s : String)
deriving DecidableEq

/-- The text JavaScript writes for a number, followed for `NaN`, the infinities and the
integers below `10^21` in size, which it writes in decimal digits. -/
def numberText? : JsNumber → Option String
  | .finite x => if x.den = 1 ∧ x.num.natAbs < 10 ^ 21 then some (toString x.num) else none
  | .infinity negative => some (if negative then "-Infinity" else "Infinity")
  | .nan => some "NaN"

/-- `acc + seatNumber`: numbers add (`null` and `false` count 0, `true` counts 1,
`undefined` gives `NaN`), and a string on either side makes a string of both.  Arrays
and objects are not followed. -/
def JsArith.add (acc : JsArith) (v : JsValue) : Option JsArith :=
  match acc, v with
  | .num x, .number y => some (.num (x.add (.finite y)))
  | .num x, .infinity negative => some (.num (x.add (.infinity negative)))
  | .num x, .null => some (.num (x.add (.finite 0)))
  | .num x, .boolean b => some (.num (x.add (.finite (if b then 1 else 0))))
  | .num x, .undefined => some (.num (x.add .nan))
  | .num x, .string t => (numberText? x).map (fun s => .str (s ++ t))
  | .str s, .number y => (numberText? (.finite y)).map (fun t => .str (s ++ t))
  | .str s, .infinity negative =>
    (numberText? (.infinity negative)).map (fun t => .str (s ++ t))
  | .str s, .null => some (.str (s ++ "null"))
  | .str s, .boolean b => some (.str (s ++ if b then "true" else "false"))
  | .str s, .undefined => some (.str (s ++ "undefined"))
  | .str s, .string t => some (.str (s ++ t))
  | _, .array _ => none
  | _, .object => none

/-- A letter that occurs in no numeric literal (the letters of the hexadecimal digits,
of the prefixes `0x`, `0o`, `0b`, of the exponent and of `Infinity` do). -/
def notInNumericLiteral (c : Char) : Bool :=
  c.isAlpha && !("abcdefABCDEFxXoObBInity".toList.contains c)

/-- `Number(s)` for a string, followed in two cases: a string of decimal digits is the
number they write, and a string with a letter that occurs in no numeric literal is
`NaN`. -/
def stringToNumber? (s : String) : Option JsNumber :=
  if s.toList ≠ [] ∧ s.toList.all Char.isDigit = true then
    some (roundDouble ((s.toList.foldl (fun n c => 10 * n + (c.toNat - 48)) 0 : Nat) : ℚ))
  else if s.toList.any notInNumericLiteral then some .nan
  else none

/-- The number an operand of `/` or an argument of `Math.round` counts as. -/
def JsArith.toNumber? : JsArith → Option JsNumber
  | .num x => some x
  | .str s => stringToNumber? s

/-- `sumSeatNumbers(reservations, isLoyal)`, where the coercions are followed. -/
def sumSeatNumbers (reservations : List JsValue) (isLoyal : Bool) : Option JsArith :=
  let sum := reservations.foldl
    (fun acc seatNumber => acc.bind (fun a => a.add seatNumber)) (some (.num (.finite 0)))
  if isLoyal then sum else sum.bind (fun s => s.toNumber?.map (fun x => .num (x.div 3)))

/-- `calculateDiscount(seatSum)`, with `u` the value `Math.random()` returns. -/
def calculateDiscount (seatSum : JsArith) (u : ℚ) : Option JsNumber :=
  let randomAddition := getRandomNumber 5 20 u
  let total : JsArith :=
    match seatSum with
    | .num x => .num (x.add (.finite randomAddition))
    | .str s => .str (s ++ toString randomAddition)
  total.toNumber?.map fun rounded =>
    let discount := rounded.round
    mathMax (.finite 5) (mathMin discount (.finite 50))

/-- The discount `calculateDiscount` returns when the exact sum of `seatSum` and the
random addition is `x`: the sum is rounded to binary64, then to an integer, then
constrained between 5 and 50. -/
def doubleDiscount (x : ℚ) : Int :=
  if 2 ^ 1024 ≤ |roundFinite x| then (if x < 0 then 5 else 50)
  else max 5 (min (mathRound (roundFinite x)) 50)

/-- The handler of `GET /api/get-estimation`, on `req.auth` (absent when no token was
decoded) and the value `u` of `Math.random()`. -/
def getEstimation (auth : Option TokenPayload) (u : ℚ) : EstimatorResponse :=
  match auth with
  | none => .badRequest "Invalid or missing reservations data."
  | some auth =>
    if !auth.reservations.isArray || auth.reservations.items.length == 0 then
      .badRequest "Invalid or missing reservations data."
    else if !(auth.role.toNumber?).isSome || (!auth.role.isNumber 0 && !auth.role.isNumber 1) then
      .badRequest "Invalid Role."
    else
      let isLoyal := auth.role.isNumber 1
      match (sumSeatNumbers auth.reservations.items isLoyal).bind
          (fun seatSum => calculateDiscount seatSum u) with
      | some discount =>
        match numberText? discount with
        | some text => .discount (text ++ "%")
        | none => .coerced
      | none => .coerced

/-- The routes of the estimator: the one handler, or no match.  The path is compared
as the request writes it. -/
def estimatorRoutes (req : EstimatorRequest) (auth : Option TokenPayload) (u : ℚ) :
    EstimatorResponse :=
  if req.method = "GET" ∧ req.path = "/api/get-estimation" then getEstimation auth u
  else .notFound

/-- The estimator: the JWT middleware, the error-handling middleware (status 401 for an
`UnauthorizedError`, `next()` for any other error), then the routes. -/
def estimatorApp (req : EstimatorRequest) (u : ℚ) : EstimatorResponse :=
  match req.jwt with
  | .error name code =>
    if name = "UnauthorizedError" then .authorizationError code
    else estimatorRoutes req none u
  | .verified auth => estimatorRoutes req (some auth) u

/-- The request `ApiServices.getEstimation` sends to the estimator:
`API2.post('/api/get-estimation', {}, ...)` with the bearer token in the
`Authorization` header; `jwt` is what `express-jwt` makes of that token. -/
def clientEstimationRequest (jwt : JwtOutcome) : EstimatorRequest :=
  ⟨"POST", "/api/get-estimation", jwt⟩

/-! ## JavaScript strings: the message of the occupied seats, from server to client

A string is the list of its characters. -/

/-- The decimal text JavaScript writes for an integer. -/
def integerText : Int → List Char
  | .ofNat m => Nat.toDigits 10 m
  | .negSucc m => '-' :: Nat.toDigits 10 (m + 1)

/-- `errorMsg` of `addUserSeat`: the fixed text and `occupiedSeatIDs.join(', ')`. -/
def seatsUnavailableMessage (occupiedSeatIDs : List Int) : List Char :=
  "One or more seats are not available. Occupied seat IDs: ".toList ++
    ", ".toList.intercalate (occupiedSeatIDs.map integerText)

/-- `s.includes(lit)`. -/
def includes : List Char → List Char → Bool
  | [], lit => lit.isEmpty
  | c :: cs, lit => lit.isPrefixOf (c :: cs) || includes cs lit

/-- A line terminator, which the `.` of a regular expression does not match. -/
def isLineTerminator (c : Char) : Bool :=
  c.toNat = 0x0A || c.toNat = 0x0D || c.toNat = 0x2028 || c.toNat = 0x2029

/-- `s.match(/lit(.*)/)[1]` for a literal text `lit`: what follows the first occurrence
of `lit`, up to the end of the line; `none` when `lit` does not occur (`match` gives
`null` and the index throws). -/
def matchAfter (lit : List Char) : List Char → Option (List Char)
  | [] => if lit.isEmpty then some [] else none
  | c :: cs =>
    if lit.isPrefixOf (c :: cs) then
      some (((c :: cs).drop lit.length).takeWhile (fun a => !isLineTerminator a))
    else matchAfter lit cs

/-- White space that `parseInt` skips at the head of a string. -/
def isStrWhiteSpace (c : Char) : Bool :=
  [0x09, 0x0A, 0x0B, 0x0C, 0x0D, 0x20, 0xA0, 0x1680, 0x2000, 0x2001, 0x2002, 0x2003, 0x2004,
    0x2005, 0x2006, 0x2007, 0x2008, 0x2009, 0x200A, 0x2028, 0x2029, 0x202F, 0x205F, 0x3000,
    0xFEFF].contains c.toNat

/-- The value of a character as a digit in the radix, if it is one. -/
def digitValue? (radix : Nat) (c : Char) : Option Nat :=
  let v :=
    if '0' ≤ c ∧ c ≤ '9' then some (c.toNat - 48)
    else if 'a' ≤ c ∧ c ≤ 'z' then some (c.toNat - 87)
    else if 'A' ≤ c ∧ c ≤ 'Z' then some (c.toNat - 55)
    else none
  v.filter (fun d => d < radix)

/-- `parseInt(s)` without radix: leading white space and a sign are skipped, `0x`
announces hexadecimal digits, and the longest run of digits is the number; `none` is
`NaN`, for a string without such a digit. -/
def parseInt (s : List Char) : Option Int :=
  let t := s.dropWhile isStrWhiteSpace
  let negative := t.head? == some '-'
  let t1 := if t.head? == some '-' || t.head? == some '+' then t.tail else t
  let hex := t1.take 2 == ['0', 'x'] || t1.take 2 == ['0', 'X']
  let radix := if hex then 16 else 10
  let t2 := if hex then t1.drop 2 else t1
  let digits := t2.takeWhile (fun c => (digitValue? radix c).isSome)
  if digits.isEmpty then none
  else
    let value := digits.foldl (fun n c => radix * n + (digitValue? radix c).getD 0) 0
    some (if negative then -(value : Int) else value)

/-- The message of the error `ApiServices.addUserSeat` throws for the `details` of a
failed request (`axiosMessage` is the message of the request error itself). -/
def apiAddUserSeatError (details axiosMessage : List Char) : Option (List Char) :=
  if includes details "One or more seats are not available".toList then
    (matchAfter "Occupied seat IDs: ".toList details).map
      (fun occupiedSeats => "One or more seats are not available: ".toList ++ occupiedSeats)
  else
    some ("An error occurred during concert management: ".toList ++ axiosMessage)

/-- `String(err)` for an error with the name `Error`. -/
def errorToString (message : List Char) : List Char :=
  if message.isEmpty then "Error".toList else "Error: ".toList ++ message

/-- The message of the error `handleAdd` of `App.jsx` throws for the message it caught:
`new Error(err)` takes `String(err)` as its message. -/
def handleAddError (message : List Char) : List Char :=
  if includes message "One or more seats are not available".toList then errorToString message
  else "Error on Add a Seat".toList

/-- The list `handleConfirmSelection` passes to `highlightSeats` for the message it
caught, if it does (`none` inside the list is `NaN`). -/
def occupiedSeatsArray (message : List Char) : Option (List (Option Int)) :=
  if includes message "One or more seats are not available".toList then
    (matchAfter "not available: ".toList message).map
      (fun occupiedSeatIds => (occupiedSeatIds.splitOn ',').map (fun id => parseInt id))
  else none

/-- From the `details` of the server to the seats the page highlights. -/
def highlightedSeats (details axiosMessage : List Char) : Option (List (Option Int)) :=
  (apiAddUserSeatError details axiosMessage).bind
    (fun message => occupiedSeatsArray (handleAddError message))

/-! ## The token endpoint (`GET /api/auth-token`) -/

/-- `getReserveSeats(userID, concertID)`: the row numbers of the join of `Reservations`,
`ReservationSeat`, `ConcertSeats` and `Seats` for the user and the concert. -/
def getReserveSeats (db : Ledger) (userID concertID : Int) : List Int :=
  (db.reservations.filter (fun r => r.concert_id == concertID && r.user_id == userID)).flatMap
    fun r =>
      (db.reservationSeat.filter (fun rs => r.reservation_id == rs.reservation_id)).flatMap
        fun rs =>
          (db.concertSeats.filter (fun cs => rs.concert_seat_id == cs.concert_seat_id)).flatMap
            fun cs =>
              (db.seats.filter (fun s => cs.seat_id == s.seat_id)).map fun s => s.row_number

/-- The user of the session, `req.user`. -/
structure SessionUser where
  user_id : Int
  role : JsValue

/-- A token of `jsonwebtoken.sign`: the payload, the secret of the signature, and the
times of issue and expiry in seconds. -/
structure SignedToken where
  payload : TokenPayload
  secret : String
  issuedAt : Nat
  expiresAt : Nat

/-- The secret of the signature. -/
def jwtSecret : String := "47e5edcecab2e23c8545f66fca6f3aec8796aee5d830567cc362bb7fb31adafc"

/-- Token expiration time in seconds. -/
def expireTime : Nat := 35

/-- `jsonwebtoken.sign(payload, secret, { expiresIn })` at the time `now`. -/
def sign (payload : TokenPayload) (secret : String) (expiresIn now : Nat) : SignedToken :=
  ⟨payload, secret, now, now + expiresIn⟩

/-- The answers of the token endpoint. -/
inductive TokenResponse where
  /-- Status 400 with `error` set to the message. -/
  | badRequest (error : String)
  /-- Status 200 with the token. -/
  | token (jwtToken : SignedToken)

/-- The answer of the token endpoint and the database after the request. -/
structure TokenResult where
  response : TokenResponse
  db : Ledger

/-- The handler of `GET /api/auth-token` for a logged-in user, on the query parameter
`concertID` (absent, or a string) at the time `now`.  The handler binds the string
itself to the `?` of the query; `asInteger` is the integer with which SQLite then
compares the column `concert_id`, if the string counts as one. -/
def authToken (asInteger : String → Option Int) (db : Ledger) (user : SessionUser)
    (concertID : Option String) (now : Nat) : TokenResult :=
  let role := user.role
  let userID := user.user_id
  -- Validate concertID
  match concertID with
  | none => ⟨.badRequest "Invalid or missing concertID", db⟩
  | some concertID =>
    if concertID.isEmpty || (parseInt concertID.toList).isNone then
      ⟨.badRequest "Invalid or missing concertID", db⟩
    else
      let reservations :=
        match asInteger concertID with
        | some id => getReserveSeats db userID id
        | none => []
      let payloadToSign : TokenPayload := ⟨.array (reservations.map JsValue.ofInt), role⟩
      let jwtToken := sign payloadToSign jwtSecret expireTime now
      ⟨.token jwtToken, db⟩

/-- Key of `ConcertSeats`: the id under which the links and the `UPDATE` statements
address a row. -/
def ConcertSeatIds (db : Ledger) : Prop :=
  (db.concertSeats.map (fun cs => cs.concert_seat_id)).Nodup

instance (db : Ledger) : Decidable (ConcertSeatIds db) := by
  unfold ConcertSeatIds; infer_instance

/-- Key of `Seats`. -/
def SeatIds (db : Ledger) : Prop :=
  (db.seats.map (fun s => s.seat_id)).Nodup

instance (db : Ledger) : Decidable (SeatIds db) := by
  unfold SeatIds; infer_instance

/-- The row number of the seat a link references: the row of `ConcertSeats` with the
id, then the row of `Seats` it stands for. -/
def rowNumberOf (db : Ledger) (concertSeatID : Int) : Option Int :=
  (db.concertSeats.find? (fun cs => concertSeatID == cs.concert_seat_id)).bind fun cs =>
    (db.seats.find? (fun s => cs.seat_id == s.seat_id)).map fun s => s.row_number

/-- The links of the reservations of the user for the concert. -/
def linkedSeats (db : Ledger) (userID concertID : Int) : List ReservationSeat :=
  (db.reservations.filter (fun r => r.concert_id == concertID && r.user_id == userID)).flatMap
    fun r => getSeats db r.reservation_id

/-- The row numbers of the seats linked to the reservations of the user for the
concert, link by link. -/
def linkedRowNumbers (db : Ledger) (userID concertID : Int) : List Int :=
  (linkedSeats db userID concertID).filterMap fun rs => rowNumberOf db rs.concert_seat_id

/-- A text that SQLite reads as an integer: decimal digits after an optional sign. -/
def decimalInteger? (s : String) : Option Int :=
  let cs := s.toList
  let negative := cs.head? == some '-'
  let digits := if cs.head? == some '-' || cs.head? == some '+' then cs.tail else cs
  if digits.isEmpty || !digits.all Char.isDigit then none
  else
    let value : Nat := digits.foldl (fun n c => 10 * n + (c.toNat - 48)) 0
    some (if negative then -(value : Int) else value)

/-- The ten decimal digits. -/
def decimalDigits : List Char := "0123456789".toList

/-- The number a string of decimal digits writes. -/
def decimalValue (digits : List Char) : Nat :=
  digits.foldl (fun n c => 10 * n + (c.toNat - 48)) 0

/-! ## Basic facts -/

theorem claim_foldl (reservationID : Int) (seats : List ConcertSeat) (d : Ledger) :
    seats.foldl (fun d seat => insertLink (updateSeatOccupied d seat.concert_seat_id)
        reservationID seat.concert_seat_id) d =
      { d with
        concertSeats := d.concertSeats.map (fun s =>
          if s.concert_seat_id ∈ seats.map (fun seat => seat.concert_seat_id)
          then { s with status := "occupied" } else s)
        reservationSeat := d.reservationSeat ++
          seats.map (fun seat => ⟨reservationID, seat.concert_seat_id⟩) } := by
  induction seats generalizing d with
  | nil => simp
  | cons a seats ih =>
    rw [List.foldl_cons, ih]
    simp only [insertLink, updateSeatOccupied, List.map_map, List.map_cons, List.append_assoc,
      List.singleton_append, List.mem_cons]
    congr 1
    apply List.map_congr_left
    intro s _
    by_cases h1 : s.concert_seat_id = a.concert_seat_id
    · simp [h1]
    · simp [h1]

/-- The outcome of `addUserSeat`, branch by branch. -/
theorem addUserSeat_eq (db : Ledger) (concertID : Int) (addSeatBody : List Int)
    (theaterID userID : Int) :
    addUserSeat db concertID addSeatBody theaterID userID =
      if addSeatBody = [] then ⟨.error .invalidInput, db⟩
      else if (checkExistingReservation db userID concertID).isSome then
        ⟨.error .duplicateReservation, db⟩
      else match checkConcert db concertID with
        | none => ⟨.error .concertDoesNotExist, db⟩
        | some concert =>
          if concert.theater_id ≠ theaterID then ⟨.error .theaterMismatch, db⟩
          else if ((checkConcertSeats db concertID addSeatBody).filter
              (fun seat => seat.status != "available")) ≠ [] then
            ⟨.error (.seatsUnavailable (((checkConcertSeats db concertID addSeatBody).filter
              (fun seat => seat.status != "available")).map (fun seat => seat.concert_seat_id))), db⟩
          else
            ⟨.ok "Seats added to reservation successfully.",
              claimed db concertID addSeatBody userID⟩ := by
  unfold addUserSeat
  by_cases h0 : addSeatBody = []
  · simp [h0]
  · have h0l : ¬ addSeatBody.length = 0 := by simpa using h0
    simp only [h0, h0l, if_false, beginTransaction, Txn.rollback, Txn.commit]
    cases h1 : checkExistingReservation db userID concertID with
    | some r => simp
    | none =>
      simp only [Option.isSome_none, Bool.false_eq_true, if_false]
      cases h2 : checkConcert db concertID with
      | none => rfl
      | some concert =>
        simp only
        by_cases h3 : concert.theater_id = theaterID
        · simp only [h3, ne_eq, not_true_eq_false, if_false, List.length_pos]
          by_cases h4 : ((checkConcertSeats db concertID addSeatBody).filter
              (fun seat => seat.status != "available")) = []
          · simp only [h4, ne_eq, not_true_eq_false, if_false]
            simp only [insertReservation, claim_foldl, claimed]
          · simp only [h4, ne_eq, not_false_eq_true, if_true]
        · simp [h3]

/-- The outcome of `deleteUserSeat`, branch by branch. -/
theorem deleteUserSeat_eq (db : Ledger) (user_id reservationId : Int) :
    deleteUserSeat db user_id reservationId =
      if (getReservation db user_id reservationId).isSome then
        if getSeats db reservationId ≠ [] then
          ⟨.ok "Reservation and associated seats deleted successfully, and seats have been freed.",
            released db reservationId⟩
        else ⟨.ok "No reserved seats to free.", db⟩
      else ⟨.ok "No reservation found for this user with the provided reservation ID.", db⟩ := by
  unfold deleteUserSeat
  simp only [beginTransaction, Txn.commit]
  cases h1 : getReservation db user_id reservationId with
  | none => simp
  | some r =>
    by_cases h2 : getSeats db reservationId = []
    · simp [h2]
    · simp [h2, released, List.length_pos]

theorem checkExistingReservation_isSome (db : Ledger) (userID concertID : Int) :
    (checkExistingReservation db userID concertID).isSome = true ↔
      ∃ r ∈ db.reservations, r.user_id = userID ∧ r.concert_id = concertID := by
  simp [checkExistingReservation, List.find?_isSome]

theorem getReservation_isSome (db : Ledger) (user_id reservationId : Int) :
    (getReservation db user_id reservationId).isSome = true ↔
      ∃ r ∈ db.reservations, r.user_id = user_id ∧ r.reservation_id = reservationId := by
  simp [getReservation, List.find?_isSome]

theorem mem_checkConcertSeats (db : Ledger) (concertID : Int) (addSeatBody : List Int)
    (s : ConcertSeat) :
    s ∈ checkConcertSeats db concertID addSeatBody ↔
      s ∈ db.concertSeats ∧ s.concert_id = concertID ∧ s.concert_seat_id ∈ addSeatBody := by
  simp [checkConcertSeats, List.mem_filter]

/-- Either `addUserSeat` rejects and leaves the tables alone, or it passed every check
and wrote the reservation, the statuses and the links. -/
theorem addUserSeat_db_cases (db : Ledger) (concertID : Int) (addSeatBody : List Int)
    (theaterID userID : Int) :
    ((∃ e, (addUserSeat db concertID addSeatBody theaterID userID).outcome = .error e) ∧
        (addUserSeat db concertID addSeatBody theaterID userID).db = db) ∨
      ((addUserSeat db concertID addSeatBody theaterID userID) =
          ⟨.ok "Seats added to reservation successfully.",
            claimed db concertID addSeatBody userID⟩ ∧
        addSeatBody ≠ [] ∧
        (∀ r ∈ db.reservations, ¬ (r.user_id = userID ∧ r.concert_id = concertID)) ∧
        (∃ concert, checkConcert db concertID = some concert ∧
          concert.theater_id = theaterID) ∧
        ∀ s ∈ checkConcertSeats db concertID addSeatBody, s.status = "available") := by
  rw [addUserSeat_eq]
  by_cases h0 : addSeatBody = []
  · simp [h0]
  · by_cases h1 : (checkExistingReservation db userID concertID).isSome = true
    · simp [h0, h1]
    · cases h2 : checkConcert db concertID with
      | none => simp [h0, h1]
      | some concert =>
        by_cases h3 : concert.theater_id = theaterID
        · by_cases h4 : ((checkConcertSeats db concertID addSeatBody).filter
              (fun seat => seat.status != "available")) = []
          · right
            refine ⟨by simp [h0, h1, h3, h4], h0, ?_, ⟨concert, rfl, h3⟩, ?_⟩
            · intro r hr hm
              exact h1 ((checkExistingReservation_isSome db userID concertID).2 ⟨r, hr, hm⟩)
            · intro s hs
              by_contra hst
              have : s ∈ (checkConcertSeats db concertID addSeatBody).filter
                  (fun seat => seat.status != "available") := by
                simp [List.mem_filter, hs, hst]
              rw [h4] at this
              cases this
          · simp [h0, h1, h3, h4]
        · simp [h0, h1, h3]

/-- A call of `addUserSeat` that resolves passed every check and ran the write path. -/
theorem addUserSeat_of_ok (db : Ledger) (concertID : Int) (addSeatBody : List Int)
    (theaterID userID : Int) (m : String)
    (hok : (addUserSeat db concertID addSeatBody theaterID userID).outcome = .ok m) :
    (addUserSeat db concertID addSeatBody theaterID userID) =
        ⟨.ok "Seats added to reservation successfully.",
          claimed db concertID addSeatBody userID⟩ ∧
      addSeatBody ≠ [] ∧
      (∀ r ∈ db.reservations, ¬ (r.user_id = userID ∧ r.concert_id = concertID)) ∧
      (∃ concert, checkConcert db concertID = some concert ∧
        concert.theater_id = theaterID) ∧
      ∀ s ∈ checkConcertSeats db concertID addSeatBody, s.status = "available" := by
  rcases addUserSeat_db_cases db concertID addSeatBody theaterID userID with
    ⟨⟨e, he⟩, _⟩ | h
  · rw [he] at hok
    cases hok
  · exact h

/-- Either `deleteUserSeat` leaves the tables alone, or the reservation belongs to the
user, has a link, and the write path ran. -/
theorem deleteUserSeat_db_cases (db : Ledger) (user_id reservationId : Int) :
    (deleteUserSeat db user_id reservationId).db = db ∨
      ((deleteUserSeat db user_id reservationId).db = released db reservationId ∧
        (∃ r ∈ db.reservations, r.user_id = user_id ∧ r.reservation_id = reservationId) ∧
        getSeats db reservationId ≠ []) := by
  rw [deleteUserSeat_eq]
  by_cases h1 : (getReservation db user_id reservationId).isSome = true
  · by_cases h2 : getSeats db reservationId = []
    · simp [h1, h2]
    · right
      exact ⟨by simp [h1, h2], (getReservation_isSome db user_id reservationId).1 h1, h2⟩
  · simp [h1]

/-- `deleteUserSeat` resolves, whatever it finds. -/
theorem deleteUserSeat_ok (db : Ledger) (user_id reservationId : Int) :
    ∃ m, (deleteUserSeat db user_id reservationId).outcome = .ok m := by
  rw [deleteUserSeat_eq]
  split_ifs <;> exact ⟨_, rfl⟩

/-! ## Claims about `addUserSeat` -/

/-- C1. When the user has no reservation for the concert, the concert exists and the
theater id matches, `addUserSeat` fails with the seats-unavailable error exactly when
some requested seat of the concert has a status other than `'available'`, and the ids
listed in the error are exactly the requested seat ids of the concert whose status is
not `'available'`. -/
theorem addUserSeat_seatsUnavailable_iff (db : Ledger) (concertID : Int)
    (addSeatBody : List Int) (theaterID userID : Int) (concert : Concert)
    (hres : ∀ r ∈ db.reservations, ¬ (r.user_id = userID ∧ r.concert_id = concertID))
    (hconcert : checkConcert db concertID = some concert)
    (htheater : concert.theater_id = theaterID) :
    ((∃ ids, (addUserSeat db concertID addSeatBody theaterID userID).outcome =
          .error (.seatsUnavailable ids)) ↔
        ∃ s ∈ db.concertSeats, s.concert_id = concertID ∧ s.concert_seat_id ∈ addSeatBody ∧
          s.status ≠ "available") ∧
      ∀ ids, (addUserSeat db concertID addSeatBody theaterID userID).outcome =
          .error (.seatsUnavailable ids) →
        ∀ i, i ∈ ids ↔ i ∈ addSeatBody ∧
          ∃ s ∈ db.concertSeats, s.concert_id = concertID ∧ s.concert_seat_id = i ∧
            s.status ≠ "available" := by
  have hnone : (checkExistingReservation db userID concertID).isSome = false := by
    rw [Bool.eq_false_iff, ne_eq, checkExistingReservation_isSome]
    rintro ⟨r, hr, h⟩
    exact hres r hr h
  rw [addUserSeat_eq]
  by_cases h0 : addSeatBody = []
  · subst h0
    simp
  · simp only [h0, if_false, hnone, Bool.false_eq_true, hconcert, htheater, ne_eq,
      not_true_eq_false]
    by_cases h4 : ((checkConcertSeats db concertID addSeatBody).filter
        (fun seat => seat.status != "available")) = []
    · simp only [h4, not_true_eq_false, if_false]
      refine ⟨⟨?_, ?_⟩, ?_⟩
      · rintro ⟨_, h⟩
        cases h
      · rintro ⟨s, hs, hc, hb, hst⟩
        exfalso
        have : s ∈ (checkConcertSeats db concertID addSeatBody).filter
            (fun seat => seat.status != "available") := by
          simp [List.mem_filter, mem_checkConcertSeats, hs, hc, hb, hst]
        rw [h4] at this
        cases this
      · intro _ h
        cases h
    · simp only [h4, not_false_eq_true, if_true]
      constructor
      · refine ⟨fun _ => ?_, fun _ => ⟨_, rfl⟩⟩
        obtain ⟨s, hs⟩ := List.exists_mem_of_ne_nil _ h4
        simp only [List.mem_filter, mem_checkConcertSeats, bne_iff_ne, ne_eq] at hs
        exact ⟨s, hs.1.1, hs.1.2.1, hs.1.2.2, hs.2⟩
      · intro ids hids i
        simp only [Except.error.injEq, DaoError.seatsUnavailable.injEq] at hids
        subst hids
        simp only [List.mem_map, List.mem_filter, mem_checkConcertSeats, bne_iff_ne, ne_eq]
        constructor
        · rintro ⟨s, ⟨⟨hs, hc, hb⟩, hst⟩, rfl⟩
          exact ⟨hb, s, hs, hc, rfl, hst⟩
        · rintro ⟨hb, s, hs, hc, rfl, hst⟩
          exact ⟨s, ⟨⟨hs, hc, hb⟩, hst⟩, rfl⟩

/-- Witness of C1: seats 5 and 6 of the sample concert are occupied by user 42, and
user 43 asks for seats 4 and 5. -/
theorem addUserSeat_seatsUnavailable_iff_witness :
    (addUserSeat bookedLedger 1 [4, 5] 7 43).outcome = .error (.seatsUnavailable [5]) ∧
      ((∃ ids, (addUserSeat bookedLedger 1 [4, 5] 7 43).outcome =
          .error (.seatsUnavailable ids)) ↔
        ∃ s ∈ bookedLedger.concertSeats, s.concert_id = 1 ∧
          s.concert_seat_id ∈ [4, 5] ∧ s.status ≠ "available") ∧
      ∀ ids, (addUserSeat bookedLedger 1 [4, 5] 7 43).outcome =
          .error (.seatsUnavailable ids) →
        ∀ i, i ∈ ids ↔ i ∈ [4, 5] ∧
          ∃ s ∈ bookedLedger.concertSeats, s.concert_id = 1 ∧
            s.concert_seat_id = i ∧ s.status ≠ "available" :=
  ⟨by decide, addUserSeat_seatsUnavailable_iff bookedLedger 1 [4, 5] 7 43 ⟨1, 7⟩
    (by decide) (by decide) (by decide)⟩

/-- C4. A call of `addUserSeat` that is rejected (with the duplicate-reservation,
unknown-concert, theater-mismatch or seats-unavailable error, or for an empty seat
list) leaves every table of the ledger as it was before the call. -/
theorem addUserSeat_error_unchanged (db : Ledger) (concertID : Int) (addSeatBody : List Int)
    (theaterID userID : Int) (e : DaoError)
    (h : (addUserSeat db concertID addSeatBody theaterID userID).outcome = .error e) :
    (addUserSeat db concertID addSeatBody theaterID userID).db = db := by
  rw [addUserSeat_eq] at h ⊢
  by_cases h0 : addSeatBody = []
  · simp [h0]
  · by_cases h1 : (checkExistingReservation db userID concertID).isSome = true
    · simp [h0, h1]
    · cases h2 : checkConcert db concertID with
      | none => simp [h0, h1]
      | some concert =>
        by_cases h3 : concert.theater_id = theaterID
        · by_cases h4 : ((checkConcertSeats db concertID addSeatBody).filter
              (fun seat => seat.status != "available")) = []
          · simp [h0, h1, h2, h3, h4] at h
          · simp [h0, h1, h3, h4]
        · simp [h0, h1, h3]

/-- Witness of C4: the claim of seats 6 and 7 by user 43 is rejected, seat 6 being
occupied, and seat 7 is not touched. -/
theorem addUserSeat_error_unchanged_witness :
    (addUserSeat bookedLedger 1 [6, 7] 7 43).outcome = .error (.seatsUnavailable [6]) ∧
      (addUserSeat bookedLedger 1 [6, 7] 7 43).db = bookedLedger :=
  ⟨by decide, addUserSeat_error_unchanged bookedLedger 1 [6, 7] 7 43
    (.seatsUnavailable [6]) (by decide)⟩

/-- C5. For a non-empty seat list, `addUserSeat` fails with the duplicate-reservation
error whenever the user already has a reservation for the concert, whatever the
theater id and the seats are; and without such a reservation it never fails with
that error. -/
theorem addUserSeat_duplicateReservation (db : Ledger) (concertID : Int)
    (addSeatBody : List Int) (theaterID userID : Int) (hbody : addSeatBody ≠ []) :
    ((∃ r ∈ db.reservations, r.user_id = userID ∧ r.concert_id = concertID) →
        (addUserSeat db concertID addSeatBody theaterID userID).outcome =
          .error .duplicateReservation) ∧
      ((¬ ∃ r ∈ db.reservations, r.user_id = userID ∧ r.concert_id = concertID) →
        (addUserSeat db concertID addSeatBody theaterID userID).outcome ≠
          .error .duplicateReservation) := by
  rw [addUserSeat_eq, ← checkExistingReservation_isSome]
  simp only [hbody, if_false]
  constructor
  · intro h
    simp [h]
  · intro h
    simp only [h, Bool.false_eq_true, if_false]
    split
    · simp
    · split_ifs <;> simp

/-- Witness of C5: user 42 holds reservation 1 for concert 1 and asks for free seats
with a wrong theater id. -/
theorem addUserSeat_duplicateReservation_witness :
    (∃ r ∈ bookedLedger.reservations, r.user_id = 42 ∧ r.concert_id = 1) ∧
      (addUserSeat bookedLedger 1 [8, 9] 3 42).outcome = .error .duplicateReservation :=
  ⟨by decide, (addUserSeat_duplicateReservation bookedLedger 1 [8, 9] 3 42 (by decide)).1
    (by decide)⟩

/-! ## Claims about `deleteUserSeat` -/

/-- C8. When no reservation with the given id belongs to the user (there is no such id,
or it is another user's), `deleteUserSeat` resolves and leaves every table of the
ledger as it was. -/
theorem deleteUserSeat_not_owner_noop (db : Ledger) (user_id reservationId : Int)
    (h : ∀ r ∈ db.reservations, ¬ (r.user_id = user_id ∧ r.reservation_id = reservationId)) :
    (∃ m, (deleteUserSeat db user_id reservationId).outcome = .ok m) ∧
      (deleteUserSeat db user_id reservationId).db = db := by
  refine ⟨deleteUserSeat_ok db user_id reservationId, ?_⟩
  rcases deleteUserSeat_db_cases db user_id reservationId with h1 | ⟨_, ⟨r, hr, hm⟩, _⟩
  · exact h1
  · exact absurd hm (h r hr)

/-- Witness of C8: user 43 names reservation 1, which belongs to user 42. -/
theorem deleteUserSeat_not_owner_noop_witness :
    (∃ m, (deleteUserSeat bookedLedger 43 1).outcome = .ok m) ∧
      (deleteUserSeat bookedLedger 43 1).db = bookedLedger :=
  deleteUserSeat_not_owner_noop bookedLedger 43 1 (by decide)

/-! ## One reservation per user and concert -/

theorem oneReservationPerPair_claimed (db : Ledger) (concertID : Int) (addSeatBody : List Int)
    (userID : Int) (h : OneReservationPerPair db)
    (hres : ∀ r ∈ db.reservations, ¬ (r.user_id = userID ∧ r.concert_id = concertID)) :
    OneReservationPerPair (claimed db concertID addSeatBody userID) := by
  unfold OneReservationPerPair at h ⊢
  simp only [claimed, List.map_append, List.map_cons, List.map_nil]
  rw [List.nodup_append]
  refine ⟨h, List.nodup_singleton _, ?_⟩
  intro p hp hq
  simp only [List.mem_singleton] at hq
  subst hq
  obtain ⟨r, hr, hpair⟩ := List.mem_map.1 hp
  simp only [Prod.mk.injEq] at hpair
  exact hres r hr hpair

theorem oneReservationPerPair_released (db : Ledger) (reservationId : Int)
    (h : OneReservationPerPair db) : OneReservationPerPair (released db reservationId) := by
  unfold OneReservationPerPair at h ⊢
  simp only [released, deleteReservation, deleteReservationSeat, updateSeatsAvailable]
  exact h.sublist ((List.filter_sublist _).map _)

theorem oneReservationPerPair_run (db : Ledger) (call : Call) (h : OneReservationPerPair db) :
    OneReservationPerPair (call.run db) := by
  cases call with
  | add concertID addSeatBody theaterID userID =>
    rcases addUserSeat_db_cases db concertID addSeatBody theaterID userID with
      ⟨_, h1⟩ | ⟨h1, _, hres, _, _⟩
    · simp only [Call.run, h1]
      exact h
    · simp only [Call.run, h1]
      exact oneReservationPerPair_claimed db concertID addSeatBody userID h hres
  | delete user_id reservationId =>
    rcases deleteUserSeat_db_cases db user_id reservationId with h1 | ⟨h1, _, _⟩
    · simp only [Call.run, h1]
      exact h
    · simp only [Call.run, h1]
      exact oneReservationPerPair_released db reservationId h

/-- C6. From a ledger with at most one reservation per `(user_id, concert_id)` pair,
every finite sequence of `addUserSeat` and `deleteUserSeat` calls leads to a ledger
with at most one reservation per pair. -/
theorem oneReservationPerPair_runCalls (calls : List Call) (db : Ledger)
    (h : OneReservationPerPair db) : OneReservationPerPair (runCalls db calls) := by
  induction calls generalizing db with
  | nil => exact h
  | cons call calls ih =>
    simp only [runCalls, List.foldl_cons]
    exact ih (call.run db) (oneReservationPerPair_run db call h)

/-- Witness of C6: user 42 claims twice, releases, and claims again. -/
theorem oneReservationPerPair_runCalls_witness :
    OneReservationPerPair sampleLedger ∧
      OneReservationPerPair (runCalls sampleLedger
        [.add 1 [1, 2] 7 42, .add 1 [3] 7 42, .add 1 [3] 7 43, .delete 42 1, .add 1 [2, 4] 7 42]) :=
  ⟨by decide, oneReservationPerPair_runCalls
    [.add 1 [1, 2] 7 42, .add 1 [3] 7 42, .add 1 [3] 7 43, .delete 42 1, .add 1 [2, 4] 7 42]
    sampleLedger (by decide)⟩

/-! ## Seats and links -/

theorem seatKeys_claimed (db : Ledger) (concertID : Int) (addSeatBody : List Int) (userID : Int)
    (h : SeatKeys db) : SeatKeys (claimed db concertID addSeatBody userID) := by
  unfold SeatKeys at h ⊢
  have : (claimed db concertID addSeatBody userID).concertSeats.map
      (fun s => (s.concert_id, s.concert_seat_id)) =
      db.concertSeats.map (fun s => (s.concert_id, s.concert_seat_id)) := by
    simp only [claimed, List.map_map]
    apply List.map_congr_left
    intro s _
    simp only [Function.comp]
    split_ifs <;> rfl
  rw [this]
  exact h

theorem seatKeys_released (db : Ledger) (reservationId : Int) (h : SeatKeys db) :
    SeatKeys (released db reservationId) := by
  unfold SeatKeys at h ⊢
  have : (released db reservationId).concertSeats.map
      (fun s => (s.concert_id, s.concert_seat_id)) =
      db.concertSeats.map (fun s => (s.concert_id, s.concert_seat_id)) := by
    simp only [released, deleteReservation, deleteReservationSeat, updateSeatsAvailable,
      List.map_map]
    apply List.map_congr_left
    intro s _
    simp only [Function.comp]
    split_ifs <;> rfl
  rw [this]
  exact h

theorem seatKeys_run (db : Ledger) (call : Call) (h : SeatKeys db) : SeatKeys (call.run db) := by
  cases call with
  | add concertID addSeatBody theaterID userID =>
    rcases addUserSeat_db_cases db concertID addSeatBody theaterID userID with
      ⟨_, h1⟩ | ⟨h1, _⟩
    · simp only [Call.run, h1]
      exact h
    · simp only [Call.run, h1]
      exact seatKeys_claimed db concertID addSeatBody userID h
  | delete user_id reservationId =>
    rcases deleteUserSeat_db_cases db user_id reservationId with h1 | ⟨h1, _⟩
    · simp only [Call.run, h1]
      exact h
    · simp only [Call.run, h1]
      exact seatKeys_released db reservationId h

/-- Under the key of `ConcertSeats`, the rows selected for one concert have distinct ids. -/
theorem nodup_checkConcertSeats_ids (db : Ledger) (concertID : Int) (addSeatBody : List Int)
    (h : SeatKeys db) :
    ((checkConcertSeats db concertID addSeatBody).map (fun seat => seat.concert_seat_id)).Nodup := by
  unfold SeatKeys at h
  have hsub : ((checkConcertSeats db concertID addSeatBody).map
      (fun s => (s.concert_id, s.concert_seat_id))).Nodup :=
    h.sublist ((List.filter_sublist _).map _)
  have hinj := List.inj_on_of_nodup_map hsub
  have hnd := hsub.of_map
  refine hnd.map_on ?_
  intro x hx y hy hxy
  apply hinj hx hy
  have hxc := ((mem_checkConcertSeats db concertID addSeatBody x).1 hx).2.1
  have hyc := ((mem_checkConcertSeats db concertID addSeatBody y).1 hy).2.1
  simp only [Prod.mk.injEq]
  exact ⟨hxc.trans hyc.symm, hxy⟩

theorem linkCount_claimed (db : Ledger) (concertID : Int) (addSeatBody : List Int) (userID : Int)
    (i : Int) :
    linkCount (claimed db concertID addSeatBody userID) i =
      linkCount db i +
        ((checkConcertSeats db concertID addSeatBody).map
          (fun seat => seat.concert_seat_id)).count i := by
  simp only [linkCount, claimed, List.countP_append, List.countP_map, List.count,
    Nat.add_left_cancel_iff]
  rfl

theorem countP_filter_split {α : Type} (p q : α → Bool) (l : List α) :
    (l.filter q).countP p + (l.filter (fun a => !(q a))).countP p = l.countP p := by
  induction l with
  | nil => rfl
  | cons a l ih =>
    by_cases hq : q a <;> by_cases hp : p a <;>
      simp [List.filter_cons, List.countP_cons, hq, hp] <;> omega

theorem linkCount_released (db : Ledger) (reservationId i : Int) :
    linkCount (released db reservationId) i +
        (getSeats db reservationId).countP (fun l => l.concert_seat_id == i) =
      linkCount db i := by
  simp only [linkCount, released, deleteReservation, deleteReservationSeat, updateSeatsAvailable,
    getSeats]
  rw [Nat.add_comm]
  exact countP_filter_split _ (fun l => l.reservation_id == reservationId) db.reservationSeat

theorem occupied_ne_available : ("occupied" : String) ≠ "available" := by decide

theorem seatLinkInv_claimed (db : Ledger) (concertID : Int) (addSeatBody : List Int)
    (userID : Int) (hk : SeatKeys db) (h : SeatLinkInv db)
    (hav : ∀ s ∈ checkConcertSeats db concertID addSeatBody, s.status = "available") :
    SeatLinkInv (claimed db concertID addSeatBody userID) := by
  intro s' hs'
  rw [linkCount_claimed]
  have hnd := nodup_checkConcertSeats_ids db concertID addSeatBody hk
  simp only [claimed] at hs'
  obtain ⟨s, hs, rfl⟩ := List.mem_map.1 hs'
  by_cases hmem : s.concert_seat_id ∈
      (checkConcertSeats db concertID addSeatBody).map (fun seat => seat.concert_seat_id)
  · simp only [hmem, if_true]
    rw [List.count_eq_one_of_mem hnd hmem]
    obtain ⟨t, ht, hid⟩ := List.mem_map.1 hmem
    have htdb := ((mem_checkConcertSeats db concertID addSeatBody t).1 ht).1
    have hinv := h t htdb
    have hne : ¬ t.status = "occupied" := by
      rw [hav t ht]
      exact fun e => occupied_ne_available e.symm
    rw [hid] at hinv
    have h0 : linkCount db s.concert_seat_id = 0 := by
      have h1 : linkCount db s.concert_seat_id ≠ 1 := fun e => hne (hinv.1.2 e)
      have h2 := hinv.2
      omega
    simp [h0]
  · simp only [hmem, if_false]
    rw [List.count_eq_zero_of_not_mem hmem, Nat.add_zero]
    exact h s hs

theorem seatLinkInv_released (db : Ledger) (reservationId : Int) (h : SeatLinkInv db) :
    SeatLinkInv (released db reservationId) := by
  intro s' hs'
  have hcount := linkCount_released db reservationId s'.concert_seat_id
  simp only [released, deleteReservation, deleteReservationSeat, updateSeatsAvailable] at hs'
  obtain ⟨s, hs, rfl⟩ := List.mem_map.1 hs'
  have hinv := h s hs
  by_cases hmem : s.concert_seat_id ∈
      (getSeats db reservationId).map (fun seat => seat.concert_seat_id)
  · simp only [hmem, if_true] at hcount ⊢
    have hpos : 0 < (getSeats db reservationId).countP
        (fun l => l.concert_seat_id == s.concert_seat_id) := by
      rw [List.countP_pos_iff]
      obtain ⟨l, hl, hid⟩ := List.mem_map.1 hmem
      exact ⟨l, hl, by simp [hid]⟩
    have h2 := hinv.2
    have h0 : linkCount (released db reservationId) s.concert_seat_id = 0 := by omega
    rw [h0]
    refine ⟨⟨fun e => absurd e.symm occupied_ne_available, fun e => by omega⟩, by omega⟩
  · simp only [hmem, if_false] at hcount ⊢
    have hzero : (getSeats db reservationId).countP
        (fun l => l.concert_seat_id == s.concert_seat_id) = 0 := by
      rw [List.countP_eq_zero]
      intro l hl hid
      apply hmem
      exact List.mem_map.2 ⟨l, hl, by simpa using hid⟩
    rw [hzero, Nat.add_zero] at hcount
    rw [hcount]
    exact hinv

theorem seatLinkInv_run (db : Ledger) (call : Call) (hk : SeatKeys db) (h : SeatLinkInv db) :
    SeatLinkInv (call.run db) := by
  cases call with
  | add concertID addSeatBody theaterID userID =>
    rcases addUserSeat_db_cases db concertID addSeatBody theaterID userID with
      ⟨_, h1⟩ | ⟨h1, _, _, _, hav⟩
    · simp only [Call.run, h1]
      exact h
    · simp only [Call.run, h1]
      exact seatLinkInv_claimed db concertID addSeatBody userID hk h hav
  | delete user_id reservationId =>
    rcases deleteUserSeat_db_cases db user_id reservationId with h1 | ⟨h1, _⟩
    · simp only [Call.run, h1]
      exact h
    · simp only [Call.run, h1]
      exact seatLinkInv_released db reservationId h

/-- C2. In a ledger whose `ConcertSeats` rows are keyed by concert and seat id, if every
seat is `'occupied'` exactly when one link references it and no seat is referenced by
two links, then the same holds after every finite sequence of `addUserSeat` and
`deleteUserSeat` calls, whatever the outcome of each call. -/
theorem seatLinkInv_runCalls (calls : List Call) (db : Ledger) (hk : SeatKeys db)
    (h : SeatLinkInv db) : SeatLinkInv (runCalls db calls) := by
  induction calls generalizing db with
  | nil => exact h
  | cons call calls ih =>
    simp only [runCalls, List.foldl_cons]
    exact ih (call.run db) (seatKeys_run db call hk) (seatLinkInv_run db call hk h)

/-- Witness of C2: claims that succeed and fail, and a release, on the sample concert. -/
theorem seatLinkInv_runCalls_witness :
    SeatKeys sampleLedger ∧ SeatLinkInv sampleLedger ∧
      SeatLinkInv (runCalls sampleLedger
        [.add 1 [1, 2] 7 42, .add 1 [2, 3] 7 43, .delete 42 1, .add 1 [1, 2, 3] 7 43]) :=
  ⟨by decide, by decide, seatLinkInv_runCalls
    [.add 1 [1, 2] 7 42, .add 1 [2, 3] 7 43, .delete 42 1, .add 1 [1, 2, 3] 7 43]
    sampleLedger (by decide) (by decide)⟩

/-! ## Releasing twice -/

theorem getReservation_released (db : Ledger) (user_id reservationId : Int) :
    (getReservation (released db reservationId) user_id reservationId).isSome = false := by
  rw [Bool.eq_false_iff, ne_eq, getReservation_isSome]
  rintro ⟨r, hr, _, hid⟩
  simp only [released, deleteReservation, deleteReservationSeat, updateSeatsAvailable,
    List.mem_filter] at hr
  simp [hid] at hr

/-- On the write path of `deleteUserSeat`, every row of `ConcertSeats` that carries the
id of a seat linked to the reservation ends `'available'`. -/
theorem released_linked_available (db : Ledger) (reservationId : Int) (l : ReservationSeat)
    (hl : l ∈ db.reservationSeat) (hid : l.reservation_id = reservationId) (s : ConcertSeat)
    (hs : s ∈ (released db reservationId).concertSeats)
    (hseat : s.concert_seat_id = l.concert_seat_id) : s.status = "available" := by
  simp only [released, deleteReservation, deleteReservationSeat, updateSeatsAvailable] at hs
  obtain ⟨s0, _, rfl⟩ := List.mem_map.1 hs
  have hmem : s0.concert_seat_id ∈
      (getSeats db reservationId).map (fun seat => seat.concert_seat_id) := by
    have h1 : l ∈ getSeats db reservationId := by
      simp [getSeats, List.mem_filter, hl, hid]
    have h2 : s0.concert_seat_id = l.concert_seat_id := by
      rw [← hseat]
      split_ifs <;> rfl
    exact List.mem_map.2 ⟨l, h1, h2.symm⟩
  simp [hmem]

/-- C9, as the code has it. Two calls of `deleteUserSeat` in a row with the same
arguments both resolve; when the reservation belongs to the user, every seat that was
linked to it is `'available'` after the first call; and the second call leaves the
ledger as the first call left it. -/
theorem deleteUserSeat_twice (db : Ledger) (user_id reservationId : Int) :
    (∃ m, (deleteUserSeat db user_id reservationId).outcome = .ok m) ∧
      (∃ m, (deleteUserSeat (deleteUserSeat db user_id reservationId).db
        user_id reservationId).outcome = .ok m) ∧
      ((∃ r ∈ db.reservations, r.user_id = user_id ∧ r.reservation_id = reservationId) →
        ∀ l ∈ db.reservationSeat, l.reservation_id = reservationId →
          ∀ s ∈ (deleteUserSeat db user_id reservationId).db.concertSeats,
            s.concert_seat_id = l.concert_seat_id → s.status = "available") ∧
      (deleteUserSeat (deleteUserSeat db user_id reservationId).db user_id reservationId).db =
        (deleteUserSeat db user_id reservationId).db := by
  refine ⟨deleteUserSeat_ok _ _ _, deleteUserSeat_ok _ _ _, ?_, ?_⟩
  · intro hown l hl hid s hs hseat
    have h1 : (getReservation db user_id reservationId).isSome = true :=
      (getReservation_isSome db user_id reservationId).2 hown
    have h2 : getSeats db reservationId ≠ [] := by
      have : l ∈ getSeats db reservationId := by
        simp [getSeats, List.mem_filter, hl, hid]
      exact List.ne_nil_of_mem this
    rw [deleteUserSeat_eq] at hs
    simp only [h1, h2, if_true, ne_eq, not_false_eq_true] at hs
    exact released_linked_available db reservationId l hl hid s hs hseat
  · rcases deleteUserSeat_db_cases db user_id reservationId with h1 | ⟨h1, _, _⟩
    · rw [h1, h1]
    · rw [h1]
      rw [deleteUserSeat_eq]
      simp [getReservation_released]

/-- Witness of C9: user 42 releases reservation 1 twice; seats 5 and 6 are free after
the first call. -/
theorem deleteUserSeat_twice_witness :
    (∃ r ∈ bookedLedger.reservations, r.user_id = 42 ∧ r.reservation_id = 1) ∧
      (∀ l ∈ bookedLedger.reservationSeat, l.reservation_id = 1 →
        ∀ s ∈ (deleteUserSeat bookedLedger 42 1).db.concertSeats,
          s.concert_seat_id = l.concert_seat_id → s.status = "available") ∧
      (deleteUserSeat (deleteUserSeat bookedLedger 42 1).db 42 1).db =
        (deleteUserSeat bookedLedger 42 1).db :=
  ⟨by decide, (deleteUserSeat_twice bookedLedger 42 1).2.2.1 (by decide),
    (deleteUserSeat_twice bookedLedger 42 1).2.2.2⟩

/-- C9 as stated fails when the reservation is another user's: user 43 names
reservation 1 of user 42 twice, both calls resolve, and seat 5, linked to that
reservation, is still `'occupied'` after the first call. -/
theorem deleteUserSeat_twice_foreign_counterexample :
    ¬ ((∃ m, (deleteUserSeat bookedLedger 43 1).outcome = .ok m) ∧
      (∃ m, (deleteUserSeat (deleteUserSeat bookedLedger 43 1).db 43 1).outcome = .ok m) ∧
      (∀ l ∈ bookedLedger.reservationSeat, l.reservation_id = 1 →
        ∀ s ∈ (deleteUserSeat bookedLedger 43 1).db.concertSeats,
          s.concert_seat_id = l.concert_seat_id → s.status = "available") ∧
      (deleteUserSeat (deleteUserSeat bookedLedger 43 1).db 43 1).db =
        (deleteUserSeat bookedLedger 43 1).db) := by
  rintro ⟨_, _, h, _⟩
  have := h ⟨1, 5⟩ (by decide) rfl ⟨5, 1, 5, "occupied"⟩ (by decide) rfl
  exact absurd this (by decide)

/-! ## Seat ids the concert does not have -/

/-- C3 at a failing input. The sample concert has seats 1 to 10; the claim of the seat
ids 5 and 11 by user 42 resolves and creates reservation 1, yet no row of
`ConcertSeats` carries the id 11 afterwards and no link references it: the requested
seat 11 is neither `'occupied'` nor linked to the new reservation. -/
theorem addUserSeat_unknown_seat_accepted :
    (addUserSeat sampleLedger 1 [5, 11] 7 42).outcome =
        .ok "Seats added to reservation successfully." ∧
      (addUserSeat sampleLedger 1 [5, 11] 7 42).db.reservations = [⟨1, 42, 1⟩] ∧
      (addUserSeat sampleLedger 1 [5, 11] 7 42).db.reservationSeat = [⟨1, 5⟩] ∧
      (∀ s ∈ (addUserSeat sampleLedger 1 [5, 11] 7 42).db.concertSeats,
        s.concert_seat_id ≠ 11) ∧
      linkCount (addUserSeat sampleLedger 1 [5, 11] 7 42).db 11 = 0 := by
  decide

/-- C7 at a failing input. Reservation 1 belongs to user 42 and has no link;
`deleteUserSeat` resolves with `'No reserved seats to free.'` and the reservation is
still in the ledger afterwards. -/
theorem deleteUserSeat_unlinked_reservation_kept :
    strayLedger.reservations = [⟨1, 42, 1⟩] ∧ strayLedger.reservationSeat = [] ∧
      (deleteUserSeat strayLedger 42 1).outcome = .ok "No reserved seats to free." ∧
      (⟨1, 42, 1⟩ : Reservation) ∈ (deleteUserSeat strayLedger 42 1).db.reservations := by
  decide

/-- C10 at a failing input. The sample ledger is consistent and the claim of the seat
id 11 by user 42 resolves with reservation 1; the release of reservation 1 by user 42
resolves too, and the ledger is not back to what it was: reservation 1 is still there
and blocks a new claim of the user. -/
theorem addUserSeat_deleteUserSeat_stray_not_restored :
    Consistent sampleLedger ∧
      (addUserSeat sampleLedger 1 [11] 7 42).outcome =
        .ok "Seats added to reservation successfully." ∧
      (addUserSeat sampleLedger 1 [11] 7 42).db.reservations = [⟨1, 42, 1⟩] ∧
      (deleteUserSeat (addUserSeat sampleLedger 1 [11] 7 42).db 42 1).outcome =
        .ok "No reserved seats to free." ∧
      (deleteUserSeat (addUserSeat sampleLedger 1 [11] 7 42).db 42 1).db ≠ sampleLedger ∧
      (addUserSeat (deleteUserSeat (addUserSeat sampleLedger 1 [11] 7 42).db 42 1).db
        1 [5, 6] 7 42).outcome = .error .duplicateReservation := by
  decide

/-! ## What holds next to the failing inputs -/

theorem le_foldl_max (rs : List Reservation) (m : Int) :
    m ≤ rs.foldl (fun m r => max m r.reservation_id) m ∧
      ∀ r ∈ rs, r.reservation_id ≤ rs.foldl (fun m r => max m r.reservation_id) m := by
  induction rs generalizing m with
  | nil => simp
  | cons a rs ih =>
    simp only [List.foldl_cons, List.mem_cons]
    have h := ih (max m a.reservation_id)
    refine ⟨le_trans (le_max_left _ _) h.1, ?_⟩
    rintro r (rfl | hr)
    · exact le_trans (le_max_right _ _) h.1
    · exact h.2 r hr

/-- The id given to a new reservation is not the id of a reservation of the table. -/
theorem lastID_fresh (rs : List Reservation) (r : Reservation) (hr : r ∈ rs) :
    r.reservation_id ≠ lastID rs := by
  have h := (le_foldl_max rs 0).2 r hr
  unfold lastID
  omega

/-- The part of C7 the code meets: when the reservation belongs to the user and has a
link, `deleteUserSeat` leaves every seat that was linked to it `'available'`, no link
of the reservation, and no reservation with its id. -/
theorem deleteUserSeat_linked_effect (db : Ledger) (user_id reservationId : Int)
    (hown : ∃ r ∈ db.reservations, r.user_id = user_id ∧ r.reservation_id = reservationId)
    (hlink : ∃ l ∈ db.reservationSeat, l.reservation_id = reservationId) :
    (∀ l ∈ db.reservationSeat, l.reservation_id = reservationId →
        ∀ s ∈ (deleteUserSeat db user_id reservationId).db.concertSeats,
          s.concert_seat_id = l.concert_seat_id → s.status = "available") ∧
      (∀ l ∈ (deleteUserSeat db user_id reservationId).db.reservationSeat,
        l.reservation_id ≠ reservationId) ∧
      ∀ r ∈ (deleteUserSeat db user_id reservationId).db.reservations,
        r.reservation_id ≠ reservationId := by
  have h1 : (getReservation db user_id reservationId).isSome = true :=
    (getReservation_isSome db user_id reservationId).2 hown
  have h2 : getSeats db reservationId ≠ [] := by
    obtain ⟨l, hl, hid⟩ := hlink
    have : l ∈ getSeats db reservationId := by
      simp [getSeats, List.mem_filter, hl, hid]
    exact List.ne_nil_of_mem this
  rw [deleteUserSeat_eq]
  simp only [h1, h2, if_true, ne_eq, not_false_eq_true]
  refine ⟨fun l hl hid s hs hseat => released_linked_available db reservationId l hl hid s hs hseat,
    ?_, ?_⟩
  · intro l hl
    simp only [released, deleteReservation, deleteReservationSeat, updateSeatsAvailable,
      List.mem_filter] at hl
    simpa using hl.2
  · intro r hr
    simp only [released, deleteReservation, deleteReservationSeat, updateSeatsAvailable,
      List.mem_filter] at hr
    simpa using hr.2

theorem getSeats_claimed (db : Ledger) (concertID : Int) (addSeatBody : List Int) (userID : Int)
    (hl : LinksOwned db) :
    getSeats (claimed db concertID addSeatBody userID) (lastID db.reservations) =
      (checkConcertSeats db concertID addSeatBody).map
        (fun seat => ⟨lastID db.reservations, seat.concert_seat_id⟩) := by
  simp only [getSeats, claimed, List.filter_append]
  have hold : db.reservationSeat.filter
      (fun l => l.reservation_id == lastID db.reservations) = [] := by
    rw [List.filter_eq_nil_iff]
    intro l hmem
    obtain ⟨r, hr, hid⟩ := hl l hmem
    have := lastID_fresh db.reservations r hr
    simp only [beq_iff_eq]
    rw [← hid]
    exact this
  rw [hold, List.nil_append, List.filter_eq_self]
  intro l hmem
  obtain ⟨s, _, rfl⟩ := List.mem_map.1 hmem
  simp

/-- The part of C3 the code meets: after a claim that resolves, the new reservation is
in the ledger under an id no reservation had, and every requested seat id that is a
seat of the concert is `'occupied'` and has exactly one link from the new reservation. -/
theorem addUserSeat_ok_effect (db : Ledger) (concertID : Int) (addSeatBody : List Int)
    (theaterID userID : Int) (m : String) (hk : SeatKeys db) (hl : LinksOwned db)
    (hok : (addUserSeat db concertID addSeatBody theaterID userID).outcome = .ok m) :
    (⟨lastID db.reservations, userID, concertID⟩ : Reservation) ∈
        (addUserSeat db concertID addSeatBody theaterID userID).db.reservations ∧
      (∀ r ∈ db.reservations, r.reservation_id ≠ lastID db.reservations) ∧
      ∀ i ∈ addSeatBody, (∃ s ∈ db.concertSeats, s.concert_id = concertID ∧
          s.concert_seat_id = i) →
        (∀ s ∈ (addUserSeat db concertID addSeatBody theaterID userID).db.concertSeats,
          s.concert_seat_id = i → s.status = "occupied") ∧
        ((getSeats (addUserSeat db concertID addSeatBody theaterID userID).db
          (lastID db.reservations)).map (fun l => l.concert_seat_id)).count i = 1 := by
  obtain ⟨h1, _⟩ := addUserSeat_of_ok db concertID addSeatBody theaterID userID m hok
  · rw [h1]
    refine ⟨by simp [claimed], fun r hr => lastID_fresh db.reservations r hr, ?_⟩
    rintro i hi ⟨s0, hs0, hc0, rfl⟩
    have hsel : s0 ∈ checkConcertSeats db concertID addSeatBody :=
      (mem_checkConcertSeats db concertID addSeatBody s0).2 ⟨hs0, hc0, hi⟩
    have hmem : s0.concert_seat_id ∈
        (checkConcertSeats db concertID addSeatBody).map (fun seat => seat.concert_seat_id) :=
      List.mem_map.2 ⟨s0, hsel, rfl⟩
    constructor
    · intro s hs hid
      simp only [claimed] at hs
      obtain ⟨s1, _, rfl⟩ := List.mem_map.1 hs
      have hid1 : s1.concert_seat_id = s0.concert_seat_id := by
        rw [← hid]
        split_ifs <;> rfl
      rw [← hid1] at hmem
      simp [hmem]
    · rw [getSeats_claimed db concertID addSeatBody userID hl, List.map_map]
      exact List.count_eq_one_of_mem (nodup_checkConcertSeats_ids db concertID addSeatBody hk) hmem

/-- In a consistent ledger, a row that shares its id with an available selected seat
is itself `'available'`. -/
theorem available_of_selected (db : Ledger) (concertID : Int) (addSeatBody : List Int)
    (hc : Consistent db)
    (hav : ∀ s ∈ checkConcertSeats db concertID addSeatBody, s.status = "available")
    (s : ConcertSeat) (hs : s ∈ db.concertSeats)
    (hmem : s.concert_seat_id ∈
      (checkConcertSeats db concertID addSeatBody).map (fun seat => seat.concert_seat_id)) :
    s.status = "available" := by
  obtain ⟨_, hknown, hinv, _, _⟩ := hc
  obtain ⟨t, ht, hid⟩ := List.mem_map.1 hmem
  have htdb := ((mem_checkConcertSeats db concertID addSeatBody t).1 ht).1
  have hinvt := hinv t htdb
  have hne : ¬ t.status = "occupied" := by
    rw [hav t ht]
    exact fun e => occupied_ne_available e.symm
  rw [hid] at hinvt
  have h1 : linkCount db s.concert_seat_id ≠ 1 := fun e => hne (hinvt.1.2 e)
  rcases hknown s hs with h | h
  · exact h
  · exact absurd ((hinv s hs).1.1 h) h1

/-- The part of C10 the code meets: in a consistent ledger, after a claim that resolves
and selects at least one seat of the concert, the release of the new reservation by
the same user gives back the ledger as it was before the claim. -/
theorem addUserSeat_deleteUserSeat_restores (db : Ledger) (concertID : Int)
    (addSeatBody : List Int) (theaterID userID : Int) (m : String) (hc : Consistent db)
    (hok : (addUserSeat db concertID addSeatBody theaterID userID).outcome = .ok m)
    (hsel : ∃ s ∈ db.concertSeats, s.concert_id = concertID ∧
      s.concert_seat_id ∈ addSeatBody) :
    (deleteUserSeat (addUserSeat db concertID addSeatBody theaterID userID).db userID
      (lastID db.reservations)).db = db := by
  obtain ⟨h1, _, _, _, hav⟩ := addUserSeat_of_ok db concertID addSeatBody theaterID userID m hok
  have hl : LinksOwned db := hc.2.2.2.1
  rw [h1]
  simp only
  have hseats := getSeats_claimed db concertID addSeatBody userID hl
  have hown : (getReservation (claimed db concertID addSeatBody userID) userID
      (lastID db.reservations)).isSome = true := by
    rw [getReservation_isSome]
    exact ⟨⟨lastID db.reservations, userID, concertID⟩, by simp [claimed], rfl, rfl⟩
  have hne : getSeats (claimed db concertID addSeatBody userID) (lastID db.reservations) ≠ [] := by
    rw [hseats]
    obtain ⟨s, hs, hcid, hb⟩ := hsel
    have : s ∈ checkConcertSeats db concertID addSeatBody :=
      (mem_checkConcertSeats db concertID addSeatBody s).2 ⟨hs, hcid, hb⟩
    exact fun e => by simp [List.map_eq_nil_iff.1 e] at this
  rw [deleteUserSeat_eq]
  simp only [hown, hne, if_true, ne_eq, not_false_eq_true]
  simp only [released, hseats, List.map_map]
  simp only [deleteReservation, deleteReservationSeat, updateSeatsAvailable, claimed]
  have hres : (db.reservations ++
      [(⟨lastID db.reservations, userID, concertID⟩ : Reservation)]).filter
      (fun r => !(r.reservation_id == lastID db.reservations)) = db.reservations := by
    rw [List.filter_append, List.filter_eq_self.2, List.filter_cons]
    · simp
    · intro r hr
      simpa using lastID_fresh db.reservations r hr
  have hlinks : (db.reservationSeat ++ (checkConcertSeats db concertID addSeatBody).map
      (fun seat => (⟨lastID db.reservations, seat.concert_seat_id⟩ : ReservationSeat))).filter
      (fun l => !(l.reservation_id == lastID db.reservations)) = db.reservationSeat := by
    rw [List.filter_append, List.filter_eq_self.2, List.filter_eq_nil_iff.2]
    · simp
    · intro l hmem
      obtain ⟨s, _, rfl⟩ := List.mem_map.1 hmem
      simp
    · intro l hmem
      obtain ⟨r, hr, hid⟩ := hl l hmem
      have := lastID_fresh db.reservations r hr
      rw [hid] at this
      simpa using this
  have hcs : (db.concertSeats.map (fun s =>
        if s.concert_seat_id ∈ (checkConcertSeats db concertID addSeatBody).map
          (fun seat => seat.concert_seat_id)
        then { s with status := "occupied" } else s)).map (fun s =>
        if s.concert_seat_id ∈ (checkConcertSeats db concertID addSeatBody).map
          ((fun seat : ReservationSeat => seat.concert_seat_id) ∘
            fun seat => (⟨lastID db.reservations, seat.concert_seat_id⟩ : ReservationSeat))
        then { s with status := "available" } else s) = db.concertSeats := by
    have hcomp : ((fun seat : ReservationSeat => seat.concert_seat_id) ∘
        fun seat : ConcertSeat =>
          (⟨lastID db.reservations, seat.concert_seat_id⟩ : ReservationSeat)) =
        fun seat => seat.concert_seat_id := rfl
    rw [hcomp, List.map_map]
    conv_rhs => rw [← List.map_id db.concertSeats]
    apply List.map_congr_left
    intro s hs
    simp only [Function.comp, id]
    by_cases hmem : s.concert_seat_id ∈
        (checkConcertSeats db concertID addSeatBody).map (fun seat => seat.concert_seat_id)
    · have := available_of_selected db concertID addSeatBody hc hav s hs hmem
      obtain ⟨a, b, c, st⟩ := s
      simp only at this hmem
      subst this
      simp only [hmem, if_true]
    · simp only [hmem, if_false]
  rw [hres, hlinks, hcs]

/-- The round trip on the sample concert: user 42 claims seats 5 and 6, releases
reservation 1, and the ledger is the sample ledger again. -/
theorem addUserSeat_deleteUserSeat_restores_sample :
    Consistent sampleLedger ∧
      (deleteUserSeat (addUserSeat sampleLedger 1 [5, 6] 7 42).db 42
        (lastID sampleLedger.reservations)).db = sampleLedger :=
  ⟨by decide, addUserSeat_deleteUserSeat_restores sampleLedger 1 [5, 6] 7 42
    "Seats added to reservation successfully." (by decide) (by decide) (by decide)⟩

/-! ## Reservations and their seats -/

/-- C11 at a failing input. The sample ledger is consistent and has no reservation
without a seat; after the single call `addUserSeat(1, [11], 7, 42)`, whose inputs pass
the validation, reservation 1 exists and no link references it. -/
theorem reservation_without_seat_reachable :
    Consistent sampleLedger ∧ EveryReservationLinked sampleLedger ∧
      (runCalls sampleLedger [.add 1 [11] 7 42]).reservations = [⟨1, 42, 1⟩] ∧
      (runCalls sampleLedger [.add 1 [11] 7 42]).reservationSeat = [] ∧
      ¬ EveryReservationLinked (runCalls sampleLedger [.add 1 [11] 7 42]) := by
  decide

/-- The part of C11 the code meets: a call keeps every reservation linked, provided
that a claim names at least one seat of its concert. -/
theorem everyReservationLinked_run (db : Ledger) (call : Call)
    (h : EveryReservationLinked db)
    (hsel : ∀ concertID addSeatBody theaterID userID,
      call = .add concertID addSeatBody theaterID userID →
        checkConcertSeats db concertID addSeatBody ≠ []) :
    EveryReservationLinked (call.run db) := by
  cases call with
  | add concertID addSeatBody theaterID userID =>
    rcases addUserSeat_db_cases db concertID addSeatBody theaterID userID with
      ⟨_, h1⟩ | ⟨h1, _⟩
    · simp only [Call.run, h1]
      exact h
    · simp only [Call.run, h1]
      intro r hr
      simp only [claimed, List.mem_append, List.mem_singleton] at hr
      rcases hr with hr | rfl
      · obtain ⟨l, hl, hid⟩ := h r hr
        exact ⟨l, by simp [claimed, hl], hid⟩
      · obtain ⟨s, hs⟩ := List.exists_mem_of_ne_nil _
          (hsel concertID addSeatBody theaterID userID rfl)
        refine ⟨⟨lastID db.reservations, s.concert_seat_id⟩, ?_, rfl⟩
        simp only [claimed, List.mem_append, List.mem_map]
        exact Or.inr ⟨s, hs, rfl⟩
  | delete user_id reservationId =>
    rcases deleteUserSeat_db_cases db user_id reservationId with h1 | ⟨h1, _⟩
    · simp only [Call.run, h1]
      exact h
    · simp only [Call.run, h1]
      intro r hr
      simp only [released, deleteReservation, deleteReservationSeat, updateSeatsAvailable,
        List.mem_filter] at hr ⊢
      obtain ⟨l, hl, hid⟩ := h r hr.1
      refine ⟨l, ⟨hl, ?_⟩, hid⟩
      rw [hid]
      exact hr.2

/-! ## The checks of `addUserSeat` -/

/-- A call that passes every check resolves and runs the write path. -/
theorem addUserSeat_ok_of (db : Ledger) (concertID : Int) (addSeatBody : List Int)
    (theaterID userID : Int) (concert : Concert) (hbody : addSeatBody ≠ [])
    (hres : ∀ r ∈ db.reservations, ¬ (r.user_id = userID ∧ r.concert_id = concertID))
    (hconcert : checkConcert db concertID = some concert)
    (htheater : concert.theater_id = theaterID)
    (hav : ∀ s ∈ checkConcertSeats db concertID addSeatBody, s.status = "available") :
    addUserSeat db concertID addSeatBody theaterID userID =
      ⟨.ok "Seats added to reservation successfully.",
        claimed db concertID addSeatBody userID⟩ := by
  have hnone : (checkExistingReservation db userID concertID).isSome = false := by
    rw [Bool.eq_false_iff, ne_eq, checkExistingReservation_isSome]
    rintro ⟨r, hr, h⟩
    exact hres r hr h
  have hfilter : (checkConcertSeats db concertID addSeatBody).filter
      (fun seat => seat.status != "available") = [] := by
    rw [List.filter_eq_nil_iff]
    intro s hs
    simp [hav s hs]
  rw [addUserSeat_eq]
  simp [hbody, hnone, hconcert, htheater, hfilter]

/-- With a non-empty seat list, `addUserSeat` never rejects for invalid input. -/
theorem addUserSeat_valid_of_ne_nil (db : Ledger) (concertID : Int) (addSeatBody : List Int)
    (theaterID userID : Int) (hbody : addSeatBody ≠ []) :
    (addUserSeat db concertID addSeatBody theaterID userID).outcome ≠ .error .invalidIds ∧
      (addUserSeat db concertID addSeatBody theaterID userID).outcome ≠
        .error .invalidInput := by
  rw [addUserSeat_eq]
  simp only [hbody, if_false]
  by_cases h1 : (checkExistingReservation db userID concertID).isSome = true
  · simp [h1]
  · cases h2 : checkConcert db concertID with
    | none => simp [h1]
    | some concert =>
      by_cases h3 : concert.theater_id = theaterID
      · by_cases h4 : ((checkConcertSeats db concertID addSeatBody).filter
            (fun seat => seat.status != "available")) = []
        · simp [h1, h3, h4]
        · simp [h1, h3, h4]
      · simp [h1, h3]

theorem checkConcert_eq_none (db : Ledger) (concertID : Int) :
    checkConcert db concertID = none ↔ ∀ c ∈ db.concerts, c.concert_id ≠ concertID := by
  simp [checkConcert, List.find?_eq_none]

/-- C15, as the code has it. For a non-empty seat list and a user without a reservation
for the concert, `addUserSeat` fails with the unknown-concert error exactly when no
concert has the given id; when the lookup finds the concert it fails with the
theater-mismatch error exactly when the theater id differs from the concert's, and
then it does so whatever the rows of `ConcertSeats` are. -/
theorem addUserSeat_concert_checks (db : Ledger) (concertID : Int) (addSeatBody : List Int)
    (theaterID userID : Int) (hbody : addSeatBody ≠ [])
    (hres : ∀ r ∈ db.reservations, ¬ (r.user_id = userID ∧ r.concert_id = concertID)) :
    ((addUserSeat db concertID addSeatBody theaterID userID).outcome =
          .error .concertDoesNotExist ↔
        ∀ c ∈ db.concerts, c.concert_id ≠ concertID) ∧
      ∀ concert, checkConcert db concertID = some concert →
        ((addUserSeat db concertID addSeatBody theaterID userID).outcome =
            .error .theaterMismatch ↔ concert.theater_id ≠ theaterID) ∧
        (concert.theater_id ≠ theaterID → ∀ concertSeats : List ConcertSeat,
          (addUserSeat { db with concertSeats := concertSeats } concertID addSeatBody
            theaterID userID).outcome = .error .theaterMismatch) := by
  have hnone : (checkExistingReservation db userID concertID).isSome = false := by
    rw [Bool.eq_false_iff, ne_eq, checkExistingReservation_isSome]
    rintro ⟨r, hr, h⟩
    exact hres r hr h
  rw [← checkConcert_eq_none]
  constructor
  · rw [addUserSeat_eq]
    simp only [hbody, if_false, hnone, Bool.false_eq_true]
    cases h2 : checkConcert db concertID with
    | none => simp
    | some concert =>
      simp only
      split_ifs <;> simp
  · intro concert h2
    constructor
    · rw [addUserSeat_eq]
      simp only [hbody, if_false, hnone, Bool.false_eq_true, h2]
      by_cases h3 : concert.theater_id = theaterID
      · simp only [h3, ne_eq, not_true_eq_false, if_false, iff_false]
        split_ifs <;> simp
      · simp [h3]
    · intro h3 concertSeats
      rw [addUserSeat_eq]
      have hnone2 : (checkExistingReservation { db with concertSeats := concertSeats }
          userID concertID).isSome = false := hnone
      have h22 : checkConcert { db with concertSeats := concertSeats } concertID =
          some concert := h2
      simp [hbody, hnone2, h22, h3]

/-- Witness of C15: user 43 holds no reservation and asks for free seats of concert 1
with theater 3 instead of 7. -/
theorem addUserSeat_concert_checks_witness :
    (addUserSeat bookedLedger 1 [8, 9] 3 43).outcome = .error .theaterMismatch ∧
      ((addUserSeat bookedLedger 1 [8, 9] 3 43).outcome = .error .concertDoesNotExist ↔
        ∀ c ∈ bookedLedger.concerts, c.concert_id ≠ 1) :=
  ⟨((addUserSeat_concert_checks bookedLedger 1 [8, 9] 3 43 (by decide) (by decide)).2
      ⟨1, 7⟩ (by decide)).1.2 (by decide),
    (addUserSeat_concert_checks bookedLedger 1 [8, 9] 3 43 (by decide) (by decide)).1⟩

/-- C15 as stated fails for an empty seat list: user 42 holds no reservation, no concert
has the id 2, and `addUserSeat(2, [], 7, 42)` is rejected for its input, not with the
unknown-concert error. -/
theorem addUserSeat_empty_list_counterexample :
    (∀ r ∈ sampleLedger.reservations, ¬ (r.user_id = 42 ∧ r.concert_id = 2)) ∧
      (addUserSeat sampleLedger 2 [] 7 42).outcome = .error .invalidInput ∧
      ¬ ((addUserSeat sampleLedger 2 [] 7 42).outcome = .error .concertDoesNotExist ↔
        ∀ c ∈ sampleLedger.concerts, c.concert_id ≠ 2) := by
  decide

/-- C17, as the code has it. A call of `addUserSeat` that resolves returns the fixed
text `'Seats added to reservation successfully.'`; the reservation it created is
stored under the id `lastID`, under which `deleteUserSeat` finds it for the user. -/
theorem addUserSeat_returns_message (db : Ledger) (concertID : Int) (addSeatBody : List Int)
    (theaterID userID : Int) (m : String)
    (hok : (addUserSeat db concertID addSeatBody theaterID userID).outcome = .ok m) :
    m = "Seats added to reservation successfully." ∧
      (⟨lastID db.reservations, userID, concertID⟩ : Reservation) ∈
        (addUserSeat db concertID addSeatBody theaterID userID).db.reservations ∧
      (getReservation (addUserSeat db concertID addSeatBody theaterID userID).db userID
        (lastID db.reservations)).isSome = true := by
  obtain ⟨h1, _⟩ := addUserSeat_of_ok db concertID addSeatBody theaterID userID m hok
  rw [h1] at hok ⊢
  simp only [Except.ok.injEq] at hok
  refine ⟨hok.symm, by simp [claimed], ?_⟩
  rw [getReservation_isSome]
  exact ⟨⟨lastID db.reservations, userID, concertID⟩, by simp [claimed], rfl, rfl⟩

/-- Witness of C17: the claim of seats 5 and 6 by user 42 on the sample concert. -/
theorem addUserSeat_returns_message_witness :
    (addUserSeat sampleLedger 1 [5, 6] 7 42).outcome =
        .ok "Seats added to reservation successfully." ∧
      (⟨1, 42, 1⟩ : Reservation) ∈ (addUserSeat sampleLedger 1 [5, 6] 7 42).db.reservations :=
  ⟨by decide, (addUserSeat_returns_message sampleLedger 1 [5, 6] 7 42
    "Seats added to reservation successfully." (by decide)).2.1⟩

/-- C17 as stated fails: the claim of user 42 creates reservation 1, the later claim of
user 43 creates reservation 2, and both calls return the same value, which is the
decimal text of neither id. -/
theorem addUserSeat_returns_id_counterexample :
    (addUserSeat sampleLedger 1 [5, 6] 7 42).db.reservations = [⟨1, 42, 1⟩] ∧
      (addUserSeat bookedLedger 1 [7] 7 43).db.reservations = [⟨1, 42, 1⟩, ⟨2, 43, 1⟩] ∧
      (addUserSeat sampleLedger 1 [5, 6] 7 42).outcome =
        (addUserSeat bookedLedger 1 [7] 7 43).outcome ∧
      (addUserSeat sampleLedger 1 [5, 6] 7 42).outcome ≠ .ok (toString (1 : Int)) ∧
      (addUserSeat bookedLedger 1 [7] 7 43).outcome ≠ .ok (toString (2 : Int)) := by
  decide

/-! ## Input validation -/

theorem JsValue.items_ne_nil_of_length (body : JsValue)
    (h : (body.items.length == 0) = false) : body.items ≠ [] := by
  intro e
  simp [e] at h

/-- C16. On arbitrary JavaScript arguments, `addUserSeat` rejects with one of the two
invalid-input errors exactly when one of the three ids is not an integer, or the seat
list is not an array, is empty, or has an element that is not an integer; and then the
rejection is the same on every ledger and the ledger is returned as it was given. -/
theorem addUserSeatJs_invalid_iff (db : Ledger) (concertID addSeatBody theaterID userID : JsValue) :
    (((addUserSeatJs db concertID addSeatBody theaterID userID).outcome = .error .invalidIds ∨
        (addUserSeatJs db concertID addSeatBody theaterID userID).outcome =
          .error .invalidInput) ↔
      (concertID.isInteger = false ∨ theaterID.isInteger = false ∨ userID.isInteger = false ∨
        addSeatBody.isArray = false ∨ addSeatBody.items = [] ∨
        ∃ x ∈ addSeatBody.items, x.isInteger = false)) ∧
      ((concertID.isInteger = false ∨ theaterID.isInteger = false ∨ userID.isInteger = false ∨
        addSeatBody.isArray = false ∨ addSeatBody.items = [] ∨
        ∃ x ∈ addSeatBody.items, x.isInteger = false) →
        ∀ db' : Ledger,
          (addUserSeatJs db' concertID addSeatBody theaterID userID).outcome =
            (addUserSeatJs db concertID addSeatBody theaterID userID).outcome ∧
          (addUserSeatJs db' concertID addSeatBody theaterID userID).db = db') := by
  unfold addUserSeatJs
  by_cases hids : (!concertID.isInteger || !theaterID.isInteger || !userID.isInteger) = true
  · simp only [hids, if_true]
    have hl : concertID.isInteger = false ∨ theaterID.isInteger = false ∨
        userID.isInteger = false := by
      simpa [or_assoc] using hids
    refine ⟨⟨fun _ => ?_, fun _ => by trivial⟩, fun _ _ => by trivial⟩
    rcases hl with h | h | h
    · exact Or.inl h
    · exact Or.inr (Or.inl h)
    · exact Or.inr (Or.inr (Or.inl h))
  · simp only [hids, Bool.false_eq_true, if_false]
    have hc : concertID.isInteger = true ∧ theaterID.isInteger = true ∧
        userID.isInteger = true := by
      simpa [and_assoc] using hids
    by_cases hb : (!addSeatBody.isArray || !addSeatBody.items.all JsValue.isInteger ||
        addSeatBody.items.length == 0) = true
    · simp only [hb, if_true]
      have hr : addSeatBody.isArray = false ∨ addSeatBody.items = [] ∨
          ∃ x ∈ addSeatBody.items, x.isInteger = false := by
        simp only [Bool.or_eq_true, Bool.not_eq_true', List.all_eq_false, beq_iff_eq,
          List.length_eq_zero] at hb
        rcases hb with (h | ⟨x, hx, h⟩) | h
        · exact Or.inl h
        · exact Or.inr (Or.inr ⟨x, hx, by simpa using h⟩)
        · exact Or.inr (Or.inl h)
      refine ⟨⟨fun _ => ?_, fun _ => by trivial⟩, fun _ _ => by trivial⟩
      exact Or.inr (Or.inr (Or.inr hr))
    · simp only [hb, Bool.false_eq_true, if_false]
      simp only [Bool.or_eq_true, Bool.not_eq_true', List.all_eq_false, beq_iff_eq,
        List.length_eq_zero, not_or, Bool.not_eq_false, not_exists, not_and] at hb
      obtain ⟨⟨harr, hall⟩, hne⟩ := hb
      have hvalid := addUserSeat_valid_of_ne_nil db concertID.toInt
        (addSeatBody.items.map JsValue.toInt) theaterID.toInt userID.toInt
        (by simpa using hne)
      have hfalse : ¬ (concertID.isInteger = false ∨ theaterID.isInteger = false ∨
          userID.isInteger = false ∨ addSeatBody.isArray = false ∨ addSeatBody.items = [] ∨
          ∃ x ∈ addSeatBody.items, x.isInteger = false) := by
        rintro (h | h | h | h | h | ⟨x, hx, h⟩)
        · simp [hc.1] at h
        · simp [hc.2.1] at h
        · simp [hc.2.2] at h
        · simp [harr] at h
        · exact hne h
        · have := hall x hx
          simp [h] at this
      refine ⟨⟨fun h => ?_, fun h => absurd h hfalse⟩, fun h => absurd h hfalse⟩
      rcases h with h | h
      · exact absurd h hvalid.1
      · exact absurd h hvalid.2

/-- Witness of C16: the seat list holds the text `'5'` next to the number 6. -/
theorem addUserSeatJs_invalid_iff_witness :
    (addUserSeatJs sampleLedger (.ofInt 1) (.array [.string "5", .ofInt 6]) (.ofInt 7)
        (.ofInt 42)).outcome = .error .invalidInput ∧
      (addUserSeatJs bookedLedger (.ofInt 1) (.array [.string "5", .ofInt 6]) (.ofInt 7)
        (.ofInt 42)).outcome =
      (addUserSeatJs sampleLedger (.ofInt 1) (.array [.string "5", .ofInt 6]) (.ofInt 7)
        (.ofInt 42)).outcome ∧
      (addUserSeatJs bookedLedger (.ofInt 1) (.array [.string "5", .ofInt 6]) (.ofInt 7)
        (.ofInt 42)).db = bookedLedger :=
  ⟨by decide, (addUserSeatJs_invalid_iff sampleLedger (.ofInt 1)
    (.array [.string "5", .ofInt 6]) (.ofInt 7) (.ofInt 42)).2
      (Or.inr (Or.inr (Or.inr (Or.inr (Or.inr ⟨.string "5", by simp [JsValue.items], rfl⟩)))))
      bookedLedger⟩

/-! ## One claim after the other -/

theorem mem_unavailable_ids (db : Ledger) (concertID : Int) (addSeatBody : List Int) (j : Int) :
    j ∈ ((checkConcertSeats db concertID addSeatBody).filter
        (fun seat => seat.status != "available")).map (fun seat => seat.concert_seat_id) ↔
      j ∈ addSeatBody ∧ ∃ s ∈ db.concertSeats, s.concert_id = concertID ∧
        s.concert_seat_id = j ∧ s.status ≠ "available" := by
  simp only [List.mem_map, List.mem_filter, mem_checkConcertSeats, bne_iff_ne, ne_eq]
  constructor
  · rintro ⟨s, ⟨⟨hs, hc, hb⟩, hst⟩, rfl⟩
    exact ⟨hb, s, hs, hc, rfl, hst⟩
  · rintro ⟨hb, s, hs, hc, rfl, hst⟩
    exact ⟨s, ⟨⟨hs, hc, hb⟩, hst⟩, rfl⟩

/-- Under the key of `ConcertSeats`, a concert has one row per seat id. -/
theorem seatKeys_unique (db : Ledger) (hk : SeatKeys db) (s t : ConcertSeat)
    (hs : s ∈ db.concertSeats) (ht : t ∈ db.concertSeats) (hc : s.concert_id = t.concert_id)
    (hid : s.concert_seat_id = t.concert_seat_id) : s = t := by
  unfold SeatKeys at hk
  apply List.inj_on_of_nodup_map hk hs ht
  simp [hc, hid]

/-- C12, as the code has it. In a consistent ledger let user A claim the seats `S` with
success and let another user B, who holds no reservation for the concert, claim `T`
for the same concert and theater, where `S` and `T` share a seat of the concert. Then
the claim of B fails with the seats-unavailable error, which lists exactly the seats
of `T` that are not available, and changes nothing. After A releases the reservation,
the seats of `S` are available again, and a claim by B for a non-empty list of seats
of the concert that are available then resolves. -/
theorem sequential_claims_guard (db : Ledger) (concertID theaterID userA userB : Int)
    (S T : List Int) (m : String) (i : Int) (hc : Consistent db) (hAB : userA ≠ userB)
    (hB : ∀ r ∈ db.reservations, ¬ (r.user_id = userB ∧ r.concert_id = concertID))
    (hA : (addUserSeat db concertID S theaterID userA).outcome = .ok m)
    (hiS : i ∈ S) (hiT : i ∈ T)
    (hseat : ∃ s ∈ db.concertSeats, s.concert_id = concertID ∧ s.concert_seat_id = i) :
    (∃ ids, (addUserSeat (addUserSeat db concertID S theaterID userA).db concertID T
          theaterID userB).outcome = .error (.seatsUnavailable ids) ∧
        ∀ j, j ∈ ids ↔ j ∈ T ∧
          ∃ s ∈ (addUserSeat db concertID S theaterID userA).db.concertSeats,
            s.concert_id = concertID ∧ s.concert_seat_id = j ∧ s.status ≠ "available") ∧
      (addUserSeat (addUserSeat db concertID S theaterID userA).db concertID T
        theaterID userB).db = (addUserSeat db concertID S theaterID userA).db ∧
      (∀ s ∈ (runCalls db [.add concertID S theaterID userA, .add concertID T theaterID userB,
          .delete userA (lastID db.reservations)]).concertSeats,
        s.concert_id = concertID → s.concert_seat_id ∈ S → s.status = "available") ∧
      ∀ T' : List Int, T' ≠ [] →
        (∀ j ∈ T', ∃ s ∈ (runCalls db [.add concertID S theaterID userA,
            .add concertID T theaterID userB,
            .delete userA (lastID db.reservations)]).concertSeats,
          s.concert_id = concertID ∧ s.concert_seat_id = j ∧ s.status = "available") →
        ∃ m', (addUserSeat (runCalls db [.add concertID S theaterID userA,
            .add concertID T theaterID userB, .delete userA (lastID db.reservations)])
          concertID T' theaterID userB).outcome = .ok m' := by
  obtain ⟨h1, _, _, ⟨concert, hcc, hth⟩, hav⟩ :=
    addUserSeat_of_ok db concertID S theaterID userA m hA
  obtain ⟨s0, hs0, hc0, hid0⟩ := hseat
  have hsel0 : s0 ∈ checkConcertSeats db concertID S :=
    (mem_checkConcertSeats db concertID S s0).2 ⟨hs0, hc0, hid0 ▸ hiS⟩
  have hdbA : (addUserSeat db concertID S theaterID userA).db =
      claimed db concertID S userA := by rw [h1]
  -- the claim of B on the ledger A left
  have hB' : (checkExistingReservation (claimed db concertID S userA) userB
      concertID).isSome = false := by
    rw [Bool.eq_false_iff, ne_eq, checkExistingReservation_isSome]
    rintro ⟨r, hr, hu, hcid⟩
    simp only [claimed, List.mem_append, List.mem_singleton] at hr
    rcases hr with hr | rfl
    · exact hB r hr ⟨hu, hcid⟩
    · exact hAB hu
  have hcc' : checkConcert (claimed db concertID S userA) concertID = some concert := hcc
  have hocc : (⟨s0.concert_seat_id, s0.concert_id, s0.seat_id, "occupied"⟩ : ConcertSeat) ∈
      (claimed db concertID S userA).concertSeats := by
    simp only [claimed]
    refine List.mem_map.2 ⟨s0, hs0, ?_⟩
    have : s0.concert_seat_id ∈ (checkConcertSeats db concertID S).map
        (fun seat => seat.concert_seat_id) := List.mem_map.2 ⟨s0, hsel0, rfl⟩
    simp [this]
  have hfilter : ((checkConcertSeats (claimed db concertID S userA) concertID T).filter
      (fun seat => seat.status != "available")) ≠ [] := by
    apply List.ne_nil_of_mem (a := ⟨s0.concert_seat_id, s0.concert_id, s0.seat_id, "occupied"⟩)
    simp only [List.mem_filter, mem_checkConcertSeats]
    exact ⟨⟨hocc, hc0, hid0 ▸ hiT⟩, by decide⟩
  have hT : T ≠ [] := List.ne_nil_of_mem hiT
  have hBres : addUserSeat (claimed db concertID S userA) concertID T theaterID userB =
      ⟨.error (.seatsUnavailable
        (((checkConcertSeats (claimed db concertID S userA) concertID T).filter
          (fun seat => seat.status != "available")).map (fun seat => seat.concert_seat_id))),
        claimed db concertID S userA⟩ := by
    rw [addUserSeat_eq]
    simp [hT, hB', hcc', hth, hfilter]
  -- the release by A
  have hR : runCalls db [.add concertID S theaterID userA, .add concertID T theaterID userB,
      .delete userA (lastID db.reservations)] = db := by
    simp only [runCalls, List.foldl_cons, List.foldl_nil, Call.run]
    rw [hdbA, hBres]
    simp only
    rw [← hdbA]
    exact addUserSeat_deleteUserSeat_restores db concertID S theaterID userA m hc hA
      ⟨s0, hs0, hc0, hid0 ▸ hiS⟩
  rw [hR, hdbA, hBres]
  refine ⟨⟨_, rfl, fun j => mem_unavailable_ids _ concertID T j⟩, rfl, ?_, ?_⟩
  · intro s hs hcid hmem
    exact hav s ((mem_checkConcertSeats db concertID S s).2 ⟨hs, hcid, hmem⟩)
  · intro T' hT' hfree
    refine ⟨_, congrArg DaoResult.outcome
      (addUserSeat_ok_of db concertID T' theaterID userB concert hT' hB hcc hth ?_)⟩
    intro s hs
    obtain ⟨hsdb, hcid, hmem⟩ := (mem_checkConcertSeats db concertID T' s).1 hs
    obtain ⟨t, ht, htc, htid, hst⟩ := hfree s.concert_seat_id hmem
    have : s = t := seatKeys_unique db hc.1 s t hsdb ht (hcid.trans htc.symm) htid.symm
    rw [this]
    exact hst

/-- Witness of C12: on the sample concert user 42 claims seats 1 and 2, user 43 claims
seats 2 and 3 and is told that seat 2 is taken while seat 3 stays available, user 42
releases reservation 1, and user 43 claims seats 1, 2 and 3. -/
theorem sequential_claims_guard_witness :
    (addUserSeat (addUserSeat sampleLedger 1 [1, 2] 7 42).db 1 [2, 3] 7 43).outcome =
        .error (.seatsUnavailable [2]) ∧
      (⟨3, 1, 3, "available"⟩ : ConcertSeat) ∈
        (addUserSeat (addUserSeat sampleLedger 1 [1, 2] 7 42).db 1 [2, 3] 7 43).db.concertSeats ∧
      ∃ m', (addUserSeat (runCalls sampleLedger [.add 1 [1, 2] 7 42, .add 1 [2, 3] 7 43,
          .delete 42 (lastID sampleLedger.reservations)]) 1 [1, 2, 3] 7 43).outcome = .ok m' :=
  ⟨by decide, by decide,
    (sequential_claims_guard sampleLedger 1 7 42 43 [1, 2] [2, 3]
      "Seats added to reservation successfully." 2 (by decide) (by decide) (by decide)
      (by decide) (by decide) (by decide) (by decide)).2.2.2 [1, 2, 3] (by decide) (by decide)⟩

/-- C12 as stated fails in two ways. When user 43 already holds a reservation for the
concert, the claim of seats 2 and 3 after user 42 took seats 1 and 2 is rejected as a
duplicate and not for the seats. And when the two requests share only the id 11, which
is no seat of the concert, the claim of user 43 resolves. -/
theorem sequential_claims_guard_counterexample :
    Consistent (addUserSeat sampleLedger 1 [9] 7 43).db ∧
      (addUserSeat (addUserSeat sampleLedger 1 [9] 7 43).db 1 [1, 2] 7 42).outcome =
        .ok "Seats added to reservation successfully." ∧
      (addUserSeat (addUserSeat (addUserSeat sampleLedger 1 [9] 7 43).db 1 [1, 2] 7 42).db
        1 [2, 3] 7 43).outcome = .error .duplicateReservation ∧
      (addUserSeat sampleLedger 1 [1, 11] 7 42).outcome =
        .ok "Seats added to reservation successfully." ∧
      (addUserSeat (addUserSeat sampleLedger 1 [1, 11] 7 42).db 1 [11, 3] 7 43).outcome =
        .ok "Seats added to reservation successfully." := by
  decide

/-! ## Storage faults during a release -/

/-- C13 at a failing input. User 42 holds reservation 1 on seats 5 and 6 and releases
it; the `COMMIT` of the release fails. The promise rejects, no `ROLLBACK` is issued,
and the statements of the connection read seats 5 and 6 as `'available'`, no link
and no reservation: the ledger is not what it was before the call. -/
theorem deleteUserSeatFaulty_commit_not_rolled_back :
    (deleteUserSeatFaulty .commit bookedLedger 42 1).outcome =
        .error "Error committing transaction: " ∧
      (deleteUserSeatFaulty .commit bookedLedger 42 1).db ≠ bookedLedger ∧
      (deleteUserSeatFaulty .commit bookedLedger 42 1).db = sampleLedger ∧
      (deleteUserSeatFaulty .commit bookedLedger 42 1).openTransaction = some bookedLedger ∧
      (⟨5, 1, 5, "occupied"⟩ : ConcertSeat) ∈ bookedLedger.concertSeats ∧
      (⟨5, 1, 5, "available"⟩ : ConcertSeat) ∈
        (deleteUserSeatFaulty .commit bookedLedger 42 1).db.concertSeats := by
  decide

/-- The part of C13 the release meets: when any storage call other than `COMMIT`
fails, every rejected release leaves the ledger as it was, with no transaction open. -/
theorem deleteUserSeatFaulty_rolled_back (failing : ReleaseStep) (db : Ledger)
    (user_id reservationId : Int) (e : String) (hstep : failing ≠ .commit)
    (hrej : (deleteUserSeatFaulty failing db user_id reservationId).outcome = .error e) :
    (deleteUserSeatFaulty failing db user_id reservationId).db = db ∧
      (deleteUserSeatFaulty failing db user_id reservationId).openTransaction = none := by
  cases hg : getReservation db user_id reservationId with
  | none =>
    cases failing <;>
      simp [deleteUserSeatFaulty, beginTransaction, Txn.rollback, Txn.commit, hg] at hrej ⊢
  | some r =>
    by_cases hl : 0 < (getSeats db reservationId).length
    · cases failing <;>
        simp [deleteUserSeatFaulty, beginTransaction, Txn.rollback, Txn.commit, hg, hl]
          at hrej hstep ⊢
    · cases failing <;>
        simp [deleteUserSeatFaulty, beginTransaction, Txn.rollback, Txn.commit, hg, hl]
          at hrej hstep ⊢

/-- A release whose failing storage call is not reached, or is the `COMMIT` that no
callback watches, does what the release without fault does. -/
theorem deleteUserSeatFaulty_resolved (failing : ReleaseStep) (db : Ledger)
    (user_id reservationId : Int) (m : String)
    (hok : (deleteUserSeatFaulty failing db user_id reservationId).outcome = .ok m) :
    (deleteUserSeatFaulty failing db user_id reservationId).db =
      (deleteUserSeat db user_id reservationId).db := by
  cases hg : getReservation db user_id reservationId with
  | none =>
    cases failing <;>
      simp [deleteUserSeatFaulty, deleteUserSeat, beginTransaction, Txn.rollback, Txn.commit, hg]
        at hok ⊢
  | some r =>
    by_cases hl : 0 < (getSeats db reservationId).length
    · cases failing <;>
        simp [deleteUserSeatFaulty, deleteUserSeat, beginTransaction, Txn.rollback, Txn.commit,
          hg, hl] at hok ⊢
    · cases failing <;>
        simp [deleteUserSeatFaulty, deleteUserSeat, beginTransaction, Txn.rollback, Txn.commit,
          hg, hl] at hok ⊢

/-! ## The estimator -/

theorem getEstimation_none (u : ℚ) :
    getEstimation none u = .badRequest "Invalid or missing reservations data." := rfl

/-- C18. A request whose token fails verification, so that the JWT middleware raises an
`UnauthorizedError`, is answered with the 401 authorization error whatever its method,
path and the random draw are; and a discount is computed only for a request whose
token was verified. -/
theorem estimatorApp_unauthorized (req : EstimatorRequest) (code : String) (u : ℚ)
    (h : req.jwt = .error "UnauthorizedError" code) :
    estimatorApp req u = .authorizationError code ∧ (estimatorApp req u).status = 401 ∧
      ∀ (req' : EstimatorRequest) (u' : ℚ),
        ((∃ text, estimatorApp req' u' = .discount text) ∨ estimatorApp req' u' = .coerced) →
          ∃ auth, req'.jwt = .verified auth := by
  refine ⟨by simp [estimatorApp, h], by simp [estimatorApp, h, EstimatorResponse.status], ?_⟩
  intro req' u' hd
  cases hj : req'.jwt with
  | verified auth => exact ⟨auth, rfl⟩
  | error name code' =>
    exfalso
    simp only [estimatorApp, hj, estimatorRoutes, getEstimation_none] at hd
    split_ifs at hd <;> simp at hd

/-- Witness of C18: a request for the estimation whose token is expired. -/
theorem estimatorApp_unauthorized_witness :
    estimatorApp ⟨"GET", "/api/get-estimation", .error "UnauthorizedError" "invalid_token"⟩ 0 =
      .authorizationError "invalid_token" :=
  (estimatorApp_unauthorized ⟨"GET", "/api/get-estimation",
    .error "UnauthorizedError" "invalid_token"⟩ "invalid_token" 0 rfl).1

/-! ## Rounding to binary64 -/

theorem floor_le_roundHalfEven (t : ℚ) : ⌊t⌋ ≤ roundHalfEven t := by
  unfold roundHalfEven
  split_ifs <;> omega

theorem roundHalfEven_le (t : ℚ) : roundHalfEven t ≤ ⌊t⌋ + 1 := by
  unfold roundHalfEven
  split_ifs <;> omega

theorem roundHalfEven_mono {t s : ℚ} (h : t ≤ s) : roundHalfEven t ≤ roundHalfEven s := by
  rcases lt_or_eq_of_le (Int.floor_mono h) with hlt | heq
  · have h1 := roundHalfEven_le t
    have h2 := floor_le_roundHalfEven s
    omega
  · unfold roundHalfEven
    rw [← heq]
    split_ifs <;> first | omega | (exfalso; linarith)

theorem roundHalfEven_intCast (n : Int) : roundHalfEven (n : ℚ) = n := by
  unfold roundHalfEven
  simp

theorem quantum_pos (x : ℚ) : (0 : ℚ) < 2 ^ (binade x - 52) := by positivity

/-- A multiple of the quantum below `x` is below the rounded value. -/
theorem le_roundFinite (x : ℚ) (c : Int) (h : (c : ℚ) * 2 ^ (binade x - 52) ≤ x) :
    (c : ℚ) * 2 ^ (binade x - 52) ≤ roundFinite x := by
  have hq := quantum_pos x
  have h1 : (c : ℚ) ≤ x / 2 ^ (binade x - 52) := (le_div_iff₀ hq).2 h
  have h2 := roundHalfEven_mono h1
  rw [roundHalfEven_intCast] at h2
  have h3 : (c : ℚ) ≤ (roundHalfEven (x / 2 ^ (binade x - 52)) : ℚ) := by exact_mod_cast h2
  exact mul_le_mul_of_nonneg_right h3 hq.le

theorem roundFinite_le (x : ℚ) (c : Int) (h : x ≤ (c : ℚ) * 2 ^ (binade x - 52)) :
    roundFinite x ≤ (c : ℚ) * 2 ^ (binade x - 52) := by
  have hq := quantum_pos x
  have h1 : x / 2 ^ (binade x - 52) ≤ (c : ℚ) := (div_le_iff₀ hq).2 h
  have h2 := roundHalfEven_mono h1
  rw [roundHalfEven_intCast] at h2
  have h3 : (roundHalfEven (x / 2 ^ (binade x - 52)) : ℚ) ≤ (c : ℚ) := by exact_mod_cast h2
  exact mul_le_mul_of_nonneg_right h3 hq.le

theorem roundFinite_nonneg {x : ℚ} (h : 0 ≤ x) : 0 ≤ roundFinite x := by
  have := le_roundFinite x 0 (by simpa using h)
  simpa using this

theorem roundFinite_nonpos {x : ℚ} (h : x ≤ 0) : roundFinite x ≤ 0 := by
  have := roundFinite_le x 0 (by simpa using h)
  simpa using this

theorem zpow_binade (x : ℚ) (k : ℕ) :
    ((2 ^ k : Int) : ℚ) * 2 ^ (binade x - 52) = 2 ^ (binade x - 52 + k) := by
  push_cast
  rw [zpow_add₀ (two_ne_zero), zpow_natCast, mul_comm]

theorem two_zpow_mono {a b : Int} (h : a ≤ b) : (2 : ℚ) ^ a ≤ 2 ^ b :=
  zpow_le_zpow_right₀ (by norm_num) h

theorem log_le_binade (x : ℚ) : Int.log 2 |x| ≤ binade x := le_max_left _ _

theorem binade_eq_log {x : ℚ} (h : -1022 < binade x) : binade x = Int.log 2 |x| := by
  unfold binade at h ⊢
  rw [max_def] at h ⊢
  split_ifs at h ⊢ <;> omega

theorem binade_ge (x : ℚ) : -1022 ≤ binade x := le_max_right _ _

theorem lt_zpow_binade (x : ℚ) : |x| < 2 ^ (binade x + 1) := by
  have h := @Int.lt_zpow_succ_log_self ℚ _ _ 2 (by norm_num) |x|
  have h2 : (2 : ℚ) ^ (Int.log 2 |x| + 1) ≤ 2 ^ (binade x + 1) :=
    two_zpow_mono (by have := log_le_binade x; omega)
  simp only [Nat.cast_ofNat] at h
  exact lt_of_lt_of_le h h2

theorem zpow_binade_le {x : ℚ} (hx : x ≠ 0) (h : -1022 < binade x) :
    (2 : ℚ) ^ binade x ≤ |x| := by
  rw [binade_eq_log h]
  have := @Int.zpow_log_le_self ℚ _ _ 2 _ (by norm_num) (abs_pos.2 hx)
  simpa using this

theorem roundFinite_same {x y : ℚ} (hb : binade x = binade y) (h : x ≤ y) :
    roundFinite x ≤ roundFinite y := by
  unfold roundFinite
  simp only [hb]
  have hq := quantum_pos y
  have h1 : x / 2 ^ (binade y - 52) ≤ y / 2 ^ (binade y - 52) :=
    div_le_div_of_nonneg_right h hq.le
  have h2 : (roundHalfEven (x / 2 ^ (binade y - 52)) : ℚ) ≤
      (roundHalfEven (y / 2 ^ (binade y - 52)) : ℚ) := by
    exact_mod_cast roundHalfEven_mono h1
  exact mul_le_mul_of_nonneg_right h2 hq.le

/-- A positive value rounds to at most the power of two that ends its binade. -/
theorem roundFinite_le_zpow (x : ℚ) : roundFinite x ≤ 2 ^ (binade x + 1) := by
  have h := roundFinite_le x (2 ^ 53) (by
    rw [zpow_binade]
    have := lt_zpow_binade x
    have h1 : binade x - 52 + ((53 : ℕ) : Int) = binade x + 1 := by push_cast; ring
    rw [h1]
    exact le_trans (le_abs_self x) this.le)
  rw [zpow_binade] at h
  have h1 : binade x - 52 + ((53 : ℕ) : Int) = binade x + 1 := by push_cast; ring
  rwa [h1] at h

theorem neg_zpow_le_roundFinite (x : ℚ) : -(2 : ℚ) ^ (binade x + 1) ≤ roundFinite x := by
  have h1 : binade x - 52 + ((53 : ℕ) : Int) = binade x + 1 := by push_cast; ring
  have h := le_roundFinite x (-(2 ^ 53)) (by
    rw [Int.cast_neg, neg_mul, zpow_binade, h1]
    have := lt_zpow_binade x
    have := neg_abs_le x
    linarith)
  rwa [Int.cast_neg, neg_mul, zpow_binade, h1] at h

theorem zpow_le_roundFinite {x : ℚ} (hx : 0 < x) (h : -1022 < binade x) :
    (2 : ℚ) ^ binade x ≤ roundFinite x := by
  have h1 : binade x - 52 + ((52 : ℕ) : Int) = binade x := by push_cast; ring
  have h2 := le_roundFinite x (2 ^ 52) (by
    rw [zpow_binade, h1]
    have := zpow_binade_le hx.ne' h
    rwa [abs_of_pos hx] at this)
  rwa [zpow_binade, h1] at h2

theorem roundFinite_le_neg_zpow {x : ℚ} (hx : x < 0) (h : -1022 < binade x) :
    roundFinite x ≤ -(2 : ℚ) ^ binade x := by
  have h1 : binade x - 52 + ((52 : ℕ) : Int) = binade x := by push_cast; ring
  have h2 := roundFinite_le x (-(2 ^ 52)) (by
    rw [Int.cast_neg, neg_mul, zpow_binade, h1]
    have := zpow_binade_le hx.ne h
    rw [abs_of_neg hx] at this
    linarith)
  rwa [Int.cast_neg, neg_mul, zpow_binade, h1] at h2

theorem binade_mono (x y : ℚ) (hx : x ≠ 0) (h : |x| ≤ |y|) : binade x ≤ binade y := by
  unfold binade
  exact max_le_max (Int.log_mono_right (abs_pos.2 hx) h) (le_refl _)

/-- Rounding to binary64 is monotone. -/
theorem roundFinite_mono {x y : ℚ} (h : x ≤ y) : roundFinite x ≤ roundFinite y := by
  rcases lt_trichotomy 0 x with hx | hx | hx
  · have hy : 0 < y := lt_of_lt_of_le hx h
    have hb := binade_mono x y hx.ne' (by rwa [abs_of_pos hx, abs_of_pos hy])
    rcases lt_or_eq_of_le hb with hlt | heq
    · have h1 := roundFinite_le_zpow x
      have h2 := zpow_le_roundFinite hy (by have := binade_ge x; omega)
      have h3 : (2 : ℚ) ^ (binade x + 1) ≤ 2 ^ binade y := two_zpow_mono (by omega)
      linarith
    · exact roundFinite_same heq h
  · rw [← hx] at h ⊢
    have : roundFinite 0 = 0 := le_antisymm (roundFinite_nonpos le_rfl) (roundFinite_nonneg le_rfl)
    rw [this]
    exact roundFinite_nonneg h
  · rcases lt_or_le y 0 with hy | hy
    · have hb := binade_mono y x hy.ne (by rw [abs_of_neg hx, abs_of_neg hy]; linarith)
      rcases lt_or_eq_of_le hb with hlt | heq
      · have h1 := roundFinite_le_neg_zpow hx (by have := binade_ge y; omega)
        have h2 := neg_zpow_le_roundFinite y
        have h3 : (2 : ℚ) ^ (binade y + 1) ≤ 2 ^ binade x := two_zpow_mono (by omega)
        linarith
      · exact roundFinite_same heq.symm h
    · exact le_trans (roundFinite_nonpos hx.le) (roundFinite_nonneg hy)

/-- A number with at most 53 significant bits and an exponent in range is a binary64
value: rounding keeps it. -/
theorem roundFinite_exact (m j : Int) (hm : |m| < 2 ^ 53) (hj : -1074 ≤ j) :
    roundFinite ((m : ℚ) * 2 ^ j) = (m : ℚ) * 2 ^ j := by
  by_cases h0 : m = 0
  · subst h0
    simp [roundFinite, roundHalfEven]
  · have hx0 : (m : ℚ) * 2 ^ j ≠ 0 := by
      have : (m : ℚ) ≠ 0 := by exact_mod_cast h0
      positivity
    have hlt : |(m : ℚ) * 2 ^ j| < ((2 : ℕ) : ℚ) ^ (53 + j) := by
      rw [abs_mul, abs_of_pos (by positivity : (0 : ℚ) < 2 ^ j), Nat.cast_ofNat,
        zpow_add₀ (two_ne_zero)]
      have : |(m : ℚ)| < 2 ^ (53 : Int) := by
        have h' : ((|m| : Int) : ℚ) < ((2 ^ 53 : Int) : ℚ) := by exact_mod_cast hm
        norm_num at h' ⊢
        exact h'
      exact mul_lt_mul_of_pos_right this (by positivity)
    have hlog := (@Int.lt_zpow_iff_log_lt ℚ _ _ 2 (by norm_num) _ _ (abs_pos.2 hx0)).1 hlt
    have hb : binade ((m : ℚ) * 2 ^ j) - 52 ≤ j := by
      unfold binade
      rw [max_def]
      split_ifs <;> omega
    obtain ⟨k, hk⟩ := Int.eq_ofNat_of_zero_le (sub_nonneg.2 hb)
    have hj' : j = binade ((m : ℚ) * 2 ^ j) - 52 + k := by omega
    have hq := quantum_pos ((m : ℚ) * 2 ^ j)
    have hdiv : (m : ℚ) * 2 ^ j / 2 ^ (binade ((m : ℚ) * 2 ^ j) - 52) =
        ((m * 2 ^ k : Int) : ℚ) := by
      rw [div_eq_iff hq.ne']
      conv_lhs => rw [hj']
      rw [zpow_add₀ (two_ne_zero), zpow_natCast]
      push_cast
      ring
    unfold roundFinite
    simp only []
    rw [hdiv, roundHalfEven_intCast, ← hdiv, div_mul_cancel₀ _ hq.ne']

theorem roundFinite_zero : roundFinite 0 = 0 :=
  le_antisymm (roundFinite_nonpos le_rfl) (roundFinite_nonneg le_rfl)

theorem abs_roundHalfEven_le (x : ℚ) :
    |roundHalfEven (x / 2 ^ (binade x - 52))| ≤ 2 ^ 53 := by
  have hq := quantum_pos x
  have hlt := lt_zpow_binade x
  have h1 : binade x - 52 + ((53 : ℕ) : Int) = binade x + 1 := by push_cast; ring
  have hpow : ((2 ^ 53 : Int) : ℚ) * 2 ^ (binade x - 52) = 2 ^ (binade x + 1) := by
    rw [zpow_binade, h1]
  have hup : x / 2 ^ (binade x - 52) ≤ ((2 ^ 53 : Int) : ℚ) := by
    rw [div_le_iff₀ hq, hpow]
    exact le_trans (le_abs_self x) hlt.le
  have hlo : ((-(2 ^ 53) : Int) : ℚ) ≤ x / 2 ^ (binade x - 52) := by
    rw [le_div_iff₀ hq, Int.cast_neg, neg_mul, hpow]
    have := neg_abs_le x
    linarith
  have h2 := roundHalfEven_mono hup
  have h3 := roundHalfEven_mono hlo
  rw [roundHalfEven_intCast] at h2 h3
  rw [abs_le]
  constructor <;> omega

/-- A rounded value is a binary64 value: rounding it again keeps it. -/
theorem roundFinite_idem (x : ℚ) : roundFinite (roundFinite x) = roundFinite x := by
  have hN := abs_roundHalfEven_le x
  have hb := binade_ge x
  have hform : roundFinite x =
      (roundHalfEven (x / 2 ^ (binade x - 52)) : ℚ) * 2 ^ (binade x - 52) := rfl
  rcases lt_or_eq_of_le hN with hlt | heq
  · rw [hform]
    exact roundFinite_exact _ _ hlt (by omega)
  · have hcases : roundHalfEven (x / 2 ^ (binade x - 52)) = 2 ^ 53 ∨
        roundHalfEven (x / 2 ^ (binade x - 52)) = -(2 ^ 53) := by
      rcases abs_cases (roundHalfEven (x / 2 ^ (binade x - 52))) with ⟨h1, _⟩ | ⟨h1, _⟩ <;>
        omega
    have hstep : (2 : ℚ) ^ (binade x - 51) = 2 * 2 ^ (binade x - 52) := by
      have : binade x - 51 = 1 + (binade x - 52) := by ring
      rw [this, zpow_add₀ (two_ne_zero), zpow_one]
    rcases hcases with h | h
    · have hy : roundFinite x = ((2 ^ 52 : Int) : ℚ) * 2 ^ (binade x - 51) := by
        rw [hform, h, hstep]
        push_cast
        ring
      rw [hy]
      exact roundFinite_exact _ _ (by norm_num) (by omega)
    · have hy : roundFinite x = ((-(2 ^ 52) : Int) : ℚ) * 2 ^ (binade x - 51) := by
        rw [hform, h, hstep]
        push_cast
        ring
      rw [hy]
      exact roundFinite_exact _ _ (by norm_num) (by omega)

/-- An integer of size at most `2 ^ 53` is a binary64 value. -/
theorem roundFinite_intCast (n : Int) (hn : |n| ≤ 2 ^ 53) : roundFinite (n : ℚ) = n := by
  rcases lt_or_eq_of_le hn with hlt | heq
  · have := roundFinite_exact n 0 hlt (by norm_num)
    simpa using this
  · have hcases : n = 2 ^ 53 ∨ n = -(2 ^ 53) := by
      rcases abs_cases n with ⟨h1, _⟩ | ⟨h1, _⟩ <;> omega
    rcases hcases with h | h
    · have := roundFinite_exact (2 ^ 52) 1 (by norm_num) (by norm_num)
      rw [h]
      norm_num at this ⊢
      exact this
    · have := roundFinite_exact (-(2 ^ 52)) 1 (by norm_num) (by norm_num)
      rw [h]
      norm_num at this ⊢
      exact this

/-- An eighth of an integer below `2 ^ 53` in size is a binary64 value. -/
theorem roundFinite_eighths (m : Int) (hm : |m| < 2 ^ 53) :
    roundFinite ((m : ℚ) / 8) = (m : ℚ) / 8 := by
  have := roundFinite_exact m (-3) hm (by norm_num)
  have h8 : (2 : ℚ) ^ (-3 : Int) = 1 / 8 := by norm_num [zpow_neg]
  rw [h8] at this
  rw [div_eq_mul_one_div]
  exact this

theorem roundDouble_of_lt {x : ℚ} (h : |roundFinite x| < 2 ^ 1024) :
    roundDouble x = .finite (roundFinite x) := by
  unfold roundDouble
  rw [if_neg (not_le.2 h)]

theorem roundDouble_intCast (n : Int) (hn : |n| ≤ 2 ^ 53) :
    roundDouble (n : ℚ) = .finite n := by
  have h := roundFinite_intCast n hn
  have hlt : |roundFinite (n : ℚ)| < 2 ^ 1024 := by
    rw [h]
    have h1 : |(n : ℚ)| ≤ 2 ^ 53 := by
      have h' : ((|n| : Int) : ℚ) ≤ ((2 ^ 53 : Int) : ℚ) := by exact_mod_cast hn
      norm_num at h' ⊢
      exact h'
    exact lt_of_le_of_lt h1 (by norm_num)
  rw [roundDouble_of_lt hlt, h]

theorem roundDouble_eighths (m : Int) (hm : |m| < 2 ^ 53) :
    roundDouble ((m : ℚ) / 8) = .finite ((m : ℚ) / 8) := by
  have h := roundFinite_eighths m hm
  have hlt : |roundFinite ((m : ℚ) / 8)| < 2 ^ 1024 := by
    rw [h, abs_div]
    have h1 : |(m : ℚ)| < 2 ^ 53 := by
      have h' : ((|m| : Int) : ℚ) < ((2 ^ 53 : Int) : ℚ) := by exact_mod_cast hm
      norm_num at h' ⊢
      exact h'
    have h2 : |(8 : ℚ)| = 8 := by norm_num
    rw [h2]
    have : |(m : ℚ)| / 8 ≤ |(m : ℚ)| := by
      have := abs_nonneg (m : ℚ)
      linarith
    exact lt_of_le_of_lt this (lt_trans h1 (by norm_num))
  rw [roundDouble_of_lt hlt, h]

/-- The binade of a value between two consecutive powers of two. -/
theorem binade_eq_of (x : ℚ) (e : Int) (he : -1022 ≤ e) (h1 : (2 : ℚ) ^ e ≤ |x|)
    (h2 : |x| < 2 ^ (e + 1)) : binade x = e := by
  have hpos : 0 < |x| := lt_of_lt_of_le (by positivity) h1
  have hle : e ≤ Int.log 2 |x| :=
    (@Int.zpow_le_iff_le_log ℚ _ _ 2 (by norm_num) e |x| hpos).1 (by simpa using h1)
  have hlt : Int.log 2 |x| < e + 1 :=
    (@Int.lt_zpow_iff_log_lt ℚ _ _ 2 (by norm_num) (e + 1) |x| hpos).1 (by simpa using h2)
  unfold binade
  rw [max_def]
  split_ifs <;> omega

/-! ## The random draw and the discount -/

theorem getRandomNumber_zero : getRandomNumber 5 20 0 = 5 := by
  simp [getRandomNumber]

theorem getRandomNumber_half : getRandomNumber 5 20 (1 / 2) = 13 := by
  simp only [getRandomNumber]
  norm_num [Int.floor_eq_iff]

/-- C28. For integers `min ≤ max`, `getRandomNumber(min, max)` lies between `min` and
`max` for every draw `0 ≤ u < 1`, and every integer between `min` and `max` is returned
for some such draw; `getRandomNumber(5, 20)` returns `k` exactly for the draws in
`[(k - 5) / 16, (k - 4) / 16)`, an interval of length `1 / 16`. -/
theorem getRandomNumber_range (min max : Int) (h : min ≤ max) :
    (∀ u : ℚ, 0 ≤ u → u < 1 →
        min ≤ getRandomNumber min max u ∧ getRandomNumber min max u ≤ max) ∧
      (∀ k : Int, min ≤ k → k ≤ max →
        ∃ u : ℚ, 0 ≤ u ∧ u < 1 ∧ getRandomNumber min max u = k) ∧
      (∀ (u : ℚ) (k : Int), getRandomNumber 5 20 u = k ↔
        ((k : ℚ) - 5) / 16 ≤ u ∧ u < ((k : ℚ) - 4) / 16) ∧
      ∀ k : Int, ((k : ℚ) - 4) / 16 - ((k : ℚ) - 5) / 16 = 1 / 16 := by
  have hn : (0 : ℚ) < (max : ℚ) - min + 1 := by
    have : (min : ℚ) ≤ max := by exact_mod_cast h
    linarith
  refine ⟨?_, ?_, ?_, ?_⟩
  · intro u hu0 hu1
    unfold getRandomNumber
    have h0 : 0 ≤ ⌊u * ((max : ℚ) - min + 1)⌋ := Int.floor_nonneg.2 (mul_nonneg hu0 hn.le)
    have h1 : ⌊u * ((max : ℚ) - min + 1)⌋ < max - min + 1 := by
      rw [Int.floor_lt]
      push_cast
      calc u * ((max : ℚ) - min + 1) < 1 * ((max : ℚ) - min + 1) :=
            mul_lt_mul_of_pos_right hu1 hn
        _ = (max : ℚ) - min + 1 := one_mul _
    constructor <;> omega
  · intro k hk1 hk2
    refine ⟨((k : ℚ) - min) / ((max : ℚ) - min + 1), ?_, ?_, ?_⟩
    · apply div_nonneg _ hn.le
      have : (min : ℚ) ≤ k := by exact_mod_cast hk1
      linarith
    · rw [div_lt_one hn]
      have : (k : ℚ) ≤ max := by exact_mod_cast hk2
      linarith
    · unfold getRandomNumber
      rw [div_mul_cancel₀ _ hn.ne']
      have : ((k : ℚ) - min) = ((k - min : Int) : ℚ) := by push_cast; ring
      rw [this, Int.floor_intCast]
      omega
  · intro u k
    unfold getRandomNumber
    have h16 : ((20 : Int) : ℚ) - ((5 : Int) : ℚ) + 1 = 16 := by norm_num
    rw [h16]
    constructor
    · intro hk
      have hf : ⌊u * 16⌋ = k - 5 := by omega
      rw [Int.floor_eq_iff] at hf
      push_cast at hf
      constructor
      · rw [div_le_iff₀ (by norm_num)]
        exact hf.1
      · rw [lt_div_iff₀ (by norm_num)]
        linarith [hf.2]
    · rintro ⟨h1, h2⟩
      have hf : ⌊u * 16⌋ = k - 5 := by
        rw [Int.floor_eq_iff]
        push_cast
        rw [div_le_iff₀ (by norm_num)] at h1
        rw [lt_div_iff₀ (by norm_num)] at h2
        constructor <;> linarith
      omega
  · intro k
    ring

/-- Witness of C28: the draw `u = 1/2` with the bounds 5 and 20. -/
theorem getRandomNumber_range_witness :
    5 ≤ getRandomNumber 5 20 (1 / 2) ∧ getRandomNumber 5 20 (1 / 2) ≤ 20 :=
  (getRandomNumber_range 5 20 (by decide)).1 (1 / 2) (by norm_num) (by norm_num)

/-! ## The arithmetic of the estimator -/

theorem mathRound_mono {x y : ℚ} (h : x ≤ y) : mathRound x ≤ mathRound y := by
  unfold mathRound
  exact Int.floor_mono (by linarith)

/-- `Math.round` gives the nearest integer, a half going up. -/
theorem mathRound_nearest (x : ℚ) :
    (mathRound x : ℚ) - 1 / 2 ≤ x ∧ x < (mathRound x : ℚ) + 1 / 2 := by
  unfold mathRound
  have h1 := Int.floor_le (x + 1 / 2)
  have h2 := Int.lt_floor_add_one (x + 1 / 2)
  constructor <;> linarith

theorem mathRound_eq (x : ℚ) (z : Int) (h1 : (z : ℚ) - 1 / 2 ≤ x) (h2 : x < (z : ℚ) + 1 / 2) :
    mathRound x = z := by
  unfold mathRound
  rw [Int.floor_eq_iff]
  constructor <;> linarith

theorem mathRound_intCast (n : Int) : mathRound (n : ℚ) = n :=
  mathRound_eq _ _ (by linarith) (by linarith)

theorem clamp_eq (d : Int) : max 5 (min d 50) = min 50 (max 5 d) := by
  simp only [max_def, min_def]
  split_ifs <;> omega

theorem clamp_finite (x : ℚ) :
    mathMax (.finite 5) (mathMin (JsNumber.round (.finite x)) (.finite 50)) =
      .finite ((max 5 (min (mathRound x) 50) : Int) : ℚ) := by
  simp only [JsNumber.round, mathMin, mathMax]
  push_cast
  rfl

/-- The rounding to an integer and the clamp, on the binary64 value of `x`. -/
theorem clamp_roundDouble (x : ℚ) :
    mathMax (.finite 5) (mathMin (roundDouble x).round (.finite 50)) =
      .finite (doubleDiscount x) := by
  unfold roundDouble doubleDiscount
  by_cases h : (2 : ℚ) ^ 1024 ≤ |roundFinite x|
  · rw [if_pos h, if_pos h]
    by_cases hx : x < 0
    · simp [hx, JsNumber.round, mathMin, mathMax]
    · simp only [hx, decide_False, JsNumber.round, mathMin, mathMax, if_false]
      norm_num
  · rw [if_neg h, if_neg h]
    exact clamp_finite _

theorem numberText?_intCast (d : Int) (h : d.natAbs < 10 ^ 21) :
    numberText? (.finite (d : ℚ)) = some (toString d) := by
  have h' := h
  norm_num at h'
  simp [numberText?, h']

theorem doubleDiscount_bounds (x : ℚ) : 5 ≤ doubleDiscount x ∧ doubleDiscount x ≤ 50 := by
  unfold doubleDiscount
  split_ifs
  · exact ⟨le_refl _, by norm_num⟩
  · exact ⟨by norm_num, le_refl _⟩
  · exact ⟨le_max_left _ _, max_le (by norm_num) (min_le_right _ _)⟩

theorem numberText?_doubleDiscount (x : ℚ) :
    numberText? (.finite (doubleDiscount x : ℚ)) = some (toString (doubleDiscount x)) := by
  apply numberText?_intCast
  have := doubleDiscount_bounds x
  omega

/-- The discount grows with the exact sum. -/
theorem doubleDiscount_mono {x y : ℚ} (h : x ≤ y) : doubleDiscount x ≤ doubleDiscount y := by
  have hm := roundFinite_mono h
  have hby := doubleDiscount_bounds y
  have hbx := doubleDiscount_bounds x
  unfold doubleDiscount at hbx hby ⊢
  by_cases hox : (2 : ℚ) ^ 1024 ≤ |roundFinite x|
  · rw [if_pos hox] at hbx ⊢
    by_cases hx : x < 0
    · rw [if_pos hx]
      exact hby.1
    · rw [if_neg hx]
      have hx0 : 0 ≤ roundFinite x := roundFinite_nonneg (not_lt.1 hx)
      rw [abs_of_nonneg hx0] at hox
      have hy0 : 0 ≤ roundFinite y := le_trans hx0 hm
      have hoy : (2 : ℚ) ^ 1024 ≤ |roundFinite y| := by
        rw [abs_of_nonneg hy0]
        exact le_trans hox hm
      have hy : ¬ y < 0 := not_lt.2 (le_trans (not_lt.1 hx) h)
      rw [if_pos hoy, if_neg hy]
  · rw [if_neg hox] at hbx ⊢
    by_cases hoy : (2 : ℚ) ^ 1024 ≤ |roundFinite y|
    · rw [if_pos hoy]
      by_cases hy : y < 0
      · exfalso
        have hy0 : roundFinite y ≤ 0 := roundFinite_nonpos hy.le
        rw [abs_of_nonpos hy0] at hoy
        have hx0 : roundFinite x ≤ 0 := le_trans hm hy0
        apply hox
        rw [abs_of_nonpos hx0]
        linarith
      · rw [if_neg hy]
        exact hbx.2
    · rw [if_neg hoy]
      exact max_le_max (le_refl _) (min_le_min (mathRound_mono hm) (le_refl _))

theorem doubleDiscount_of_exact (x : ℚ) (hx : roundFinite x = x) (hlt : |x| < 2 ^ 1024) :
    doubleDiscount x = max 5 (min (mathRound x) 50) := by
  unfold doubleDiscount
  rw [hx, if_neg (not_le.2 hlt)]

theorem intCast_abs_lt (n : Int) (hn : |n| ≤ 2 ^ 53) : |(n : ℚ)| < 2 ^ 1024 := by
  have h1 : |(n : ℚ)| ≤ 2 ^ 53 := by
    have h' : ((|n| : Int) : ℚ) ≤ ((2 ^ 53 : Int) : ℚ) := by exact_mod_cast hn
    norm_num at h' ⊢
    exact h'
  exact lt_of_le_of_lt h1 (by norm_num)

/-- On an integer the discount is the clamp of the integer, whatever its size. -/
theorem doubleDiscount_intCast (n : Int) : doubleDiscount (n : ℚ) = max 5 (min n 50) := by
  have hsmall : ∀ m : Int, |m| ≤ 2 ^ 53 → doubleDiscount (m : ℚ) = max 5 (min m 50) := by
    intro m hm
    rw [doubleDiscount_of_exact _ (roundFinite_intCast m hm) (intCast_abs_lt m hm),
      mathRound_intCast]
  by_cases hn : |n| ≤ 2 ^ 53
  · exact hsmall n hn
  · have hb := doubleDiscount_bounds (n : ℚ)
    rcases le_or_lt 0 n with h0 | h0
    · have hbig : (2 : Int) ^ 53 ≤ n := by
        rw [abs_of_nonneg h0] at hn
        omega
      have h1 := hsmall (2 ^ 53) (by norm_num)
      have h2 : doubleDiscount (((2 ^ 53 : Int)) : ℚ) ≤ doubleDiscount (n : ℚ) :=
        doubleDiscount_mono (by exact_mod_cast hbig)
      have h3 : max (5 : Int) (min (2 ^ 53) 50) = 50 := by norm_num
      have h4 : max (5 : Int) (min n 50) = 50 := by
        rw [min_eq_right (by omega)]
        norm_num
      omega
    · have hbig : n ≤ -(2 : Int) ^ 53 := by
        rw [abs_of_neg h0] at hn
        omega
      have h1 := hsmall (-(2 ^ 53)) (by norm_num)
      have h2 : doubleDiscount (n : ℚ) ≤ doubleDiscount (((-(2 ^ 53) : Int)) : ℚ) :=
        doubleDiscount_mono (by exact_mod_cast hbig)
      have h3 : max (5 : Int) (min (-(2 ^ 53)) 50) = 5 := by norm_num
      have h4 : max (5 : Int) (min n 50) = 5 := by
        rw [min_eq_left (by omega)]
        exact max_eq_left (by omega)
      omega

theorem doubleDiscount_eighths (m : Int) (hm : |m| < 2 ^ 53) :
    doubleDiscount ((m : ℚ) / 8) = max 5 (min (mathRound ((m : ℚ) / 8)) 50) := by
  apply doubleDiscount_of_exact _ (roundFinite_eighths m hm)
  have h1 : |(m : ℚ)| < 2 ^ 53 := by
    have h' : ((|m| : Int) : ℚ) < ((2 ^ 53 : Int) : ℚ) := by exact_mod_cast hm
    norm_num at h' ⊢
    exact h'
  rw [abs_div]
  have h2 : |(8 : ℚ)| = 8 := by norm_num
  rw [h2]
  have : |(m : ℚ)| / 8 ≤ |(m : ℚ)| := by
    have := abs_nonneg (m : ℚ)
    linarith
  exact lt_of_le_of_lt this (lt_trans h1 (by norm_num))

/-- Between two sums with the same discount the discount is that one. -/
theorem doubleDiscount_between {lo hi x : ℚ} {z : Int} (hlo : doubleDiscount lo = z)
    (hhi : doubleDiscount hi = z) (h1 : lo ≤ x) (h2 : x ≤ hi) : doubleDiscount x = z := by
  have h3 := doubleDiscount_mono h1
  have h4 := doubleDiscount_mono h2
  omega

/-! ## The estimator on a list of integer row numbers -/

theorem getRandomNumber_mem (u : ℚ) (h0 : 0 ≤ u) (h1 : u < 1) :
    5 ≤ getRandomNumber 5 20 u ∧ getRandomNumber 5 20 u ≤ 20 := by
  unfold getRandomNumber
  have hf0 : 0 ≤ ⌊u * (((20 : Int) : ℚ) - ((5 : Int) : ℚ) + 1)⌋ := by
    rw [Int.floor_nonneg]
    norm_num
    exact h0
  have hf1 : ⌊u * (((20 : Int) : ℚ) - ((5 : Int) : ℚ) + 1)⌋ < 16 := by
    rw [Int.floor_lt]
    norm_num
    linarith
  constructor <;> omega

theorem add_num_number (x y : ℚ) :
    JsArith.add (.num (.finite x)) (.number y) = some (.num (roundDouble (x + y))) := rfl

/-- The binary64 sum of integers whose sizes add up to at most `2 ^ 53` is their sum. -/
theorem foldl_add_ofInt (rows : List Int) (acc : Int)
    (h : acc.natAbs + (rows.map Int.natAbs).sum ≤ 2 ^ 53) :
    (rows.map JsValue.ofInt).foldl
        (fun acc seatNumber => acc.bind (fun a => JsArith.add a seatNumber))
        (some (.num (.finite (acc : ℚ)))) =
      some (.num (.finite ((acc + rows.sum : Int) : ℚ))) := by
  induction rows generalizing acc with
  | nil => simp
  | cons n rows ih =>
    simp only [List.map_cons, List.sum_cons] at h
    have hstep : |acc + n| ≤ 2 ^ 53 := by
      have h1 := Int.natAbs_add_le acc n
      have h2 : |acc + n| = ((acc + n).natAbs : Int) := Int.abs_eq_natAbs _
      rw [h2]
      have h3 : ((2 : Int) ^ 53) = (((2 : Nat) ^ 53 : Nat) : Int) := by norm_num
      rw [h3]
      exact_mod_cast (by omega : (acc + n).natAbs ≤ 2 ^ 53)
    have hcast : ((acc : ℚ) + (n : ℚ)) = ((acc + n : Int) : ℚ) := by push_cast; ring
    have hnext := ih (acc + n) (by
      have h1 := Int.natAbs_add_le acc n
      omega)
    rw [List.map_cons, List.foldl_cons, Option.some_bind]
    have hofInt : JsValue.ofInt n = .number (n : ℚ) := rfl
    rw [hofInt, add_num_number, hcast, roundDouble_intCast _ hstep, hnext, List.sum_cons,
      add_assoc]

theorem calculateDiscount_finite (x u : ℚ) :
    calculateDiscount (.num (.finite x)) u =
      some (.finite (doubleDiscount (x + (getRandomNumber 5 20 u : Int)))) := by
  simp only [calculateDiscount, JsArith.toNumber?, JsNumber.add, Option.map_some']
  rw [clamp_roundDouble]

theorem calculateDiscount_infinity (u : ℚ) :
    calculateDiscount (.num (.infinity false)) u = some (.finite 50) := by
  simp only [calculateDiscount, JsArith.toNumber?, JsNumber.add, Option.map_some',
    JsNumber.round, mathMin, mathMax]
  norm_num

/-- The handler on a non-empty array and the role 0 or 1, once the discount is known. -/
theorem getEstimation_of_number (items : List JsValue) (role : Int) (u : ℚ)
    (hne : items ≠ []) (hrole : role = 0 ∨ role = 1) (d : JsNumber) (text : String)
    (ht : numberText? d = some text)
    (h : (sumSeatNumbers items (decide (role = 1))).bind
      (fun seatSum => calculateDiscount seatSum u) = some d) :
    getEstimation (some ⟨.array items, .ofInt role⟩) u = .discount (text ++ "%") := by
  have hlen : (items.length == 0) = false := by simpa using hne
  have h01 : ((0 : ℚ) == 1) = false := by decide
  rcases hrole with rfl | rfl
  · have hd0 : decide ((0 : Int) = 1) = false := by decide
    rw [hd0] at h
    simp only [getEstimation, JsValue.isArray, JsValue.items, hlen, JsValue.ofInt,
      JsValue.toNumber?, JsValue.isNumber, Int.cast_zero, h01, beq_self_eq_true,
      Option.isSome_some, Bool.not_true, Bool.not_false, Bool.or_self, Bool.and_false,
      Bool.and_true, Bool.false_eq_true, if_false, h, ht]
  · have hd1 : decide ((1 : Int) = 1) = true := by decide
    rw [hd1] at h
    simp only [getEstimation, JsValue.isArray, JsValue.items, hlen, JsValue.ofInt,
      JsValue.toNumber?, JsValue.isNumber, Int.cast_one, beq_self_eq_true,
      Option.isSome_some, Bool.not_true, Bool.not_false, Bool.or_self, Bool.and_false,
      Bool.and_self, Bool.false_eq_true, if_false, h, ht]

theorem getEstimation_of_discount (items : List JsValue) (role : Int) (u : ℚ)
    (hne : items ≠ []) (hrole : role = 0 ∨ role = 1) (d : Int) (hd : d.natAbs < 10 ^ 21)
    (h : (sumSeatNumbers items (decide (role = 1))).bind
      (fun seatSum => calculateDiscount seatSum u) = some (.finite (d : ℚ))) :
    getEstimation (some ⟨.array items, .ofInt role⟩) u = .discount (toString d ++ "%") :=
  getEstimation_of_number items role u hne hrole _ _ (numberText?_intCast d hd) h

theorem abs_sum_le (rows : List Int) : |rows.sum| ≤ ((rows.map Int.natAbs).sum : Nat) := by
  induction rows with
  | nil => simp
  | cons n rows ih =>
    rw [List.sum_cons, List.map_cons, List.sum_cons, Nat.cast_add]
    have h1 := abs_add n rows.sum
    have h2 : |n| = (n.natAbs : Int) := Int.abs_eq_natAbs n
    omega

/-- A value between two eighths with the same rounding: the roundings of binary64, of
the value and of its sum with the random addition, do not show in the discount. -/
theorem doubleDiscount_sandwich (x : ℚ) (r mlo mhi z : Int) (h1 : |mlo| < 2 ^ 52)
    (h2 : |mhi| < 2 ^ 52) (hr : |r| ≤ 20) (hlo : (mlo : ℚ) / 8 ≤ x) (hhi : x ≤ (mhi : ℚ) / 8)
    (hz1 : (z : ℚ) - 1 / 2 ≤ (mlo : ℚ) / 8 + r) (hz2 : (mhi : ℚ) / 8 + r < (z : ℚ) + 1 / 2) :
    doubleDiscount (roundFinite x + (r : ℚ)) = max 5 (min z 50) ∧ mathRound (x + r) = z := by
  have ha1 : (mlo : ℚ) / 8 ≤ roundFinite x := by
    have := roundFinite_mono hlo
    rwa [roundFinite_eighths mlo (by omega)] at this
  have ha2 : roundFinite x ≤ (mhi : ℚ) / 8 := by
    have := roundFinite_mono hhi
    rwa [roundFinite_eighths mhi (by omega)] at this
  have hr' := abs_le.1 hr
  have h1' := abs_lt.1 h1
  have h2' := abs_lt.1 h2
  have hdlo : doubleDiscount ((mlo : ℚ) / 8 + r) = max 5 (min z 50) := by
    have hform : (mlo : ℚ) / 8 + r = ((mlo + 8 * r : Int) : ℚ) / 8 := by push_cast; ring
    rw [hform, doubleDiscount_eighths _ (by rw [abs_lt]; constructor <;> omega), ← hform,
      mathRound_eq _ z hz1 (by linarith)]
  have hdhi : doubleDiscount ((mhi : ℚ) / 8 + r) = max 5 (min z 50) := by
    have hform : (mhi : ℚ) / 8 + r = ((mhi + 8 * r : Int) : ℚ) / 8 := by push_cast; ring
    rw [hform, doubleDiscount_eighths _ (by rw [abs_lt]; constructor <;> omega), ← hform,
      mathRound_eq _ z (by linarith) hz2]
  exact ⟨doubleDiscount_between hdlo hdhi (by linarith) (by linarith),
    mathRound_eq _ z (by linarith) (by linarith)⟩

/-- A third of an integer of size at most `2 ^ 53`, the random addition, and the
roundings of binary64 in between give the discount of the exact formula. -/
theorem doubleDiscount_third (S r : Int) (hS : |S| ≤ 2 ^ 53) (h5 : 5 ≤ r) (h20 : r ≤ 20) :
    ∃ a : ℚ, roundDouble ((S : ℚ) / 3) = .finite a ∧
      doubleDiscount (a + (r : ℚ)) = max 5 (min (mathRound ((S : ℚ) / 3 + r)) 50) := by
  have hS' := abs_le.1 hS
  have hSq1 : (S : ℚ) ≤ 2 ^ 53 := by exact_mod_cast hS'.2
  have hSq2 : -(2 : ℚ) ^ 53 ≤ S := by exact_mod_cast hS'.1
  have hup : roundFinite ((S : ℚ) / 3) ≤ 2 ^ 53 := by
    have := roundFinite_mono (show (S : ℚ) / 3 ≤ ((2 ^ 53 : Int) : ℚ) by push_cast; linarith)
    rw [roundFinite_intCast _ (by norm_num)] at this
    exact_mod_cast this
  have hdn : -(2 : ℚ) ^ 53 ≤ roundFinite ((S : ℚ) / 3) := by
    have := roundFinite_mono (show ((-(2 ^ 53) : Int) : ℚ) ≤ (S : ℚ) / 3 by push_cast; linarith)
    rw [roundFinite_intCast _ (by norm_num)] at this
    exact_mod_cast this
  have hfin : |roundFinite ((S : ℚ) / 3)| < 2 ^ 1024 := by
    have : |roundFinite ((S : ℚ) / 3)| ≤ 2 ^ 53 := abs_le.2 ⟨hdn, hup⟩
    exact lt_of_le_of_lt this (by norm_num)
  refine ⟨roundFinite ((S : ℚ) / 3), roundDouble_of_lt hfin, ?_⟩
  have hb := doubleDiscount_bounds (roundFinite ((S : ℚ) / 3) + (r : ℚ))
  have hr5 : (5 : ℚ) ≤ r := by exact_mod_cast h5
  have hr20 : (r : ℚ) ≤ 20 := by exact_mod_cast h20
  rcases le_or_lt 192 S with hbig | hbig
  · have hS3 : (64 : ℚ) ≤ (S : ℚ) / 3 := by
      have : (192 : ℚ) ≤ S := by exact_mod_cast hbig
      linarith
    have ha : (64 : ℚ) ≤ roundFinite ((S : ℚ) / 3) := by
      have := roundFinite_mono (show ((64 : Int) : ℚ) ≤ (S : ℚ) / 3 by push_cast; exact hS3)
      rw [roundFinite_intCast _ (by norm_num)] at this
      exact_mod_cast this
    have h1 : doubleDiscount ((64 : Int) : ℚ) ≤
        doubleDiscount (roundFinite ((S : ℚ) / 3) + (r : ℚ)) :=
      doubleDiscount_mono (by push_cast; linarith)
    rw [doubleDiscount_intCast] at h1
    have h2 : (50 : Int) ≤ mathRound ((S : ℚ) / 3 + r) := by
      have := mathRound_mono (show ((50 : Int) : ℚ) ≤ (S : ℚ) / 3 + r by push_cast; linarith)
      rwa [mathRound_intCast] at this
    rw [min_eq_right h2]
    norm_num at h1 ⊢
    omega
  · rcases le_or_lt S (-192) with hsmall | hsmall
    · have hS3 : (S : ℚ) / 3 ≤ -64 := by
        have : (S : ℚ) ≤ -192 := by exact_mod_cast hsmall
        linarith
      have ha : roundFinite ((S : ℚ) / 3) ≤ -64 := by
        have := roundFinite_mono (show (S : ℚ) / 3 ≤ ((-64 : Int) : ℚ) by push_cast; exact hS3)
        rw [roundFinite_intCast _ (by norm_num)] at this
        exact_mod_cast this
      have h1 : doubleDiscount (roundFinite ((S : ℚ) / 3) + (r : ℚ)) ≤
          doubleDiscount ((-44 : Int) : ℚ) :=
        doubleDiscount_mono (by push_cast; linarith)
      rw [doubleDiscount_intCast] at h1
      have h2 : mathRound ((S : ℚ) / 3 + r) ≤ (-44 : Int) := by
        have := mathRound_mono (show (S : ℚ) / 3 + r ≤ ((-44 : Int) : ℚ) by push_cast; linarith)
        rwa [mathRound_intCast] at this
      rw [min_eq_left (by omega), max_eq_left (by omega)]
      norm_num at h1
      omega
    · have hk := Int.ediv_add_emod S 3
      have hi0 := Int.emod_nonneg S (by norm_num : (3 : Int) ≠ 0)
      have hi3 := Int.emod_lt_of_pos S (by norm_num : (0 : Int) < 3)
      have hSk : (S : ℚ) = 3 * ((S / 3 : Int) : ℚ) + ((S % 3 : Int) : ℚ) := by
        exact_mod_cast hk.symm
      have hkb : |S / 3| ≤ 64 := by
        rw [abs_le]
        constructor <;> omega
      have hkb' := abs_le.1 hkb
      have hcase : S % 3 = 0 ∨ S % 3 = 1 ∨ S % 3 = 2 := by omega
      rcases hcase with hi | hi | hi
      · rw [hi] at hSk
        have h := doubleDiscount_sandwich ((S : ℚ) / 3) r (8 * (S / 3)) (8 * (S / 3))
          (S / 3 + r) (by rw [abs_lt]; constructor <;> omega)
          (by rw [abs_lt]; constructor <;> omega) (by rw [abs_le]; constructor <;> omega)
          (by push_cast; linarith) (by push_cast; linarith) (by push_cast; linarith)
          (by push_cast; linarith)
        rw [h.1, h.2]
      · rw [hi] at hSk
        have h := doubleDiscount_sandwich ((S : ℚ) / 3) r (8 * (S / 3) + 2) (8 * (S / 3) + 3)
          (S / 3 + r) (by rw [abs_lt]; constructor <;> omega)
          (by rw [abs_lt]; constructor <;> omega) (by rw [abs_le]; constructor <;> omega)
          (by push_cast; linarith) (by push_cast; linarith) (by push_cast; linarith)
          (by push_cast; linarith)
        rw [h.1, h.2]
      · rw [hi] at hSk
        have h := doubleDiscount_sandwich ((S : ℚ) / 3) r (8 * (S / 3) + 5) (8 * (S / 3) + 6)
          (S / 3 + r + 1) (by rw [abs_lt]; constructor <;> omega)
          (by rw [abs_lt]; constructor <;> omega) (by rw [abs_le]; constructor <;> omega)
          (by push_cast; linarith) (by push_cast; linarith) (by push_cast; linarith)
          (by push_cast; linarith)
        rw [h.1, h.2]

/-- The handler on integer row numbers whose sizes add up to at most `2 ^ 53`: the
arithmetic of binary64 gives the discount of the exact formula. -/
theorem getEstimation_exact (rows : List Int) (role : Int) (u : ℚ) (hrows : rows ≠ [])
    (hrole : role = 0 ∨ role = 1) (hsum : (rows.map Int.natAbs).sum ≤ 2 ^ 53)
    (hu0 : 0 ≤ u) (hu1 : u < 1) :
    getEstimation (some ⟨.array (rows.map JsValue.ofInt), .ofInt role⟩) u =
      .discount (toString (max 5 (min (mathRound
        ((if role = 1 then ((rows.sum : Int) : ℚ) else ((rows.sum : Int) : ℚ) / 3) +
          (getRandomNumber 5 20 u : Int))) 50)) ++ "%") := by
  have hr := getRandomNumber_mem u hu0 hu1
  have hfold := foldl_add_ofInt rows 0 (by simpa using hsum)
  rw [zero_add] at hfold
  have hS : |rows.sum| ≤ 2 ^ 53 := by
    have h1 := abs_sum_le rows
    have h2 : (((rows.map Int.natAbs).sum : Nat) : Int) ≤ 2 ^ 53 := by exact_mod_cast hsum
    omega
  apply getEstimation_of_discount _ _ _ (by simpa using hrows) hrole
  · have h1 : (5 : Int) ≤ max 5 (min (mathRound
        ((if role = 1 then ((rows.sum : Int) : ℚ) else ((rows.sum : Int) : ℚ) / 3) +
          (getRandomNumber 5 20 u : Int))) 50) := le_max_left _ _
    have h2 : max 5 (min (mathRound
        ((if role = 1 then ((rows.sum : Int) : ℚ) else ((rows.sum : Int) : ℚ) / 3) +
          (getRandomNumber 5 20 u : Int))) 50) ≤ (50 : Int) :=
      max_le (by norm_num) (min_le_right _ _)
    omega
  · have hfold' : (rows.map JsValue.ofInt).foldl
        (fun acc seatNumber => acc.bind (fun a => JsArith.add a seatNumber))
        (some (.num (.finite 0))) = some (.num (.finite ((rows.sum : Int) : ℚ))) := by
      rw [← hfold, Int.cast_zero]
    rcases hrole with rfl | rfl
    · obtain ⟨a, ha, hd⟩ := doubleDiscount_third rows.sum (getRandomNumber 5 20 u) hS hr.1 hr.2
      have h01 : decide ((0 : Int) = 1) = false := by decide
      have hs : sumSeatNumbers (rows.map JsValue.ofInt) false = some (.num (.finite a)) := by
        simp only [sumSeatNumbers, hfold', Bool.false_eq_true, if_false, Option.some_bind,
          JsArith.toNumber?, Option.map_some', JsNumber.div, ha]
      rw [h01, hs, Option.some_bind, calculateDiscount_finite, hd,
        if_neg (by decide : ¬ (0 : Int) = 1)]
    · have h11 : decide ((1 : Int) = 1) = true := by decide
      have hcast : ((rows.sum : Int) : ℚ) + ((getRandomNumber 5 20 u : Int) : ℚ) =
          ((rows.sum + getRandomNumber 5 20 u : Int) : ℚ) := by push_cast; ring
      have hs : sumSeatNumbers (rows.map JsValue.ofInt) true =
          some (.num (.finite ((rows.sum : Int) : ℚ))) := by
        simp only [sumSeatNumbers, hfold', if_true]
      rw [h11, hs, Option.some_bind, calculateDiscount_finite, if_pos rfl, hcast,
        doubleDiscount_intCast, mathRound_intCast]

/-! ## The checks and the discount of the handler -/

/-- C19, as the code has it. On the payload of a verified token the handler answers 400
when `reservations` is not an array or is empty, answers 400 when `role` is not the
number 0 or 1, and computes a discount exactly when `reservations` is a non-empty
array and `role` is the number 0 or 1; the elements of the array are not checked. -/
theorem getEstimation_checks (auth : TokenPayload) (u : ℚ) :
    ((auth.reservations.isArray = false ∨ auth.reservations.items = []) →
        getEstimation (some auth) u = .badRequest "Invalid or missing reservations data.") ∧
      (auth.reservations.isArray = true → auth.reservations.items ≠ [] →
        ¬ (auth.role.isNumber 0 = true ∨ auth.role.isNumber 1 = true) →
        getEstimation (some auth) u = .badRequest "Invalid Role.") ∧
      (((∃ text, getEstimation (some auth) u = .discount text) ∨
          getEstimation (some auth) u = .coerced) ↔
        auth.reservations.isArray = true ∧ auth.reservations.items ≠ [] ∧
          (auth.role.isNumber 0 = true ∨ auth.role.isNumber 1 = true)) := by
  have hnum : ∀ n : ℚ, auth.role.isNumber n = true → (auth.role.toNumber?).isSome = true := by
    intro n hn
    cases hr : auth.role <;> simp [hr, JsValue.isNumber, JsValue.toNumber?] at hn ⊢
  by_cases harr : auth.reservations.isArray = true
  · by_cases hne : auth.reservations.items = []
    · simp [getEstimation, harr, hne]
    · have hlen : (auth.reservations.items.length == 0) = false := by
        simpa using hne
      by_cases hrole : auth.role.isNumber 0 = true ∨ auth.role.isNumber 1 = true
      · have hsome : (auth.role.toNumber?).isSome = true := by
          rcases hrole with h | h
          · exact hnum 0 h
          · exact hnum 1 h
        have hcheck : (!(auth.role.toNumber?).isSome ||
            (!auth.role.isNumber 0 && !auth.role.isNumber 1)) = false := by
          rcases hrole with h | h <;> simp [hsome, h]
        simp only [getEstimation, harr, hlen, hcheck, hne, hrole, Bool.not_true, Bool.or_self,
          Bool.false_eq_true, if_false, ne_eq, not_false_eq_true, and_self, iff_true,
          not_true_eq_false, false_or, or_false, false_implies, true_and, implies_true,
          not_isEmpty_of_nonempty]
        cases (sumSeatNumbers auth.reservations.items (auth.role.isNumber 1)).bind
            (fun seatSum => calculateDiscount seatSum u) with
        | none => simp
        | some discount =>
          simp only
          cases numberText? discount <;> simp
      · have hcheck : (!(auth.role.toNumber?).isSome ||
            (!auth.role.isNumber 0 && !auth.role.isNumber 1)) = true := by
          simp only [not_or, Bool.not_eq_true] at hrole
          simp [hrole.1, hrole.2]
        have hval : getEstimation (some auth) u = .badRequest "Invalid Role." := by
          simp only [getEstimation, harr, hlen, hcheck, Bool.not_true, Bool.or_self,
            Bool.false_eq_true, if_false, if_true]
        rw [hval]
        simp [harr, hne, hrole]
  · simp [getEstimation, harr]

/-- Witness of C19: a payload with rows 3 and 4 and the text `'1'` as role. -/
theorem getEstimation_checks_witness :
    getEstimation (some ⟨.array [.ofInt 3, .ofInt 4], .string "1"⟩) 0 =
      .badRequest "Invalid Role." :=
  (getEstimation_checks ⟨.array [.ofInt 3, .ofInt 4], .string "1"⟩ 0).2.1 rfl
    (by simp [JsValue.items]) (by simp [JsValue.isNumber])

/-- C19 as stated fails for an element that is not an integer: for the payload with the
single row number 1.5 and role 1 the handler does not answer 400 but computes the
discount 7% (1.5 plus the draw 5, rounded). -/
theorem getEstimation_fraction_counterexample :
    (JsValue.number (3 / 2)).isInteger = false ∧
      getEstimation (some ⟨.array [.number (3 / 2)], .ofInt 1⟩) 0 = .discount "7%" := by
  constructor
  · have : ((3 / 2 : ℚ)).den = 2 := by norm_num
    simp [JsValue.isInteger, this]
  · have h7 : (toString (7 : Int) ++ "%") = "7%" := by decide
    rw [← h7]
    apply getEstimation_of_discount _ 1 0 (by simp) (Or.inr rfl) 7 (by norm_num)
    have h11 : decide ((1 : Int) = 1) = true := by decide
    have e1 : (0 : ℚ) + 3 / 2 = ((12 : Int) : ℚ) / 8 := by norm_num
    have hs : sumSeatNumbers [.number (3 / 2)] true = some (.num (.finite (3 / 2))) := by
      simp only [sumSeatNumbers, List.foldl_cons, List.foldl_nil, Option.some_bind,
        add_num_number, if_true]
      rw [e1, roundDouble_eighths 12 (by norm_num)]
      norm_num
    have e2 : (3 / 2 : ℚ) + ((5 : Int) : ℚ) = ((52 : Int) : ℚ) / 8 := by norm_num
    have h3 : mathRound (((52 : Int) : ℚ) / 8) = 7 :=
      mathRound_eq _ 7 (by norm_num) (by norm_num)
    rw [h11, hs, Option.some_bind, calculateDiscount_finite, getRandomNumber_zero, e2,
      doubleDiscount_eighths 52 (by norm_num), h3]
    norm_num

/-- C20 (amended). For a payload with a non-empty list of integer row numbers whose
sizes add up to at most `2 ^ 53`, role 0 or 1, and a draw `0 ≤ u < 1`, the handler
answers with the text of `d` followed by `%`, where `d` is
`min 50 (max 5 (round (base + r)))`, `r` is the draw of `getRandomNumber(5, 20)`, `base`
is the sum of the row numbers for role 1 and a third of it for role 0, and `round`
takes the nearest integer with a half going up. -/
theorem getEstimation_discount (rows : List Int) (role : Int) (u : ℚ) (hrows : rows ≠ [])
    (hrole : role = 0 ∨ role = 1) (hsum : (rows.map Int.natAbs).sum ≤ 2 ^ 53)
    (hu0 : 0 ≤ u) (hu1 : u < 1) :
    getEstimation (some ⟨.array (rows.map JsValue.ofInt), .ofInt role⟩) u =
        .discount (toString (min 50 (max 5 (mathRound
          ((if role = 1 then ((rows.sum : Int) : ℚ) else ((rows.sum : Int) : ℚ) / 3) +
            (getRandomNumber 5 20 u : Int)))) ) ++ "%") ∧
      ((mathRound ((if role = 1 then ((rows.sum : Int) : ℚ) else ((rows.sum : Int) : ℚ) / 3) +
            (getRandomNumber 5 20 u : Int)) : ℚ) - 1 / 2 ≤
          (if role = 1 then ((rows.sum : Int) : ℚ) else ((rows.sum : Int) : ℚ) / 3) +
            (getRandomNumber 5 20 u : Int) ∧
        (if role = 1 then ((rows.sum : Int) : ℚ) else ((rows.sum : Int) : ℚ) / 3) +
            (getRandomNumber 5 20 u : Int) <
          (mathRound ((if role = 1 then ((rows.sum : Int) : ℚ) else ((rows.sum : Int) : ℚ) / 3) +
            (getRandomNumber 5 20 u : Int)) : ℚ) + 1 / 2) := by
  refine ⟨?_, mathRound_nearest _⟩
  rw [getEstimation_exact rows role u hrows hrole hsum hu0 hu1, clamp_eq]

/-- Witness of C20: rows 7 and 9 for a regular user, with the draw at `u = 1/2`. -/
theorem getEstimation_discount_witness :
    getEstimation (some ⟨.array ([7, 9].map JsValue.ofInt), .ofInt 0⟩) (1 / 2) =
      .discount (toString (min 50 (max 5 (mathRound
        ((if (0 : Int) = 1 then (([7, 9].sum : Int) : ℚ) else (([7, 9].sum : Int) : ℚ) / 3) +
          (getRandomNumber 5 20 (1 / 2) : Int)))) ) ++ "%") :=
  (getEstimation_discount [7, 9] 0 (1 / 2) (by decide) (Or.inl rfl) (by norm_num)
    (by norm_num) (by norm_num)).1

theorem roundHalfEven_half (n : Int) (h : n % 2 = 0) :
    roundHalfEven ((n : ℚ) + 1 / 2) = n := by
  have hf : ⌊(n : ℚ) + 1 / 2⌋ = n := by
    rw [Int.floor_eq_iff]
    constructor <;> linarith
  unfold roundHalfEven
  rw [hf]
  have h1 : ¬ ((n : ℚ) + 1 / 2 - n < 1 / 2) := by
    intro h'
    linarith
  have h2 : ¬ ((1 : ℚ) / 2 < (n : ℚ) + 1 / 2 - n) := by
    intro h'
    linarith
  rw [if_neg h1, if_neg h2, if_pos h]

/-- The sum `2 ^ 53 + 1` is halfway between two binary64 values and rounds to the even
one, `2 ^ 53`. -/
theorem roundDouble_tie : roundDouble ((2 : ℚ) ^ 53 + 1) = .finite (2 ^ 53) := by
  have hb : binade ((2 : ℚ) ^ 53 + 1) = 53 :=
    binade_eq_of _ 53 (by norm_num) (by rw [abs_of_pos (by norm_num)]; norm_num)
      (by rw [abs_of_pos (by norm_num)]; norm_num)
  have hq : ((2 : ℚ) ^ 53 + 1) / 2 ^ ((53 : Int) - 52) = (((2 ^ 52 : Int)) : ℚ) + 1 / 2 := by
    norm_num
  have hf : roundFinite ((2 : ℚ) ^ 53 + 1) = 2 ^ 53 := by
    unfold roundFinite
    simp only [hb]
    rw [hq, roundHalfEven_half _ (by norm_num)]
    norm_num
  rw [roundDouble_of_lt (by rw [hf]; norm_num), hf]

/-- C20 as stated fails for row numbers beyond the integers binary64 adds exactly: for
the rows `2 ^ 53`, `1`, `-2 ^ 53` and role 1 the sum of the code is `0`, since
`2 ^ 53 + 1` rounds to `2 ^ 53`, and with the draw 5 the handler answers `5%`, where the
sum of the row numbers is 1 and the formula gives `6%`. -/
theorem getEstimation_rounded_sum_counterexample :
    getEstimation (some ⟨.array ([2 ^ 53, 1, -(2 ^ 53)].map JsValue.ofInt), .ofInt 1⟩) 0 =
        .discount "5%" ∧
      toString (min 50 (max 5 (mathRound
        ((if (1 : Int) = 1 then (([2 ^ 53, 1, -(2 ^ 53)].sum : Int) : ℚ)
          else (([2 ^ 53, 1, -(2 ^ 53)].sum : Int) : ℚ) / 3) +
          (getRandomNumber 5 20 0 : Int)))) ) ++ "%" = "6%" := by
  constructor
  · have h5 : (toString (5 : Int) ++ "%") = "5%" := by decide
    rw [← h5]
    apply getEstimation_of_discount _ 1 0 (by simp) (Or.inr rfl) 5 (by norm_num)
    have h11 : decide ((1 : Int) = 1) = true := by decide
    have e1 : (0 : ℚ) + ((2 ^ 53 : Int) : ℚ) = ((2 ^ 53 : Int) : ℚ) := by norm_num
    have e2 : ((2 ^ 53 : Int) : ℚ) + ((1 : Int) : ℚ) = (2 : ℚ) ^ 53 + 1 := by norm_num
    have e3 : (2 : ℚ) ^ 53 + ((-(2 ^ 53) : Int) : ℚ) = ((0 : Int) : ℚ) := by norm_num
    have hs : sumSeatNumbers ([2 ^ 53, 1, -(2 ^ 53)].map JsValue.ofInt) true =
        some (.num (.finite ((0 : Int) : ℚ))) := by
      simp only [sumSeatNumbers, List.map_cons, List.map_nil, JsValue.ofInt, List.foldl_cons,
        List.foldl_nil, Option.some_bind, add_num_number, if_true]
      rw [e1, roundDouble_intCast _ (by norm_num), add_num_number, e2, roundDouble_tie,
        Option.some_bind, add_num_number, e3, roundDouble_intCast _ (by norm_num)]
    have e4 : (((0 : Int) : ℚ)) + ((5 : Int) : ℚ) = ((5 : Int) : ℚ) := by norm_num
    rw [h11, hs, Option.some_bind, calculateDiscount_finite, getRandomNumber_zero, e4,
      doubleDiscount_intCast]
    norm_num
  · have hval : mathRound ((if (1 : Int) = 1 then (([2 ^ 53, 1, -(2 ^ 53)].sum : Int) : ℚ)
          else (([2 ^ 53, 1, -(2 ^ 53)].sum : Int) : ℚ) / 3) +
          (getRandomNumber 5 20 0 : Int)) = 6 := by
      rw [getRandomNumber_zero]
      apply mathRound_eq <;> norm_num
    rw [hval]
    decide

/-- C21 at two failing inputs. The payload with the single row `'z'` and role 1 passes
the checks of the handler; the sum is the string `'0z'`, the addition makes `'0z5'` of
it, `Math.round` of that is `NaN`, the two comparisons of the clamp keep `NaN`, and the
answer is `'NaN%'`, the text of no integer between 5 and 50.  The same answer is given
for the rows `Infinity` and `-Infinity`, whose sum is `NaN`. -/
theorem getEstimation_nan_counterexample :
    getEstimation (some ⟨.array [.string "z"], .ofInt 1⟩) 0 = .discount "NaN%" ∧
      getEstimation (some ⟨.array [.infinity false, .infinity true], .ofInt 1⟩) 0 =
        .discount "NaN%" ∧
      ¬ ∃ d : Int, 5 ≤ d ∧ d ≤ 50 ∧
        getEstimation (some ⟨.array [.string "z"], .ofInt 1⟩) 0 =
          .discount (toString d ++ "%") := by
  have h11 : decide ((1 : Int) = 1) = true := by decide
  have h : getEstimation (some ⟨.array [.string "z"], .ofInt 1⟩) 0 = .discount "NaN%" := by
    have hs : stringToNumber? ("0z" ++ toString (5 : Int)) = some .nan := by decide
    have hn : numberText? (.finite 0) = some "0" := by decide
    have hsum : sumSeatNumbers [.string "z"] true = some (.str "0z") := by
      simp only [sumSeatNumbers, List.foldl_cons, List.foldl_nil, Option.some_bind,
        JsArith.add, hn, Option.map_some', if_true]
      rfl
    have hcalc : calculateDiscount (.str "0z") 0 = some .nan := by
      simp only [calculateDiscount, getRandomNumber_zero, JsArith.toNumber?, hs,
        Option.map_some', JsNumber.round, mathMin, mathMax]
    apply getEstimation_of_number _ 1 0 (by simp) (Or.inr rfl) .nan "NaN" rfl
    rw [h11, hsum, Option.some_bind, hcalc]
  refine ⟨h, ?_, ?_⟩
  · have hsum : sumSeatNumbers [.infinity false, .infinity true] true = some (.num .nan) := by
      simp only [sumSeatNumbers, List.foldl_cons, List.foldl_nil, Option.some_bind,
        JsArith.add, JsNumber.add, if_true]
      rfl
    have hcalc : calculateDiscount (.num .nan) 0 = some .nan := by
      simp only [calculateDiscount, JsArith.toNumber?, JsNumber.add, Option.map_some',
        JsNumber.round, mathMin, mathMax]
    apply getEstimation_of_number _ 1 0 (by simp) (Or.inr rfl) .nan "NaN" rfl
    rw [h11, hsum, Option.some_bind, hcalc]
  · rintro ⟨d, h5, h50, hd⟩
    rw [h] at hd
    simp only [EstimatorResponse.discount.injEq] at hd
    interval_cases d <;> revert hd <;> decide

/-- C24. The answer of the estimator is not a function of the payload: for the accepted
payload with the single row 1 and role 1, the draw `u = 0` gives `6%` and the draw
`u = 1/2` gives `14%`. -/
theorem getEstimation_not_deterministic :
    ∃ (auth : TokenPayload) (u₁ u₂ : ℚ) (t₁ t₂ : String),
      0 ≤ u₁ ∧ u₁ < 1 ∧ 0 ≤ u₂ ∧ u₂ < 1 ∧
      getEstimation (some auth) u₁ = .discount t₁ ∧
      getEstimation (some auth) u₂ = .discount t₂ ∧ t₁ ≠ t₂ := by
  refine ⟨⟨.array ([1].map JsValue.ofInt), .ofInt 1⟩, 0, 1 / 2, "6%", "14%",
    le_refl _, by norm_num, by norm_num, by norm_num, ?_, ?_, by decide⟩
  · rw [getEstimation_exact [1] 1 0 (by simp) (Or.inr rfl) (by norm_num) (le_refl _)
      (by norm_num)]
    have hval : mathRound ((if (1 : Int) = 1 then (([1].sum : Int) : ℚ)
        else (([1].sum : Int) : ℚ) / 3) + (getRandomNumber 5 20 0 : Int)) = 6 := by
      rw [getRandomNumber_zero]
      apply mathRound_eq <;> norm_num
    rw [hval]
    decide
  · rw [getEstimation_exact [1] 1 (1 / 2) (by simp) (Or.inr rfl) (by norm_num) (by norm_num)
      (by norm_num)]
    have hval : mathRound ((if (1 : Int) = 1 then (([1].sum : Int) : ℚ)
        else (([1].sum : Int) : ℚ) / 3) + (getRandomNumber 5 20 (1 / 2) : Int)) = 14 := by
      rw [getRandomNumber_half]
      apply mathRound_eq <;> norm_num
    rw [hval]
    decide

theorem add_num_number_any (a : JsNumber) (y : ℚ) :
    JsArith.add (.num a) (.number y) = some (.num (a.add (.finite y))) := rfl

/-- The binary64 sum of non-negative integers is `Infinity` or a non-negative binary64
value. -/
theorem foldl_add_nonneg (rows : List Int) (hnn : ∀ n ∈ rows, 0 ≤ n) (acc : JsNumber)
    (hacc : acc = .infinity false ∨
      ∃ s : ℚ, acc = .finite s ∧ 0 ≤ s ∧ roundFinite s = s ∧ |s| < 2 ^ 1024) :
    ∃ S : JsNumber,
      (rows.map JsValue.ofInt).foldl
        (fun acc seatNumber => acc.bind (fun a => JsArith.add a seatNumber))
        (some (.num acc)) = some (.num S) ∧
      (S = .infinity false ∨
        ∃ s : ℚ, S = .finite s ∧ 0 ≤ s ∧ roundFinite s = s ∧ |s| < 2 ^ 1024) := by
  induction rows generalizing acc with
  | nil => exact ⟨acc, rfl, hacc⟩
  | cons n rows ih =>
    have hn : (0 : ℚ) ≤ (n : ℚ) := by exact_mod_cast hnn n (by simp)
    have hofInt : JsValue.ofInt n = .number (n : ℚ) := rfl
    rw [List.map_cons, List.foldl_cons, Option.some_bind, hofInt, add_num_number_any]
    apply ih (fun m hm => hnn m (by simp [hm]))
    rcases hacc with rfl | ⟨s, rfl, hs0, _, _⟩
    · exact Or.inl rfl
    · have hsum : 0 ≤ s + (n : ℚ) := add_nonneg hs0 hn
      have hadd : (JsNumber.finite s).add (.finite (n : ℚ)) = roundDouble (s + n) := rfl
      rw [hadd]
      unfold roundDouble
      by_cases ho : (2 : ℚ) ^ 1024 ≤ |roundFinite (s + (n : ℚ))|
      · rw [if_pos ho]
        left
        have : ¬ (s + (n : ℚ) < 0) := not_lt.2 hsum
        simp [this]
      · rw [if_neg ho]
        right
        exact ⟨_, rfl, roundFinite_nonneg hsum, roundFinite_idem _, not_le.1 ho⟩

/-- C29. For a non-empty list of non-negative integer row numbers and every draw, the
discount the handler answers for role 1 is at least the discount it answers for role 0
on the same list and the same draw. -/
theorem loyal_discount_ge (rows : List Int) (u : ℚ) (hrows : rows ≠ [])
    (hnn : ∀ n ∈ rows, 0 ≤ n) :
    ∃ regular loyal : Int,
      getEstimation (some ⟨.array (rows.map JsValue.ofInt), .ofInt 0⟩) u =
        .discount (toString regular ++ "%") ∧
      getEstimation (some ⟨.array (rows.map JsValue.ofInt), .ofInt 1⟩) u =
        .discount (toString loyal ++ "%") ∧
      regular ≤ loyal := by
  have hne : rows.map JsValue.ofInt ≠ [] := by simpa using hrows
  have h01 : decide ((0 : Int) = 1) = false := by decide
  have h11 : decide ((1 : Int) = 1) = true := by decide
  obtain ⟨S, hfold, hS⟩ := foldl_add_nonneg rows hnn (.finite 0)
    (Or.inr ⟨0, rfl, le_refl _, roundFinite_zero, by norm_num⟩)
  have hloyal : sumSeatNumbers (rows.map JsValue.ofInt) true = some (.num S) := by
    simp only [sumSeatNumbers, hfold, if_true]
  have hregular : sumSeatNumbers (rows.map JsValue.ofInt) false = some (.num (S.div 3)) := by
    simp only [sumSeatNumbers, hfold, Bool.false_eq_true, if_false, Option.some_bind,
      JsArith.toNumber?, Option.map_some']
  rcases hS with rfl | ⟨s, rfl, hs0, hsid, hslt⟩
  · have hdiv : (JsNumber.infinity false).div 3 = .infinity false := by
      simp [JsNumber.div]
    rw [hdiv] at hregular
    refine ⟨50, 50, ?_, ?_, le_refl _⟩
    · apply getEstimation_of_discount _ 0 u hne (Or.inl rfl) 50 (by norm_num)
      rw [h01, hregular, Option.some_bind, calculateDiscount_infinity]
      norm_num
    · apply getEstimation_of_discount _ 1 u hne (Or.inr rfl) 50 (by norm_num)
      rw [h11, hloyal, Option.some_bind, calculateDiscount_infinity]
      norm_num
  · have hthird : roundFinite (s / 3) ≤ s := by
      have := roundFinite_mono (show s / 3 ≤ s by linarith)
      rwa [hsid] at this
    have hthird0 : 0 ≤ roundFinite (s / 3) := roundFinite_nonneg (by linarith)
    have hfin : |roundFinite (s / 3)| < 2 ^ 1024 := by
      rw [abs_of_nonneg hthird0]
      rw [abs_of_nonneg hs0] at hslt
      linarith
    have hdiv : (JsNumber.finite s).div 3 = .finite (roundFinite (s / 3)) := by
      simp only [JsNumber.div]
      exact roundDouble_of_lt hfin
    rw [hdiv] at hregular
    have hb0 := doubleDiscount_bounds (roundFinite (s / 3) + (getRandomNumber 5 20 u : Int))
    have hb1 := doubleDiscount_bounds (s + (getRandomNumber 5 20 u : Int))
    refine ⟨doubleDiscount (roundFinite (s / 3) + (getRandomNumber 5 20 u : Int)),
      doubleDiscount (s + (getRandomNumber 5 20 u : Int)), ?_, ?_,
      doubleDiscount_mono (by linarith)⟩
    · apply getEstimation_of_discount _ 0 u hne (Or.inl rfl) _ (by omega)
      rw [h01, hregular, Option.some_bind, calculateDiscount_finite]
    · apply getEstimation_of_discount _ 1 u hne (Or.inr rfl) _ (by omega)
      rw [h11, hloyal, Option.some_bind, calculateDiscount_finite]

/-- Witness of C29: the rows 3 and 4 with the draw at `u = 1/2`. -/
theorem loyal_discount_ge_witness :
    ∃ regular loyal : Int,
      getEstimation (some ⟨.array ([3, 4].map JsValue.ofInt), .ofInt 0⟩) (1 / 2) =
        .discount (toString regular ++ "%") ∧
      getEstimation (some ⟨.array ([3, 4].map JsValue.ofInt), .ofInt 1⟩) (1 / 2) =
        .discount (toString loyal ++ "%") ∧
      regular ≤ loyal :=
  loyal_discount_ge [3, 4] (1 / 2) (by decide) (by decide)

/-- C30 at the failing input. The request the client sends for the estimation is a
`POST`, the estimator registers its handler for `GET` only, and so for every verified
token and every payload the client gets the 404 of an unmatched route and no discount;
the same token sent with `GET` gets the discount. -/
theorem clientEstimationRequest_notFound (auth : TokenPayload) (u : ℚ) :
    estimatorApp (clientEstimationRequest (.verified auth)) u = .notFound ∧
      (estimatorApp (clientEstimationRequest (.verified auth)) u).status = 404 ∧
      estimatorApp ⟨"GET", "/api/get-estimation", .verified auth⟩ u =
        getEstimation (some auth) u := by
  refine ⟨?_, ?_, ?_⟩
  · simp [estimatorApp, estimatorRoutes, clientEstimationRequest]
  · simp [estimatorApp, estimatorRoutes, clientEstimationRequest, EstimatorResponse.status]
  · simp [estimatorApp, estimatorRoutes]

/-! ## What a call leaves alone -/

theorem getSeats_claimed_of_mem (db : Ledger) (concertID : Int) (addSeatBody : List Int)
    (userID : Int) (r : Reservation) (hr : r ∈ db.reservations) :
    getSeats (claimed db concertID addSeatBody userID) r.reservation_id =
      getSeats db r.reservation_id := by
  have hfresh := lastID_fresh db.reservations r hr
  simp only [getSeats, claimed, List.filter_append]
  have hnew : ((checkConcertSeats db concertID addSeatBody).map
      (fun seat => (⟨lastID db.reservations, seat.concert_seat_id⟩ : ReservationSeat))).filter
      (fun l => l.reservation_id == r.reservation_id) = [] := by
    rw [List.filter_eq_nil_iff]
    intro l hl
    obtain ⟨s, _, rfl⟩ := List.mem_map.1 hl
    simpa using fun e => hfresh e.symm
  rw [hnew, List.append_nil]

theorem getSeats_released_of_ne (db : Ledger) (reservationId other : Int)
    (h : other ≠ reservationId) :
    getSeats (released db reservationId) other = getSeats db other := by
  simp only [getSeats, released, deleteReservation, deleteReservationSeat, updateSeatsAvailable,
    List.filter_filter]
  apply List.filter_congr
  intro l _
  by_cases hl : l.reservation_id = other
  · simp [hl, h]
  · simp [hl]

/-- C25. In a ledger where no two rows of `ConcertSeats` carry the same id, and whatever
the outcome of the call: a call of `addUserSeat` keeps every reservation of the ledger,
with its user, its concert and its links, and changes the status of no row of
`ConcertSeats` other than the rows of the concert of the call whose id is requested (a
row of another concert keeps its status also when its id is among the requested ones);
a call of `deleteUserSeat` keeps, with its links, every reservation with another id
than the one it is given, and the reservation with that id as well when the call
deletes nothing (no reservation of the user has the id, or the reservation has no
link), and it changes the status of no row whose id is not linked to the reservation,
and of no row at all when no reservation of the user has the id. -/
theorem call_frame (db : Ledger) (hids : ConcertSeatIds db) :
    (∀ (concertID : Int) (addSeatBody : List Int) (theaterID userID : Int),
      (∀ r ∈ db.reservations,
        r ∈ (addUserSeat db concertID addSeatBody theaterID userID).db.reservations ∧
        getSeats (addUserSeat db concertID addSeatBody theaterID userID).db r.reservation_id =
          getSeats db r.reservation_id) ∧
      List.Forall₂ (fun s s' : ConcertSeat =>
          s'.concert_seat_id = s.concert_seat_id ∧ s'.concert_id = s.concert_id ∧
          s'.seat_id = s.seat_id ∧
          (¬ (s.concert_id = concertID ∧ s.concert_seat_id ∈ addSeatBody) →
            s'.status = s.status))
        db.concertSeats (addUserSeat db concertID addSeatBody theaterID userID).db.concertSeats) ∧
    ∀ (user_id reservationId : Int),
      (∀ r ∈ db.reservations,
        (r.reservation_id ≠ reservationId ∨ getReservation db user_id reservationId = none ∨
          getSeats db reservationId = []) →
        r ∈ (deleteUserSeat db user_id reservationId).db.reservations ∧
        getSeats (deleteUserSeat db user_id reservationId).db r.reservation_id =
          getSeats db r.reservation_id) ∧
      List.Forall₂ (fun s s' : ConcertSeat =>
          s'.concert_seat_id = s.concert_seat_id ∧ s'.concert_id = s.concert_id ∧
          s'.seat_id = s.seat_id ∧
          ((getReservation db user_id reservationId = none ∨
            ∀ l ∈ db.reservationSeat, l.reservation_id = reservationId →
              l.concert_seat_id ≠ s.concert_seat_id) → s'.status = s.status))
        db.concertSeats (deleteUserSeat db user_id reservationId).db.concertSeats := by
  constructor
  · intro concertID addSeatBody theaterID userID
    rcases addUserSeat_db_cases db concertID addSeatBody theaterID userID with
      ⟨_, h1⟩ | ⟨h1, _⟩
    · rw [h1]
      exact ⟨fun r hr => ⟨hr, rfl⟩, List.forall₂_same.2 (fun s _ => ⟨rfl, rfl, rfl, fun _ => rfl⟩)⟩
    · rw [h1]
      refine ⟨fun r hr => ⟨by simp [claimed, hr],
        getSeats_claimed_of_mem db concertID addSeatBody userID r hr⟩, ?_⟩
      simp only [claimed]
      rw [List.forall₂_map_right_iff]
      apply List.forall₂_same.2
      intro s hs
      by_cases hmem : s.concert_seat_id ∈
          (checkConcertSeats db concertID addSeatBody).map (fun seat => seat.concert_seat_id)
      · simp only [hmem, if_true, true_and]
        intro hnot
        exfalso
        obtain ⟨t, ht, hid⟩ := List.mem_map.1 hmem
        have ht' := (mem_checkConcertSeats db concertID addSeatBody t).1 ht
        have hst : t = s := List.inj_on_of_nodup_map hids ht'.1 hs hid
        rw [hst] at ht'
        exact hnot ⟨ht'.2.1, ht'.2.2⟩
      · simp [hmem]
  · intro user_id reservationId
    rcases deleteUserSeat_db_cases db user_id reservationId with h1 | ⟨h1, hex, hseats⟩
    · rw [h1]
      exact ⟨fun r hr _ => ⟨hr, rfl⟩,
        List.forall₂_same.2 (fun s _ => ⟨rfl, rfl, rfl, fun _ => rfl⟩)⟩
    · have hsome : getReservation db user_id reservationId ≠ none := by
        intro hnone
        have := (getReservation_isSome db user_id reservationId).2 hex
        rw [hnone] at this
        exact absurd this (by simp)
      rw [h1]
      constructor
      · intro r hr hcond
        have hne : r.reservation_id ≠ reservationId := by
          rcases hcond with h | h | h
          · exact h
          · exact absurd h hsome
          · exact absurd h hseats
        refine ⟨?_, getSeats_released_of_ne db reservationId _ hne⟩
        simp only [released, deleteReservation, deleteReservationSeat, updateSeatsAvailable,
          List.mem_filter]
        exact ⟨hr, by simpa using hne⟩
      · simp only [released, deleteReservation, deleteReservationSeat, updateSeatsAvailable]
        rw [List.forall₂_map_right_iff]
        apply List.forall₂_same.2
        intro s _
        by_cases hmem : s.concert_seat_id ∈
            (getSeats db reservationId).map (fun seat => seat.concert_seat_id)
        · simp only [hmem, if_true, true_and]
          intro hnot
          exfalso
          rcases hnot with hnone | hnot
          · exact hsome hnone
          · obtain ⟨l, hl, hid⟩ := List.mem_map.1 hmem
            simp only [getSeats, List.mem_filter, beq_iff_eq] at hl
            exact hnot l hl.1 hl.2 hid
        · simp [hmem]

/-- Witness of C25: concert 1 is asked for the ids 1 and 3, and the id 3 is a seat of
concert 2. -/
theorem call_frame_witness :
    List.Forall₂ (fun s s' : ConcertSeat =>
        s'.concert_seat_id = s.concert_seat_id ∧ s'.concert_id = s.concert_id ∧
        s'.seat_id = s.seat_id ∧
        (¬ (s.concert_id = 1 ∧ s.concert_seat_id ∈ [1, 3]) → s'.status = s.status))
      twoConcertLedger.concertSeats
      (addUserSeat twoConcertLedger 1 [1, 3] 7 42).db.concertSeats :=
  ((call_frame twoConcertLedger (by decide)).1 1 [1, 3] 7 42).2

/-- C26. Two non-empty seat lists with the same elements make the same call: the same
outcome (the same error with the same ids, or success) and the same ledger afterwards.
And on success, in a ledger whose tables keep their keys and references, no seat id gets
two links from the new reservation, a repeated id included, and every requested id that
is a seat of the concert gets exactly one. -/
theorem addUserSeat_same_set (db : Ledger) (concertID theaterID userID : Int)
    (l₁ l₂ : List Int) (h₁ : l₁ ≠ []) (h₂ : l₂ ≠ []) (hset : ∀ i, i ∈ l₁ ↔ i ∈ l₂) :
    addUserSeat db concertID l₁ theaterID userID =
        addUserSeat db concertID l₂ theaterID userID ∧
      (SeatKeys db → LinksOwned db →
        ∀ m, (addUserSeat db concertID l₁ theaterID userID).outcome = .ok m →
          ∀ i, (((getSeats (addUserSeat db concertID l₁ theaterID userID).db
              (lastID db.reservations)).map (fun l => l.concert_seat_id)).count i ≤ 1) ∧
            (i ∈ l₁ → (∃ s ∈ db.concertSeats, s.concert_id = concertID ∧
                s.concert_seat_id = i) →
              ((getSeats (addUserSeat db concertID l₁ theaterID userID).db
                (lastID db.reservations)).map (fun l => l.concert_seat_id)).count i = 1)) := by
  have hsel : checkConcertSeats db concertID l₁ = checkConcertSeats db concertID l₂ := by
    simp only [checkConcertSeats]
    apply List.filter_congr
    intro s _
    have : l₁.contains s.concert_seat_id = l₂.contains s.concert_seat_id := by
      rw [Bool.eq_iff_iff]
      simpa using hset s.concert_seat_id
    rw [this]
  constructor
  · rw [addUserSeat_eq, addUserSeat_eq]
    simp only [h₁, h₂, if_false, hsel, claimed]
  · intro hk hl m hok i
    obtain ⟨hres, _⟩ := addUserSeat_of_ok db concertID l₁ theaterID userID m hok
    constructor
    · rw [hres]
      simp only
      rw [getSeats_claimed db concertID l₁ userID hl, List.map_map]
      exact List.nodup_iff_count_le_one.1
        (nodup_checkConcertSeats_ids db concertID l₁ hk) i
    · intro hi hseat
      exact ((addUserSeat_ok_effect db concertID l₁ theaterID userID m hk hl hok).2.2
        i hi hseat).2

/-- Witness of C26: seats 5 and 6 asked for as `[5, 6]` and as `[6, 5, 6]`. -/
theorem addUserSeat_same_set_witness :
    addUserSeat sampleLedger 1 [5, 6] 7 42 = addUserSeat sampleLedger 1 [6, 5, 6] 7 42 ∧
      (addUserSeat sampleLedger 1 [6, 5, 6] 7 42).db.reservationSeat = [⟨1, 5⟩, ⟨1, 6⟩] :=
  ⟨(addUserSeat_same_set sampleLedger 1 7 42 [5, 6] [6, 5, 6] (by decide) (by decide)
    (by intro i; simp only [List.mem_cons, List.mem_singleton, List.mem_nil_iff]; tauto)).1,
    by decide⟩

/-! ## Decimal digits and `parseInt` -/

theorem digitChar_mem (k : Nat) (hk : k < 10) :
    Nat.digitChar k ∈ decimalDigits ∧ (Nat.digitChar k).toNat - 48 = k := by
  interval_cases k <;> decide

theorem toDigitsCore_spec (fuel n : Nat) (acc : List Char) (h : n < fuel) :
    ∃ ds : List Char, Nat.toDigitsCore 10 fuel n acc = ds ++ acc ∧ ds ≠ [] ∧
      (∀ c ∈ ds, c ∈ decimalDigits) ∧ decimalValue ds = n := by
  induction fuel generalizing n acc with
  | zero => omega
  | succ fuel ih =>
    have hd := digitChar_mem (n % 10) (Nat.mod_lt _ (by norm_num))
    unfold Nat.toDigitsCore
    by_cases h0 : n / 10 = 0
    · simp only [h0, if_true]
      refine ⟨[Nat.digitChar (n % 10)], rfl, by simp, ?_, ?_⟩
      · intro c hc
        rw [List.mem_singleton.1 hc]
        exact hd.1
      · simp only [decimalValue, List.foldl_cons, List.foldl_nil, hd.2]
        omega
    · simp only [h0, if_false]
      obtain ⟨ds, hds, _, hall, hval⟩ := ih (n / 10) (Nat.digitChar (n % 10) :: acc) (by omega)
      refine ⟨ds ++ [Nat.digitChar (n % 10)], by simp [hds], by simp, ?_, ?_⟩
      · intro c hc
        rcases List.mem_append.1 hc with hc | hc
        · exact hall c hc
        · rw [List.mem_singleton.1 hc]
          exact hd.1
      · have : decimalValue (ds ++ [Nat.digitChar (n % 10)]) =
            10 * decimalValue ds + ((Nat.digitChar (n % 10)).toNat - 48) := by
          simp [decimalValue, List.foldl_append]
        rw [this, hval, hd.2]
        omega

/-- The decimal text of a natural number: digits only, at least one, and they write
the number. -/
theorem toDigits_spec (n : Nat) :
    Nat.toDigits 10 n ≠ [] ∧ (∀ c ∈ Nat.toDigits 10 n, c ∈ decimalDigits) ∧
      decimalValue (Nat.toDigits 10 n) = n := by
  obtain ⟨ds, hds, hne, hall, hval⟩ := toDigitsCore_spec (n + 1) n [] (by omega)
  rw [List.append_nil] at hds
  unfold Nat.toDigits
  rw [hds]
  exact ⟨hne, hall, hval⟩

theorem decimalDigits_facts :
    ∀ c ∈ decimalDigits, isStrWhiteSpace c = false ∧ isLineTerminator c = false ∧
      c ≠ '-' ∧ c ≠ '+' ∧ c ≠ 'x' ∧ c ≠ 'X' ∧ c ≠ ',' ∧ c ≠ ' ' ∧
      digitValue? 10 c = some (c.toNat - 48) := by
  decide

theorem takeWhile_digits (ds : List Char) (hall : ∀ c ∈ ds, c ∈ decimalDigits) :
    ds.takeWhile (fun c => (digitValue? 10 c).isSome) = ds := by
  rw [List.takeWhile_eq_self_iff]
  intro c hc
  rw [(decimalDigits_facts c (hall c hc)).2.2.2.2.2.2.2.2]
  rfl

theorem foldl_digits (ds : List Char) (hall : ∀ c ∈ ds, c ∈ decimalDigits) (acc : Nat) :
    ds.foldl (fun n c => 10 * n + (digitValue? 10 c).getD 0) acc =
      ds.foldl (fun n c => 10 * n + (c.toNat - 48)) acc := by
  induction ds generalizing acc with
  | nil => rfl
  | cons d ds ih =>
    simp only [List.foldl_cons]
    rw [(decimalDigits_facts d (hall d (by simp))).2.2.2.2.2.2.2.2, Option.getD_some]
    exact ih (fun c hc => hall c (by simp [hc])) _

/-- `parseInt` of a string of decimal digits is the number they write. -/
theorem parseInt_digits (ds : List Char) (hne : ds ≠ [])
    (hall : ∀ c ∈ ds, c ∈ decimalDigits) : parseInt ds = some (decimalValue ds : Int) := by
  cases ds with
  | nil => exact absurd rfl hne
  | cons d rest =>
    have hd := decimalDigits_facts d (hall d (by simp))
    have hdrop : (d :: rest).dropWhile isStrWhiteSpace = d :: rest := by
      simp [List.dropWhile_cons, hd.1]
    have hhex : ((d :: rest).take 2 == ['0', 'x'] || (d :: rest).take 2 == ['0', 'X']) =
        false := by
      cases rest with
      | nil => simp
      | cons e r =>
        have he := decimalDigits_facts e (hall e (by simp))
        simp [he.2.2.2.2.1, he.2.2.2.2.2.1]
    have htake := takeWhile_digits (d :: rest) hall
    have hfold := foldl_digits (d :: rest) hall 0
    have h1 : ((some d : Option Char) == some '-') = false := by simp [hd.2.2.1]
    have h2 : ((some d : Option Char) == some '+') = false := by simp [hd.2.2.2.1]
    simp only [parseInt, hdrop, List.head?_cons, h1, h2, Bool.or_self, Bool.false_eq_true,
      if_false, hhex, htake, hfold]
    simp [decimalValue]

/-- `parseInt` skips a space before the digits. -/
theorem parseInt_space_digits (ds : List Char) (hne : ds ≠ [])
    (hall : ∀ c ∈ ds, c ∈ decimalDigits) :
    parseInt (' ' :: ds) = some (decimalValue ds : Int) := by
  have h := parseInt_digits ds hne hall
  have hsp : isStrWhiteSpace ' ' = true := by decide
  simp only [parseInt, List.dropWhile_cons, hsp, if_true] at h ⊢
  exact h

/-! ## The token endpoint: validation of `concertID` -/

/-- A text whose first character is a digit other than `0` is a number for `parseInt`,
whatever follows the digit. -/
theorem parseInt_digit_cons (d : Char) (rest : List Char) (hd : d ∈ decimalDigits)
    (h0 : d ≠ '0') : (parseInt (d :: rest)).isSome = true := by
  have hf := decimalDigits_facts d hd
  have hdrop : (d :: rest).dropWhile isStrWhiteSpace = d :: rest := by
    simp [List.dropWhile_cons, hf.1]
  have h1 : ((some d : Option Char) == some '-') = false := by simp [hf.2.2.1]
  have h2 : ((some d : Option Char) == some '+') = false := by simp [hf.2.2.2.1]
  have hhex : ((d :: rest).take 2 == ['0', 'x'] || (d :: rest).take 2 == ['0', 'X']) =
      false := by
    cases rest with
    | nil => simp
    | cons e r => simp [h0]
  have htake : (d :: rest).takeWhile (fun c => (digitValue? 10 c).isSome) =
      d :: rest.takeWhile (fun c => (digitValue? 10 c).isSome) := by
    simp [List.takeWhile_cons, hf.2.2.2.2.2.2.2.2]
  simp only [parseInt, hdrop, List.head?_cons, h1, h2, Bool.or_self, Bool.false_eq_true,
    if_false, hhex, htake]
  simp

theorem authToken_eq_badRequest (asInteger : String → Option Int) (db : Ledger)
    (user : SessionUser) (s : String) (now : Nat)
    (h : s = "" ∨ parseInt s.toList = none) :
    authToken asInteger db user (some s) now =
      ⟨.badRequest "Invalid or missing concertID", db⟩ := by
  have hc : (s.isEmpty || (parseInt s.toList).isNone) = true := by
    rcases h with h | h
    · rw [h]
      rfl
    · rw [h]
      exact Bool.or_true _
  simp only [authToken, hc, if_true]

theorem authToken_eq_token (asInteger : String → Option Int) (db : Ledger)
    (user : SessionUser) (s : String) (now : Nat)
    (h : (parseInt s.toList).isSome = true) :
    authToken asInteger db user (some s) now =
      ⟨.token (sign ⟨.array (((asInteger s).elim [] (getReserveSeats db user.user_id)).map
        JsValue.ofInt), user.role⟩ jwtSecret expireTime now), db⟩ := by
  have hne : s.isEmpty = false := by
    cases hs : s.isEmpty with
    | false => rfl
    | true =>
      rw [(String.isEmpty_iff s).1 hs] at h
      exact absurd h (by decide)
  have hp : (parseInt s.toList).isNone = false := by
    cases hq : parseInt s.toList with
    | none => rw [hq] at h; exact absurd h (by decide)
    | some v => rfl
  simp only [authToken, hne, hp, Bool.or_self, Bool.false_eq_true, if_false]
  cases asInteger s <;> rfl

/-- C23 (amended): token issuance fails with the 400 error `Invalid or missing concertID`
exactly when the parameter is missing, empty, or a text `parseInt` reads no number
from; in every other case a token is issued, in particular for every text that starts
with a digit other than `0`, whatever follows it.  The ledger is the same after the
request. -/
theorem authToken_badRequest_iff (asInteger : String → Option Int) (db : Ledger)
    (user : SessionUser) (concertID : Option String) (now : Nat) :
    ((authToken asInteger db user concertID now).response =
        .badRequest "Invalid or missing concertID" ↔
      (concertID = none ∨ ∃ s, concertID = some s ∧ (s = "" ∨ parseInt s.toList = none))) ∧
    ((∃ jwtToken, (authToken asInteger db user concertID now).response = .token jwtToken) ↔
      ∃ s, concertID = some s ∧ s ≠ "" ∧ (parseInt s.toList).isSome = true) ∧
    (authToken asInteger db user concertID now).db = db ∧
    (∀ d ∈ decimalDigits, d ≠ '0' → ∀ rest : List Char, ∃ jwtToken,
      (authToken asInteger db user (some (String.mk (d :: rest))) now).response =
        .token jwtToken) := by
  have hlast : ∀ d ∈ decimalDigits, d ≠ '0' → ∀ rest : List Char, ∃ jwtToken,
      (authToken asInteger db user (some (String.mk (d :: rest))) now).response =
        .token jwtToken := by
    intro d hd h0 rest
    rw [authToken_eq_token asInteger db user _ now (parseInt_digit_cons d rest hd h0)]
    exact ⟨_, rfl⟩
  cases concertID with
  | none =>
    refine ⟨⟨fun _ => Or.inl rfl, fun _ => rfl⟩, ⟨?_, ?_⟩, rfl, hlast⟩
    · rintro ⟨t, ht⟩
      exact absurd ht (by simp [authToken])
    · rintro ⟨s, hs, _⟩
      exact absurd hs (by simp)
  | some s =>
    by_cases h : s = "" ∨ parseInt s.toList = none
    · rw [authToken_eq_badRequest asInteger db user s now h]
      refine ⟨⟨fun _ => Or.inr ⟨s, rfl, h⟩, fun _ => rfl⟩, ⟨?_, ?_⟩, rfl, hlast⟩
      · rintro ⟨t, ht⟩
        exact absurd ht (by simp)
      · rintro ⟨s', hs', hne, hp⟩
        cases hs'
        rcases h with h | h
        · exact absurd h hne
        · rw [h] at hp
          exact absurd hp (by decide)
    · have hp : (parseInt s.toList).isSome = true := by
        cases hq : parseInt s.toList with
        | none => exact absurd (Or.inr hq) h
        | some v => rfl
      rw [authToken_eq_token asInteger db user s now hp]
      refine ⟨⟨fun hr => absurd hr (by simp), ?_⟩, ⟨fun _ => ⟨s, rfl, fun hs => h (Or.inl hs),
        hp⟩, fun _ => ⟨_, rfl⟩⟩, rfl, hlast⟩
      rintro (hn | ⟨s', hs', hbad⟩)
      · exact absurd hn (by simp)
      · cases hs'
        exact absurd hbad h

theorem authToken_badRequest_iff_witness :
    (authToken decimalInteger? bookedLedger ⟨42, .ofInt 1⟩ (some "abc") 100).response =
      .badRequest "Invalid or missing concertID" :=
  (authToken_badRequest_iff decimalInteger? bookedLedger ⟨42, .ofInt 1⟩ (some "abc") 100).1.2
    (Or.inr ⟨"abc", rfl, Or.inr (by decide)⟩)

/-- C23 (counterexample): `1abc` is not the decimal notation of a number, and the request
is answered with a token (with no reservations), not with the 400 error. -/
theorem authToken_trailing_text_counterexample :
    decimalInteger? "1abc" = none ∧
    (authToken decimalInteger? bookedLedger ⟨42, .ofInt 1⟩ (some "1abc") 100).response =
      .token ⟨⟨.array [], .ofInt 1⟩, jwtSecret, 100, 135⟩ ∧
    (authToken decimalInteger? bookedLedger ⟨42, .ofInt 1⟩ (some "1abc") 100).response ≠
      .badRequest "Invalid or missing concertID" := by
  have h : authToken decimalInteger? bookedLedger ⟨42, .ofInt 1⟩ (some "1abc") 100 =
      ⟨.token ⟨⟨.array [], .ofInt 1⟩, jwtSecret, 100, 135⟩, bookedLedger⟩ := by
    rw [authToken_eq_token decimalInteger? bookedLedger ⟨42, .ofInt 1⟩ "1abc" 100 (by decide)]
    have hd : decimalInteger? "1abc" = none := by decide
    rw [hd]
    rfl
  refine ⟨by decide, ?_, ?_⟩
  · rw [h]
  · rw [h]
    simp

/-! ## The token endpoint: the signed payload -/

theorem filter_eq_find?_toList {α : Type} (key : α → Int) (k : Int) (l : List α)
    (h : (l.map key).Nodup) :
    l.filter (fun x => k == key x) = (l.find? (fun x => k == key x)).toList := by
  induction l with
  | nil => rfl
  | cons a l ih =>
    rw [List.map_cons, List.nodup_cons] at h
    by_cases hk : (k == key a) = true
    · have hnil : l.filter (fun x => k == key x) = [] := by
        rw [List.filter_eq_nil_iff]
        intro x hx hkx
        have h1 : k = key a := by simpa using hk
        have h2 : k = key x := by simpa using hkx
        exact h.1 (List.mem_map.2 ⟨x, hx, by rw [← h1, h2]⟩)
      simp only [List.filter_cons, hk, if_true, List.find?_cons, hnil, Option.toList]
    · simp only [List.filter_cons, hk, if_false, List.find?_cons, Bool.false_eq_true]
      exact ih h.2

theorem flatMap_toList_eq_filterMap {α β : Type} (g : α → Option β) (l : List α) :
    l.flatMap (fun a => (g a).toList) = l.filterMap g := by
  induction l with
  | nil => rfl
  | cons a l ih =>
    rw [List.flatMap_cons, ih]
    cases hg : g a <;> simp [List.filterMap_cons, hg, Option.toList]

theorem filterMap_flatMap_eq {α β γ : Type} (f : α → List β) (g : β → Option γ)
    (l : List α) : (l.flatMap f).filterMap g = l.flatMap (fun a => (f a).filterMap g) := by
  induction l with
  | nil => rfl
  | cons a l ih => rw [List.flatMap_cons, List.filterMap_append, ih, List.flatMap_cons]

theorem forall₂_filterMap {α β : Type} (g : α → Option β) (l : List α)
    (h : ∀ a ∈ l, (g a).isSome = true) :
    List.Forall₂ (fun a b => g a = some b) l (l.filterMap g) := by
  induction l with
  | nil => exact List.Forall₂.nil
  | cons a l ih =>
    cases hg : g a with
    | none =>
      have := h a (by simp)
      rw [hg] at this
      exact absurd this (by simp)
    | some b =>
      rw [List.filterMap_cons, hg]
      exact List.Forall₂.cons hg (ih (fun x hx => h x (by simp [hx])))

/-- With the keys of `ConcertSeats` and `Seats`, the join of `getReserveSeats` lists the
row number of the seat of every link of the user's reservations for the concert. -/
theorem getReserveSeats_eq (db : Ledger) (userID concertID : Int)
    (hcs : ConcertSeatIds db) (hs : SeatIds db) :
    getReserveSeats db userID concertID = linkedRowNumbers db userID concertID := by
  have hseat : ∀ cs : ConcertSeat,
      (db.seats.filter (fun s => cs.seat_id == s.seat_id)).map (fun s => s.row_number) =
        ((db.seats.find? (fun s => cs.seat_id == s.seat_id)).map
          (fun s => s.row_number)).toList := by
    intro cs
    rw [filter_eq_find?_toList (fun s : Seat => s.seat_id) cs.seat_id db.seats hs]
    cases db.seats.find? (fun s => cs.seat_id == s.seat_id) <;> rfl
  have hlink : ∀ rs : ReservationSeat,
      ((db.concertSeats.filter (fun cs => rs.concert_seat_id == cs.concert_seat_id)).flatMap
        fun cs => (db.seats.filter (fun s => cs.seat_id == s.seat_id)).map
          fun s => s.row_number) = (rowNumberOf db rs.concert_seat_id).toList := by
    intro rs
    rw [filter_eq_find?_toList (fun cs : ConcertSeat => cs.concert_seat_id)
      rs.concert_seat_id db.concertSeats hcs]
    unfold rowNumberOf
    cases db.concertSeats.find? (fun cs => rs.concert_seat_id == cs.concert_seat_id) with
    | none => rfl
    | some cs =>
      simp only [Option.toList, List.flatMap_cons, List.flatMap_nil, List.append_nil,
        Option.some_bind]
      exact hseat cs
  have hres : ∀ r : Reservation,
      db.reservationSeat.filter (fun rs => r.reservation_id == rs.reservation_id) =
        getSeats db r.reservation_id := by
    intro r
    unfold getSeats
    congr 1
    funext rs
    by_cases h : r.reservation_id = rs.reservation_id
    · simp [h]
    · have h' : ¬ rs.reservation_id = r.reservation_id := fun e => h e.symm
      simp [h, h']
  unfold getReserveSeats linkedRowNumbers linkedSeats
  rw [filterMap_flatMap_eq]
  congr 1
  funext r
  rw [hres r, ← flatMap_toList_eq_filterMap]
  congr 1
  funext rs
  exact hlink rs

theorem linkedSeats_nil (db : Ledger) (userID concertID : Int)
    (h : ∀ r ∈ db.reservations, ¬ (r.concert_id = concertID ∧ r.user_id = userID)) :
    linkedSeats db userID concertID = [] := by
  have hf : db.reservations.filter
      (fun r => r.concert_id == concertID && r.user_id == userID) = [] := by
    rw [List.filter_eq_nil_iff]
    intro r hr hc
    exact h r hr (by simpa using hc)
  unfold linkedSeats
  rw [hf]
  rfl

/-- C22: for an accepted `concertID` the endpoint answers with a token signed with the
secret of the process whose payload has the session role and expires 35 seconds after
issuance, and the ledger is the same after the request.  When the parameter is the
integer `id`, `reservations` is the list of the row numbers of the seats linked to the
user's reservations for the concert `id`, one entry per link and in the order of the
links when every link references a seat, and empty when the user has no reservation
for the concert; when the parameter is no integer, no concert has it as id and
`reservations` is empty.  The keys of `ConcertSeats` and `Seats` are hypotheses. -/
theorem authToken_payload (asInteger : String → Option Int) (db : Ledger)
    (user : SessionUser) (s : String) (now : Nat)
    (hcs : ConcertSeatIds db) (hs : SeatIds db)
    (hacc : (parseInt s.toList).isSome = true) :
    ∃ jwtToken : SignedToken,
      authToken asInteger db user (some s) now = ⟨.token jwtToken, db⟩ ∧
      jwtToken.payload.role = user.role ∧
      jwtToken.secret = jwtSecret ∧
      jwtToken.issuedAt = now ∧
      jwtToken.expiresAt = jwtToken.issuedAt + 35 ∧
      (∀ id, asInteger s = some id →
        jwtToken.payload.reservations =
          .array ((linkedRowNumbers db user.user_id id).map JsValue.ofInt) ∧
        ((∀ rs ∈ linkedSeats db user.user_id id,
            (rowNumberOf db rs.concert_seat_id).isSome = true) →
          List.Forall₂ (fun rs n => rowNumberOf db rs.concert_seat_id = some n)
            (linkedSeats db user.user_id id) (linkedRowNumbers db user.user_id id)) ∧
        ((∀ r ∈ db.reservations, ¬ (r.concert_id = id ∧ r.user_id = user.user_id)) →
          jwtToken.payload.reservations = .array [])) ∧
      (asInteger s = none → jwtToken.payload.reservations = .array []) := by
  refine ⟨_, authToken_eq_token asInteger db user s now hacc, rfl, rfl, rfl, rfl, ?_, ?_⟩
  · intro id hid
    have hpay : (sign ⟨.array (((asInteger s).elim [] (getReserveSeats db user.user_id)).map
        JsValue.ofInt), user.role⟩ jwtSecret expireTime now).payload.reservations =
        .array ((linkedRowNumbers db user.user_id id).map JsValue.ofInt) := by
      rw [hid]
      show JsValue.array ((getReserveSeats db user.user_id id).map JsValue.ofInt) = _
      rw [getReserveSeats_eq db user.user_id id hcs hs]
    refine ⟨hpay, ?_, ?_⟩
    · intro hall
      exact forall₂_filterMap (fun rs : ReservationSeat => rowNumberOf db rs.concert_seat_id)
        _ hall
    · intro hnone
      rw [hpay]
      unfold linkedRowNumbers
      rw [linkedSeats_nil db user.user_id id hnone]
      rfl
  · intro hnone
    rw [hnone]
    rfl

theorem authToken_payload_witness :
    ∃ jwtToken : SignedToken,
      (authToken decimalInteger? bookedLedger ⟨42, .ofInt 1⟩ (some "1") 100).response =
        .token jwtToken ∧
      jwtToken.payload.reservations = .array [.ofInt 1, .ofInt 2] ∧
      jwtToken.expiresAt = 135 := by
  obtain ⟨jwtToken, h, _, _, hnow, hexp, hid, _⟩ :=
    authToken_payload decimalInteger? bookedLedger ⟨42, .ofInt 1⟩ "1" 100
      (by decide) (by decide) (by decide)
  refine ⟨jwtToken, by rw [h], ?_, by rw [hexp, hnow]⟩
  rw [(hid 1 (by decide)).1]
  have hl : linkedRowNumbers bookedLedger 42 1 = [1, 2] := by decide
  rw [hl]
  rfl

/-! ## The message of the occupied seats, from server to client -/

theorem isPrefixOf_append_of_le (l a b : List Char) (h : l.length ≤ a.length) :
    l.isPrefixOf (a ++ b) = l.isPrefixOf a := by
  apply Bool.eq_iff_iff.2
  rw [List.isPrefixOf_iff_prefix, List.isPrefixOf_iff_prefix]
  constructor
  · intro hp
    exact List.prefix_of_prefix_length_le hp (List.prefix_append a b) h
  · intro hp
    exact hp.trans (List.prefix_append a b)

theorem matchAfter_self (lit rest : List Char) (hlit : lit ≠ []) :
    matchAfter lit (lit ++ rest) = some (rest.takeWhile (fun a => !isLineTerminator a)) := by
  cases lit with
  | nil => exact absurd rfl hlit
  | cons c l =>
    have hp : (c :: l).isPrefixOf (c :: (l ++ rest)) = true :=
      List.isPrefixOf_iff_prefix.2 (List.prefix_append (c :: l) rest)
    have hd : (c :: (l ++ rest)).drop (c :: l).length = rest := by
      simp
    rw [List.cons_append, matchAfter, if_pos hp, hd]

theorem matchAfter_skip (lit pre rest : List Char)
    (h : ∀ suf ∈ pre.tails, suf ≠ [] → lit.isPrefixOf (suf ++ lit) = false) :
    matchAfter lit (pre ++ (lit ++ rest)) = matchAfter lit (lit ++ rest) := by
  induction pre with
  | nil => rfl
  | cons c pre ih =>
    have hc : lit.isPrefixOf (c :: (pre ++ (lit ++ rest))) = false := by
      have h1 : c :: (pre ++ (lit ++ rest)) = ((c :: pre) ++ lit) ++ rest := by simp
      rw [h1, isPrefixOf_append_of_le lit _ rest (by simp; omega)]
      exact h (c :: pre) ((List.mem_tails _ _).2 (List.suffix_refl _)) (by simp)
    rw [List.cons_append, matchAfter, hc]
    simp only [Bool.false_eq_true, if_false]
    apply ih
    intro suf hsuf hne
    exact h suf ((List.mem_tails _ _).2
      (((List.mem_tails _ _).1 hsuf).trans (List.suffix_cons c pre))) hne

theorem includes_of_isPrefixOf (s lit : List Char) (h : lit.isPrefixOf s = true) :
    includes s lit = true := by
  cases s with
  | nil =>
    cases lit with
    | nil => rfl
    | cons a l => exact absurd h (by simp [List.isPrefixOf])
  | cons c cs => simp [includes, h]

theorem includes_append (pre s lit : List Char) (h : includes s lit = true) :
    includes (pre ++ s) lit = true := by
  induction pre with
  | nil => exact h
  | cons c pre ih => simp [includes, ih]

theorem takeWhile_not_lineTerminator (p : List Char)
    (hp : ∀ c ∈ p, isLineTerminator c = false) :
    p.takeWhile (fun a => !isLineTerminator a) = p := by
  rw [List.takeWhile_eq_self_iff]
  intro c hc
  rw [hp c hc]
  rfl

/-- The rewrite of `ApiServices.addUserSeat` keeps what follows `Occupied seat IDs: `. -/
theorem apiAddUserSeatError_seats (p axiosMessage : List Char)
    (hp : ∀ c ∈ p, isLineTerminator c = false) :
    apiAddUserSeatError
        ("One or more seats are not available. Occupied seat IDs: ".toList ++ p)
        axiosMessage =
      some ("One or more seats are not available: ".toList ++ p) := by
  have hinc : includes
      ("One or more seats are not available. Occupied seat IDs: ".toList ++ p)
      "One or more seats are not available".toList = true :=
    includes_of_isPrefixOf _ _ (by
      rw [isPrefixOf_append_of_le _ _ _ (by decide)]
      decide)
  have hsplit : "One or more seats are not available. Occupied seat IDs: ".toList =
      "One or more seats are not available. ".toList ++ "Occupied seat IDs: ".toList := by
    decide
  have hm : matchAfter "Occupied seat IDs: ".toList
      ("One or more seats are not available. Occupied seat IDs: ".toList ++ p) = some p := by
    rw [hsplit, List.append_assoc, matchAfter_skip _ _ _ (by decide),
      matchAfter_self _ _ (by decide), takeWhile_not_lineTerminator p hp]
  simp only [apiAddUserSeatError, hinc, if_true, hm, Option.map_some']

/-- The wrapping of `handleAdd` puts `Error: ` before the message. -/
theorem handleAddError_seats (p : List Char) :
    handleAddError ("One or more seats are not available: ".toList ++ p) =
      "Error: ".toList ++ ("One or more seats are not available: ".toList ++ p) := by
  have hinc : includes ("One or more seats are not available: ".toList ++ p)
      "One or more seats are not available".toList = true :=
    includes_of_isPrefixOf _ _ (by
      rw [isPrefixOf_append_of_le _ _ _ (by decide)]
      decide)
  have hne : ("One or more seats are not available: ".toList ++ p).isEmpty = false := by
    cases h : ("One or more seats are not available: ".toList ++ p).isEmpty with
    | false => rfl
    | true =>
      have h1 := List.append_eq_nil.1 (List.isEmpty_iff.1 h)
      exact absurd h1.1 (by decide)
  simp only [handleAddError, hinc, if_true, errorToString, hne, Bool.false_eq_true, if_false]

/-- The parse of `handleConfirmSelection` splits what follows `not available: `. -/
theorem occupiedSeatsArray_seats (p : List Char)
    (hp : ∀ c ∈ p, isLineTerminator c = false) :
    occupiedSeatsArray
        ("Error: ".toList ++ ("One or more seats are not available: ".toList ++ p)) =
      some ((p.splitOn ',').map (fun id => parseInt id)) := by
  have hinc : includes
      ("Error: ".toList ++ ("One or more seats are not available: ".toList ++ p))
      "One or more seats are not available".toList = true :=
    includes_append _ _ _ (includes_of_isPrefixOf _ _ (by
      rw [isPrefixOf_append_of_le _ _ _ (by decide)]
      decide))
  have hsplit : "Error: ".toList ++ "One or more seats are not available: ".toList =
      "Error: One or more seats are ".toList ++ "not available: ".toList := by
    decide
  have hm : matchAfter "not available: ".toList
      ("Error: ".toList ++ ("One or more seats are not available: ".toList ++ p)) =
      some p := by
    rw [← List.append_assoc, hsplit, List.append_assoc, matchAfter_skip _ _ _ (by decide),
      matchAfter_self _ _ (by decide), takeWhile_not_lineTerminator p hp]
  simp only [occupiedSeatsArray, hinc, if_true, hm, Option.map_some']

theorem intercalate_cons (sep x : List Char) (xs : List (List Char)) :
    sep.intercalate (x :: xs) = x ++ xs.flatMap (fun y => sep ++ y) := by
  induction xs generalizing x with
  | nil => simp [List.intercalate]
  | cons y ys ih =>
    have := ih y
    simp only [List.intercalate, List.intersperse, List.flatMap_cons] at this ⊢
    simp [this]

/-- Splitting `join(', ')` of texts without comma on `,` gives the first text and the
other texts with the space before them. -/
theorem splitOn_join (x : List Char) (xs : List (List Char))
    (h : ∀ t ∈ x :: xs, ',' ∉ t) :
    (", ".toList.intercalate (x :: xs)).splitOn ',' = x :: xs.map (fun t => ' ' :: t) := by
  have hform : ", ".toList.intercalate (x :: xs) =
      [','].intercalate (x :: xs.map (fun t => ' ' :: t)) := by
    rw [intercalate_cons, intercalate_cons, List.flatMap_map]
    rfl
  rw [hform]
  apply List.splitOn_intercalate
  · intro l hl
    rcases List.mem_cons.1 hl with hl | hl
    · rw [hl]
      exact h x (by simp)
    · obtain ⟨t, ht, rfl⟩ := List.mem_map.1 hl
      intro hc
      rcases List.mem_cons.1 hc with hc | hc
      · exact absurd hc (by decide)
      · exact h t (by simp [ht]) hc
  · simp

/-- The round trip for texts of decimal digits: every text comes back as the number it
writes. -/
theorem highlightedSeats_texts (x : List Char) (xs : List (List Char))
    (axiosMessage : List Char)
    (h : ∀ t ∈ x :: xs, t ≠ [] ∧ ∀ c ∈ t, c ∈ decimalDigits) :
    highlightedSeats
        ("One or more seats are not available. Occupied seat IDs: ".toList ++
          ", ".toList.intercalate (x :: xs)) axiosMessage =
      some ((x :: xs).map (fun t => some (decimalValue t : Int))) := by
  have hp : ∀ c ∈ ", ".toList.intercalate (x :: xs), isLineTerminator c = false := by
    intro c hc
    rw [intercalate_cons] at hc
    rcases List.mem_append.1 hc with hc | hc
    · exact (decimalDigits_facts c ((h x (by simp)).2 c hc)).2.1
    · obtain ⟨t, ht, hct⟩ := List.mem_flatMap.1 hc
      rcases List.mem_append.1 hct with hct | hct
      · have : c = ',' ∨ c = ' ' := by simpa using hct
        rcases this with rfl | rfl <;> decide
      · exact (decimalDigits_facts c ((h t (by simp [ht])).2 c hct)).2.1
  have hcomma : ∀ t ∈ x :: xs, ',' ∉ t := by
    intro t ht hc
    exact (decimalDigits_facts ',' ((h t ht).2 ',' hc)).2.2.2.2.2.2.1 rfl
  unfold highlightedSeats
  rw [apiAddUserSeatError_seats _ axiosMessage hp, Option.some_bind, handleAddError_seats,
    occupiedSeatsArray_seats _ hp, splitOn_join x xs hcomma, List.map_cons, List.map_cons,
    parseInt_digits x (h x (by simp)).1 (h x (by simp)).2, List.map_map]
  congr 2
  apply List.map_congr_left
  intro t ht
  exact parseInt_space_digits t (h t (by simp [ht])).1 (h t (by simp [ht])).2

theorem integerText_nonneg (i : Int) (hi : 0 ≤ i) :
    integerText i ≠ [] ∧ (∀ c ∈ integerText i, c ∈ decimalDigits) ∧
      (decimalValue (integerText i) : Int) = i := by
  cases i with
  | ofNat n =>
    have h := toDigits_spec n
    exact ⟨h.1, h.2.1, by
      show ((decimalValue (Nat.toDigits 10 n) : Nat) : Int) = Int.ofNat n
      rw [h.2.2]
      rfl⟩
  | negSucc n => exact absurd hi (by simp)

/-- C27: for every non-empty list of non-negative seat ids, the message the server
builds for it, after the rewrite of `ApiServices.addUserSeat`, the wrapping of
`handleAdd` and the parse of `handleConfirmSelection`, gives the page exactly the ids
of the list, in the same order, as the seats to highlight. -/
theorem highlightedSeats_round_trip (occupiedSeatIDs : List Int) (axiosMessage : List Char)
    (hne : occupiedSeatIDs ≠ []) (hnonneg : ∀ i ∈ occupiedSeatIDs, 0 ≤ i) :
    highlightedSeats (seatsUnavailableMessage occupiedSeatIDs) axiosMessage =
      some (occupiedSeatIDs.map some) := by
  cases occupiedSeatIDs with
  | nil => exact absurd rfl hne
  | cons i is =>
    unfold seatsUnavailableMessage
    rw [List.map_cons, highlightedSeats_texts (integerText i) (is.map integerText)
      axiosMessage ?_]
    · rw [← List.map_cons, List.map_map]
      congr 1
      apply List.map_congr_left
      intro j hj
      show some ((decimalValue (integerText j) : Nat) : Int) = some j
      rw [(integerText_nonneg j (hnonneg j hj)).2.2]
    · intro t ht
      rw [← List.map_cons] at ht
      obtain ⟨j, hj, rfl⟩ := List.mem_map.1 ht
      exact ⟨(integerText_nonneg j (hnonneg j hj)).1, (integerText_nonneg j (hnonneg j hj)).2.1⟩

theorem highlightedSeats_round_trip_witness :
    highlightedSeats (seatsUnavailableMessage [5, 6, 17]) [] = some [some 5, some 6, some 17] :=
  highlightedSeats_round_trip [5, 6, 17] [] (by decide) (by decide)

end ConcertSystem
